import Mathlib

/-!
# Offline synchronisation layer of the Agriperks front end

A shallow embedding of `src/utils/offline.js` and of the offline paths of the
entity pages (`src/pages/*.jsx`), with the properties of the synchronisation
layer stated and proved over it.

Conventions of the embedding:

* JavaScript values that the local tables hold are primitives (`JSValue`); an object
  stored in a Dexie table is a `Record`, the list of its own properties in insertion
  order.  Numbers are rationals together with `NaN` and the two infinities; a number read
  from text by `parseFloat` or `parseInt` is the nearest double (`numberValue`), and the
  sum of two numbers that are already held is exact.
* The IndexedDB database `FarmPerksDB` is one `Store` with one `Table` per object store
  that some module declares.  A table keeps its rows in primary-key order together with
  the number of its key generator.  Reads and clears are total; `add`, `put` and `delete`
  fail on the keys IndexedDB refuses.
* An `async` function becomes a function from the environment (connectivity, server
  answers, clock) and the state before the call to the outcome, the state after the
  call and the HTTP requests it issued.
-/

namespace Agriperks

/-! ## JavaScript values -/

/-- JavaScript number: `NaN`, a finite value, or an infinity. -/
inductive JSNumber where
  | nan
  | fin (q : ℚ)
  | posInf
  | negInf
  deriving DecidableEq

/-- Primitive JavaScript value. -/
inductive JSValue where
  | undefined
  | null
  | bool (b : Bool)
  | number (n : JSNumber)
  | string (s : String)
  deriving DecidableEq

namespace JSValue

/-- ToBoolean: the falsy values are `undefined`, `null`, `false`, `0`, `NaN` and `''`. -/
def truthy : JSValue → Bool
  | undefined => false
  | null => false
  | bool b => b
  | number .nan => false
  | number (.fin q) => decide (q ≠ 0)
  | number _ => true
  | string s => decide (s ≠ "")

/-- The JavaScript operator `a || b` on values. -/
def or (a b : JSValue) : JSValue := if a.truthy then a else b

/-- The test `typeof v === 'number'`. -/
def isNumber : JSValue → Bool
  | number _ => true
  | _ => false

/-- Strict equality `a === b` on primitives (`NaN` is not equal to itself). -/
def strictEq : JSValue → JSValue → Bool
  | undefined, undefined => true
  | null, null => true
  | bool a, bool b => a == b
  | number (.fin a), number (.fin b) => decide (a = b)
  | number .posInf, number .posInf => true
  | number .negInf, number .negInf => true
  | string a, string b => a == b
  | _, _ => false

end JSValue

/-! ## Records and tables -/

/-- A plain object with primitive fields: own properties in insertion order. -/
abbrev Record := List (String × JSValue)

namespace Record

/-- Property read `r[k]`: `undefined` when the property is absent. -/
def get (r : Record) (k : String) : JSValue :=
  match r.find? (fun kv => kv.1 == k) with
  | some kv => kv.2
  | none => .undefined

/-- Property write as done by an object literal `{ ...r, k: v }`: an existing
property keeps its position and takes the new value, a new one is appended. -/
def set (r : Record) (k : String) (v : JSValue) : Record :=
  if r.any (fun kv => kv.1 == k) then
    r.map (fun kv => if kv.1 == k then (kv.1, v) else kv)
  else r ++ [(k, v)]

end Record

/-- A Dexie table declared with the schema `++id`: its rows in primary-key order (what
`toArray()` returns) and the current number of the key generator of the object store. -/
structure Table where
  rows : List Record
  nextKey : Nat
  deriving DecidableEq

/-- A table that has never been written to. -/
def Table.empty : Table := ⟨[], 1⟩

/-- `table.toArray()`. -/
def Table.toArray (t : Table) : List Record := t.rows

/-- `table.clear()`: the rows go, the key generator keeps its number. -/
def Table.clear (t : Table) : Table := { t with rows := [] }

/-- The object stores of the IndexedDB database `FarmPerksDB`, by the names under which
the modules declare them: `offline.js` declares `products`, `sales`, `expenses`, `buyers`
and `marketPrices`; `MarketPrices.jsx` declares `prices`; `Sales.jsx` declares
`pendingDeletions`; `units.jsx` and `Users.jsx` declare `units` and `users`. -/
structure Store where
  products : Table
  sales : Table
  expenses : Table
  buyers : Table
  marketPrices : Table
  prices : Table
  pendingDeletions : Table
  units : Table
  users : Table
  deriving DecidableEq

/-- The store with every table empty. -/
def Store.empty : Store :=
  ⟨Table.empty, Table.empty, Table.empty, Table.empty, Table.empty, Table.empty, Table.empty,
    Table.empty, Table.empty⟩

/-! ## `src/utils/offline.js` -/

/-- The table names of the Dexie instance of `offline.js` (its `db.version(1).stores`). -/
inductive OfflineTable where
  | products
  | sales
  | expenses
  | buyers
  | marketPrices
  deriving DecidableEq

/-- `getOfflineRecords(type)`: `db[type].toArray()`. -/
def getOfflineRecords (type : OfflineTable) (db : Store) : List Record :=
  match type with
  | .products => db.products.toArray
  | .sales => db.sales.toArray
  | .expenses => db.expenses.toArray
  | .buyers => db.buyers.toArray
  | .marketPrices => db.marketPrices.toArray

/-- `clearOfflineRecords(type)`: `db[type].clear()`. -/
def clearOfflineRecords (type : OfflineTable) (db : Store) : Store :=
  match type with
  | .products => { db with products := db.products.clear }
  | .sales => { db with sales := db.sales.clear }
  | .expenses => { db with expenses := db.expenses.clear }
  | .buyers => { db with buyers := db.buyers.clear }
  | .marketPrices => { db with marketPrices := db.marketPrices.clear }

/-- `cleanRecord`: `const { id, ...cleanedRecord } = record`. -/
def cleanRecord (record : Record) : Record :=
  record.filter (fun kv => kv.1 != "id")

/-- The object `offlineData` built by `syncRecords`, the body of the POST. -/
structure OfflineData where
  products : List Record
  sales : List Record
  buyers : List Record
  prices : List Record
  expenses : List Record
  deriving DecidableEq

/-- Lines 35-41 of `offline.js`. -/
def collectOfflineData (db : Store) : OfflineData where
  products := (getOfflineRecords .products db).map cleanRecord
  sales := (getOfflineRecords .sales db).map cleanRecord
  buyers := (getOfflineRecords .buyers db).map cleanRecord
  prices := (getOfflineRecords .marketPrices db).map cleanRecord
  expenses := (getOfflineRecords .expenses db).map cleanRecord

/-- All records of a request body, over its five arrays. -/
def OfflineData.records (d : OfflineData) : List Record :=
  d.products ++ d.sales ++ d.buyers ++ d.prices ++ d.expenses

/-- The rows of the five tables that `syncRecords` reads. -/
def Store.entityRows (db : Store) : List Record :=
  db.products.rows ++ db.sales.rows ++ db.buyers.rows ++ db.marketPrices.rows ++ db.expenses.rows

/-- Line 44: `Object.values(offlineData).reduce((sum, records) => sum + records.length, 0)`. -/
def totalRecords (d : OfflineData) : Nat :=
  [d.products, d.sales, d.buyers, d.prices, d.expenses].foldl (fun sum records => sum + records.length) 0

/-- A thrown value as the `catch` blocks read it: `error.message` and the value of the
chain `error.response?.data?.error?.message` (`undefined` when a link is missing). -/
structure JSError where
  message : String
  responseMessage : JSValue
  deriving DecidableEq

/-- The error made by `new Error(message)`: it has no `response`. -/
def JSError.ofMessage (message : String) : JSError := ⟨message, .undefined⟩

/-- The five counts `synced.products`, ..., `synced.expenses` of a sync response. -/
structure SyncedCounts where
  products : JSValue
  sales : JSValue
  buyers : JSValue
  prices : JSValue
  expenses : JSValue
  deriving DecidableEq

/-- The value `response.data.results`: `synced` (`none` when it is `undefined`) and
`errors` (`none` when it is `undefined`, else the list of per-record messages). -/
structure SyncResults where
  synced : Option SyncedCounts
  errors : Option (List String)
  deriving DecidableEq

/-- A 2xx answer of `POST /api/sync-offline-data`: `results` is `none` when
`response.data.results` is `undefined`. -/
structure SyncResponse where
  results : Option SyncResults
  deriving DecidableEq

/-- A request `axios.post('.../api/sync-offline-data', offlineData, headers)`. -/
structure SyncRequest where
  token : JSValue
  body : OfflineData
  deriving DecidableEq

/-- What `syncRecords` reads from outside: `navigator.onLine`, the answer to the POST
(`Except.error` when axios rejects: no connection or a non-2xx status), and the message
text the engine gives to a `TypeError` raised while the response is taken apart. -/
structure SyncEnv where
  onLine : Bool
  post : SyncRequest → Except JSError SyncResponse
  typeErrorMessage : String

/-- The `message` of the object `syncRecords` returns: a plain value, or the template
literal of line 70 filled with the five counts. -/
inductive SyncMessage where
  | value (v : JSValue)
  | syncedSummary (synced : SyncedCounts)
  deriving DecidableEq

/-- The object `syncRecords` returns (`errors` is `none` when the key is absent or
`undefined`). -/
structure SyncOutcome where
  success : Bool
  message : SyncMessage
  errors : Option (List String)
  deriving DecidableEq

/-- The `catch` block of `syncRecords` (lines 73-77). -/
def syncCatch (error : JSError) : SyncOutcome where
  success := false
  message := .value ((error.responseMessage.or (.string error.message)).or (.string "Failed to sync data"))
  errors := none

/-- The five `clearOfflineRecords` calls of lines 59-65. -/
def clearSynced (db : Store) : Store :=
  clearOfflineRecords .expenses (clearOfflineRecords .marketPrices
    (clearOfflineRecords .buyers (clearOfflineRecords .sales (clearOfflineRecords .products db))))

/-- `syncRecords(token)`: the outcome, the store after the call and the requests issued. -/
def syncRecords (env : SyncEnv) (token : JSValue) (db : Store) :
    SyncOutcome × Store × List SyncRequest :=
  if !env.onLine then
    (syncCatch (JSError.ofMessage "No internet connection. Please connect to sync data."), db, [])
  else
    let offlineData := collectOfflineData db
    if totalRecords offlineData = 0 then
      (⟨true, .value (.string "No offline data to sync."), none⟩, db, [])
    else
      let request : SyncRequest := ⟨token, offlineData⟩
      match env.post request with
      | .error error => (syncCatch error, db, [request])
      | .ok response =>
        let db1 := clearSynced db
        match response.results with
        | none => (syncCatch (JSError.ofMessage env.typeErrorMessage), db1, [request])
        | some results =>
          match results.synced with
          | none => (syncCatch (JSError.ofMessage env.typeErrorMessage), db1, [request])
          | some synced => (⟨true, .syncedSummary synced, results.errors⟩, db1, [request])

deriving instance DecidableEq for Except

/-! ## Numbers read from text -/

namespace JSNumber

/-- The comparison `a < b` on numbers (false as soon as one side is `NaN`). -/
def lt : JSNumber → JSNumber → Bool
  | fin a, fin b => decide (a < b)
  | negInf, fin _ => true
  | negInf, posInf => true
  | fin _, posInf => true
  | _, _ => false

/-- The comparison `a <= b` on numbers (false as soon as one side is `NaN`). -/
def le : JSNumber → JSNumber → Bool
  | nan, _ => false
  | _, nan => false
  | a, b => !(lt b a)

/-- Unary minus. -/
def neg : JSNumber → JSNumber
  | nan => nan
  | fin q => fin (-q)
  | posInf => negInf
  | negInf => posInf

end JSNumber

/-- The white space and line terminators that `parseFloat` skips at the start. -/
def isStrWhiteSpace (c : Char) : Bool :=
  [9, 10, 11, 12, 13, 32, 160, 5760, 8232, 8233, 8239, 8287, 12288, 65279].contains c.toNat
    || (8192 ≤ c.toNat && c.toNat ≤ 8202)

/-- The value of a run of decimal digits. -/
def digitsValue (ds : List Char) : Nat :=
  ds.foldl (fun n c => 10 * n + (c.toNat - 48)) 0

/-- Whether `cs` begins with the characters `pre`. -/
def startsWith (pre cs : List Char) : Bool :=
  match pre, cs with
  | [], _ => true
  | _ :: _, [] => false
  | p :: ps, c :: rest => p == c && startsWith ps rest

/-- The exponent part `e[+-]digits` at the start of `cs`, 0 when there is none. -/
def exponentValue (cs : List Char) : Int :=
  match cs with
  | c :: rest =>
    if c == 'e' || c == 'E' then
      match rest with
      | '+' :: r => digitsValue (r.takeWhile Char.isDigit)
      | '-' :: r => - (digitsValue (r.takeWhile Char.isDigit) : Int)
      | r => digitsValue (r.takeWhile Char.isDigit)
    else 0
  | [] => 0

/-- The integer nearest to `a / b`, the even one of the two when `a / b` lies halfway. -/
def roundHalfEven (a b : Nat) : Nat :=
  let f := a / b
  let r := a % b
  if 2 * r < b then f
  else if b < 2 * r then f + 1
  else if f % 2 = 0 then f else f + 1

/-- The number of times `n` can be halved before it is below 2, at most `fuel` times. -/
def halvings : Nat → Nat → Nat
  | 0, _ => 0
  | fuel + 1, n => if 2 ≤ n then halvings fuel (n / 2) + 1 else 0

/-- The exponent `e` with `2 ^ e ≤ n < 2 ^ (e + 1)`, for positive `n`. -/
def floorLog2 (n : Nat) : Nat := halvings n n

/-- The exponent `e` with `2 ^ e ≤ n / d < 2 ^ (e + 1)`, for positive `n` and `d`. -/
def binaryExponent (n d : Nat) : Int :=
  let e : Int := (floorLog2 n : Int) - (floorLog2 d : Int)
  if 0 ≤ e then (if d * 2 ^ e.toNat ≤ n then e else e - 1)
  else (if d ≤ n * 2 ^ (-e).toNat then e else e - 1)

/-- The Number value for the quotient `n / d` of two naturals, `d` positive: the nearest
double (53 significant bits, the smallest unit being `2 ^ -1074`), the one with an even
significand when two are equally near, and `Infinity` when that reaches `2 ^ 1024`. -/
def numberValue (n d : Nat) : JSNumber :=
  if n = 0 then .fin 0
  else
    let p : Int := max (binaryExponent n d) (-1022) - 52
    if 0 ≤ p then
      let m := roundHalfEven n (d * 2 ^ p.toNat)
      if 2 ^ 1024 ≤ m * 2 ^ p.toNat then .posInf else .fin ((m * 2 ^ p.toNat : Nat) : ℚ)
    else
      .fin ((roundHalfEven (n * 2 ^ (-p).toNat) d : ℚ) / ((2 ^ (-p).toNat : Nat) : ℚ))

/-- The Number value for a rational that is not negative (the sign is applied by the
caller). -/
def toDouble (q : ℚ) : JSNumber := numberValue q.num.toNat q.den

/-- The longest unsigned decimal literal (or `Infinity`) at the start of `cs`, as a Number
value. -/
def unsignedValue (cs : List Char) : JSNumber :=
  if startsWith "Infinity".toList cs then .posInf
  else
    let intDigits := cs.takeWhile Char.isDigit
    let afterInt := cs.dropWhile Char.isDigit
    let fracDigits := match afterInt with
      | '.' :: r => r.takeWhile Char.isDigit
      | _ => []
    let afterFrac := match afterInt with
      | '.' :: r => r.dropWhile Char.isDigit
      | r => r
    if intDigits.isEmpty && fracDigits.isEmpty then .nan
    else toDouble (((digitsValue intDigits : ℚ)
      + (digitsValue fracDigits : ℚ) / 10 ^ fracDigits.length) * 10 ^ exponentValue afterFrac)

/-- The global function `parseFloat` on a string. -/
def parseFloatString (s : String) : JSNumber :=
  match s.toList.dropWhile isStrWhiteSpace with
  | '-' :: cs => (unsignedValue cs).neg
  | '+' :: cs => unsignedValue cs
  | cs => unsignedValue cs

/-- The number `parseFloat(v)`: the argument is converted to a string and the longest
decimal literal at its start is read.  A number goes through unchanged; `undefined`,
`null` and booleans give `NaN`. -/
def parseFloatNumber : JSValue → JSNumber
  | .string s => parseFloatString s
  | .number n => n
  | _ => .nan

/-- The global function `parseFloat`. -/
def parseFloat (v : JSValue) : JSValue := .number (parseFloatNumber v)

/-- The conversion `String(v)`, given the text of a number. -/
def toJSString (numberToString : JSNumber → String) : JSValue → String
  | .undefined => "undefined"
  | .null => "null"
  | .bool true => "true"
  | .bool false => "false"
  | .number n => numberToString n
  | .string s => s

/-- The test `typeof v === 'string'`. -/
def JSValue.isString : JSValue → Bool
  | .string _ => true
  | _ => false

/-- `s.includes(part)`. -/
def includes (s part : String) : Bool :=
  s.toList.tails.any (startsWith part.toList)

/-! ## Writes to a Dexie table -/

/-- The values IndexedDB accepts as a key: a number other than `NaN`, or a string. -/
def validKey : JSValue → Bool
  | .number .nan => false
  | .number _ => true
  | .string _ => true
  | _ => false

/-- The order of IndexedDB keys: numbers by value, then strings. -/
def keyLt : JSValue → JSValue → Bool
  | .number a, .number b => a.lt b
  | .number _, .string _ => true
  | .string a, .string b => decide (a < b)
  | _, _ => false

/-- The primary key of a stored row: its `id` (the key path of every table). -/
def Record.key (r : Record) : JSValue := r.get "id"

/-- Insertion of a row at its place in key order. -/
def insertRow (row : Record) : List Record → List Record
  | [] => [row]
  | r :: rs => if keyLt row.key r.key then row :: r :: rs else r :: insertRow row rs

/-- The largest number a key generator reaches. -/
def maxGeneratedKey : Nat := 2 ^ 53

/-- The key generator after a row with the explicit key `key` has been stored. -/
def bumpKey (nextKey : Nat) (key : JSValue) : Nat :=
  match key with
  | .number (.fin q) =>
    if (nextKey : ℚ) ≤ q then min (Int.toNat ⌊q⌋ + 1) (maxGeneratedKey + 1) else nextKey
  | .number .posInf => maxGeneratedKey + 1
  | _ => nextKey

/-- The error of a write whose key is already in the table. -/
def constraintError : JSError := JSError.ofMessage "Key already exists in the object store."

/-- The error of a write or delete whose key is not a valid key. -/
def dataError : JSError := JSError.ofMessage "The object store key is not a valid key."

/-- `table.add(row)`: a row without `id` gets the next generated key; an invalid key and a
key that is already present are refused. -/
def Table.add (t : Table) (row : Record) : Except JSError Table :=
  if row.key = .undefined then
    if t.nextKey > maxGeneratedKey then .error constraintError
    else .ok ⟨insertRow (row.set "id" (.number (.fin t.nextKey))) t.rows, t.nextKey + 1⟩
  else if !validKey row.key then .error dataError
  else if t.rows.any (fun r => r.key == row.key) then .error constraintError
  else .ok ⟨insertRow row t.rows, bumpKey t.nextKey row.key⟩

/-- `table.put(row)`: as `add`, but a row with the same key is replaced. -/
def Table.put (t : Table) (row : Record) : Except JSError Table :=
  if row.key = .undefined then
    if t.nextKey > maxGeneratedKey then .error constraintError
    else .ok ⟨insertRow (row.set "id" (.number (.fin t.nextKey))) t.rows, t.nextKey + 1⟩
  else if !validKey row.key then .error dataError
  else .ok ⟨insertRow row (t.rows.filter (fun r => r.key != row.key)), bumpKey t.nextKey row.key⟩

/-- `table.delete(key)`: the row with that key goes, if there is one. -/
def Table.delete (t : Table) (key : JSValue) : Except JSError Table :=
  if !validKey key then .error dataError
  else .ok { t with rows := t.rows.filter (fun r => r.key != key) }

/-! ## What the pages share -/

/-- The session user of `useAuth()`: the fields the offline paths read. -/
structure User where
  token : JSValue
  farm_id : JSValue
  deriving DecidableEq

/-- A call `showToast(message, type)`. -/
structure Toast where
  message : JSValue
  type : String
  deriving DecidableEq

/-- An answer of `fetch`: the promise rejects, or a response arrives with its `ok` flag,
status, body text and the result of `response.json()`. -/
inductive FetchOutcome (α : Type) where
  | rejected (error : JSError)
  | responded (ok : Bool) (status : Nat) (text : String) (json : Except JSError α)

/-- The state a handler leaves: the page state, the store, the HTTP requests and the
toasts in the order they were made, and the error with which the promise of the handler
rejects when an exception escapes it. -/
structure Handled (σ ρ : Type) where
  page : σ
  db : Store
  requests : List ρ
  toasts : List Toast
  thrown : Option JSError

/-! ## `src/pages/MarketPrices.jsx` -/

namespace MarketPrices

/-- The React state of the page that `handleSubmit` reads or writes. -/
structure Page where
  prices : List Record
  error : String
  modalIsOpen : Bool
  formData : Record
  deriving DecidableEq

/-- The form as `useState` and `closeModal` set it. -/
def initialForm : Record :=
  [("id", .null), ("product_name", .string ""), ("current_price", .number (.fin 0)),
   ("location", .string ""), ("date_updated", .string ""), ("unit", .string "")]

/-- The requests of the page to `/api/prices`. -/
inductive Request where
  | put (id : JSValue) (token : JSValue) (payload : Record)
  | post (token : JSValue) (payload : Record)
  | get (token : JSValue)
  deriving DecidableEq

/-- The JSON of a successful create: the primitive fields of `data` itself and the object
`data.market_price` when there is one (a `market_price` that is not an object is taken to
be absent). -/
structure Created where
  own : Record
  market_price : Option Record
  deriving DecidableEq

/-- The JSON of a list answer: `items` is `none` when `data.items` is not an array. -/
structure Listed where
  items : Option (List Record)
  deriving DecidableEq

/-- What `handleSubmit` reads from outside: the answers of the server, the successive
values of `Date.now()` and the text `JSON.stringify` gives for an object. -/
structure Env where
  send : Request → FetchOutcome Created
  list : Request → FetchOutcome Listed
  now : Nat → Nat
  stringify : Record → String

/-- `closeModal` (lines 97-100). -/
def closeModal (page : Page) : Page :=
  { page with modalIsOpen := false, formData := initialForm }

/-- The mapping of lines 179-183 on one item of the list answer. -/
def normalizeItem (item : Record) : Record :=
  (item.set "date_updated" ((item.get "date_updated").or .null)).set "unit"
    ((item.get "unit").or .null)

/-- The `catch` block of `handleSubmit` (lines 185-196), entered with the requests and
toasts made so far and the store as the `try` block left it. -/
def submitCatch (env : Env) (user : Option User) (page : Page) (db : Store)
    (requests : List Request) (toasts : List Toast) (err : JSError) :
    Handled Page Request :=
  let errorMessage := if err.message ≠ "" then err.message else "Failed to save market price"
  let page1 := { page with error := errorMessage }
  let toasts1 := toasts ++ [⟨.string errorMessage, "error"⟩]
  if includes err.message "Network Error" then
    match user with
    | none => ⟨page1, db, requests, toasts1,
        some (JSError.ofMessage "Cannot read properties of null (reading 'farm_id')")⟩
    | some u =>
      match db.prices.add ((page.formData.set "farm_id" u.farm_id).set "id"
          (.number (.fin (env.now 0)))) with
      | .error e => ⟨page1, db, requests, toasts1, some e⟩
      | .ok prices =>
        let shown := (page.formData.set "id" (.number (.fin (env.now 1)))).set "date_updated"
          ((page.formData.get "date_updated").or .null)
        ⟨closeModal { page1 with prices := page.prices ++ [shown] },
          { db with prices := prices }, requests,
          toasts1 ++ [⟨.string "Market price saved offline", "info"⟩], none⟩
  else ⟨page1, db, requests, toasts1, none⟩

/-- Lines 167-184 of `handleSubmit`: the list is fetched again and the modal closed. -/
def refresh (env : Env) (user : Option User) (u : User) (page : Page) (db : Store)
    (requests : List Request) (toasts : List Toast) : Handled Page Request :=
  let requests1 := requests ++ [.get u.token]
  match env.list (.get u.token) with
  | .rejected e => submitCatch env user page db requests1 toasts e
  | .responded ok status text json =>
    if !ok then
      submitCatch env user page db requests1 toasts
        (JSError.ofMessage ("Failed to fetch updated prices: " ++ toString status ++ " " ++ text))
    else
      match json with
      | .error e => submitCatch env user page db requests1 toasts e
      | .ok getData =>
        let items := getData.items.getD []
        ⟨closeModal { page with prices := items.map normalizeItem }, db, requests1, toasts, none⟩

/-- `handleSubmit` of the market prices page (lines 110-197). -/
def handleSubmit (env : Env) (user : Option User) (page : Page) (db : Store) :
    Handled Page Request :=
  match user with
  | none => submitCatch env user page db [] [] (JSError.ofMessage "User is not authenticated")
  | some u =>
    if !u.token.truthy then
      submitCatch env user page db [] [] (JSError.ofMessage "User is not authenticated")
    else
      let formData := page.formData
      let payload : Record :=
        [("product_name", formData.get "product_name"),
         ("current_price", parseFloat (formData.get "current_price")),
         ("location", (formData.get "location").or .null),
         ("date_updated", (formData.get "date_updated").or .null),
         ("unit", (formData.get "unit").or .null)]
      if (formData.get "id").truthy then
        let request := Request.put (formData.get "id") u.token payload
        match env.send request with
        | .rejected e => submitCatch env user page db [request] [] e
        | .responded ok status text _ =>
          if !ok then
            submitCatch env user page db [request] []
              (JSError.ofMessage ("Failed to update market price: " ++ toString status ++ " " ++ text))
          else
            refresh env user u page db [request]
              [⟨.string "Market price updated successfully", "success"⟩]
      else
        let request := Request.post u.token payload
        match env.send request with
        | .rejected e => submitCatch env user page db [request] [] e
        | .responded ok status text json =>
          if !ok then
            submitCatch env user page db [request] []
              (JSError.ofMessage ("Failed to add market price: " ++ toString status ++ " " ++ text))
          else
            match json with
            | .error e => submitCatch env user page db [request] [] e
            | .ok data =>
              let newMarketPrice := data.market_price.getD data.own
              if !(newMarketPrice.any (fun kv => kv.1 == "id")) then
                submitCatch env user page db [request] []
                  (JSError.ofMessage ("Market price ID not found in response: "
                    ++ env.stringify newMarketPrice))
              else
                match db.prices.put (((newMarketPrice.set "farm_id" u.farm_id).set "date_updated"
                    ((newMarketPrice.get "date_updated").or .null)).set "unit"
                    ((newMarketPrice.get "unit").or .null)) with
                | .error e => submitCatch env user page db [request] [] e
                | .ok prices =>
                  refresh env user u page { db with prices := prices } [request]
                    [⟨.string "Market price added successfully", "success"⟩]

end MarketPrices

/-! ## `src/pages/Expenses.jsx` -/

/-- An element of a JSON array: a primitive or an object with primitive fields. -/
inductive JsonItem where
  | value (v : JSValue)
  | object (r : Record)
  deriving DecidableEq

/-- Whether reading a property of the item raises a `TypeError` (`null` and `undefined`). -/
def JsonItem.nullish : JsonItem → Bool
  | .value .undefined => true
  | .value .null => true
  | _ => false

/-- Property read `item[k]` on an item that is not nullish (a primitive has none of the
properties the pages read). -/
def JsonItem.get (item : JsonItem) (k : String) : JSValue :=
  match item with
  | .object r => r.get k
  | .value _ => .undefined

namespace Expenses

/-- The React state of the page that the handlers read or write. -/
structure Page where
  expenses : List Record
  error : JSValue
  modalIsOpen : Bool
  formData : Record
  deriving DecidableEq

/-- The form as `useState` and `closeModal` set it. -/
def initialForm : Record :=
  [("id", .null), ("description", .string ""), ("amount", .string ""),
   ("category", .string ""), ("date_incurred", .string "")]

/-- The requests of the page to `/api/expenses`. -/
inductive Request where
  | put (id : JSValue) (token : JSValue) (payload : Record)
  | post (token : JSValue) (payload : Record)
  | get (token : JSValue)
  | delete (id : JSValue) (token : JSValue)
  deriving DecidableEq

/-- A 2xx answer to a create or update: the value of `response.data.expense.id`, `none`
when reading it raises a `TypeError` because `response.data.expense` is missing. -/
structure Created where
  expenseId : Option JSValue
  deriving DecidableEq

/-- A 2xx answer to the list request: `items` is `none` when `response.data.items` is
not an array. -/
structure Listed where
  items : Option (List JsonItem)
  deriving DecidableEq

/-- What the handlers read from outside.  `submit` answers the PUT or POST of
`handleSubmit`; `syncPost i` answers the POST that `syncOfflineExpenses` makes for the row
at position `i` of the array it read; `list` and `delete` answer the GET and DELETE
(`Except.error` when axios rejects); `confirm` is the answer to `window.confirm`; `now`
gives the successive values of `Date.now()`; `numberToString` is the text of a number. -/
structure Env where
  submit : Request → Except JSError Created
  syncPost : Nat → Request → Except JSError Created
  list : Request → Except JSError Listed
  delete : Request → Except JSError Unit
  confirm : Bool
  now : Nat → Nat
  numberToString : JSNumber → String

/-- The error of a property read on `null` or `undefined`. -/
def typeError : JSError := JSError.ofMessage "Cannot read properties of undefined"

/-- The object literal of lines 39-46, 113-119 and 183-189: the displayed form of one
item of a list. -/
def normalize (env : Env) (expense : JsonItem) : Except JSError Record :=
  if expense.nullish then .error typeError
  else .ok
    [("id", expense.get "id"),
     ("description",
        if (expense.get "description").isString then expense.get "description"
        else .string (toJSString env.numberToString ((expense.get "description").or (.string "N/A")))),
     ("amount",
        if (expense.get "amount").isNumber then expense.get "amount"
        else parseFloat ((expense.get "amount").or (.number (.fin 0)))),
     ("category",
        if (expense.get "category").isString || expense.get "category" == .null
        then expense.get "category" else .null),
     ("date_incurred",
        if (expense.get "date_incurred").isString || expense.get "date_incurred" == .null
        then expense.get "date_incurred" else .null),
     ("farm_id", expense.get "farm_id")]

/-- The array `items.map(...)` of lines 112-119 and 182-189; the first nullish item
makes the mapping throw. -/
def normalizeAll (env : Env) (items : List JsonItem) : Except JSError (List Record) :=
  items.mapM (normalize env)

/-- `closeModal` (lines 126-129). -/
def closeModal (page : Page) : Page :=
  { page with modalIsOpen := false, formData := initialForm }

/-- `validateForm` (lines 139-143): the message, or `none` for `null`. -/
def validateForm (formData : Record) : Option String :=
  if !(formData.get "description").truthy then some "Description is required"
  else if !(formData.get "amount").truthy
      || (parseFloatNumber (formData.get "amount")).le (.fin 0) then
    some "Amount must be greater than 0"
  else none

/-- The object `payload` of lines 156-161. -/
def payloadOfForm (formData : Record) : Record :=
  [("description", formData.get "description"),
   ("amount", parseFloat (formData.get "amount")),
   ("category", (formData.get "category").or .null),
   ("date_incurred", (formData.get "date_incurred").or .null)]

/-- The object `{ ...payload, id: response.data.expense.id, farm_id: user.farm_id }` of
lines 103 and 176. -/
def confirmedRow (u : User) (payload : Record) (id : JSValue) : Record :=
  (payload.set "id" id).set "farm_id" u.farm_id

/-- The `catch` block of `handleSubmit` (lines 191-202).  The name `payload` is declared
with `const` inside the `try` block (line 156) and is not in scope here: when the message
contains 'Network Error', evaluating the object literal of line 197 raises a
`ReferenceError` before `db.expenses.add` is called, and the handler rejects with it. -/
def submitCatch (page : Page) (db : Store) (requests : List Request) (toasts : List Toast)
    (err : JSError) : Handled Page Request :=
  let errorMessage := err.responseMessage.or (.string "Failed to save expense")
  let page1 := { page with error := errorMessage }
  let toasts1 := toasts ++ [⟨errorMessage, "error"⟩]
  if includes err.message "Network Error" then
    ⟨page1, db, requests, toasts1, some (JSError.ofMessage "payload is not defined")⟩
  else ⟨page1, db, requests, toasts1, none⟩

/-- Lines 178-190 of `handleSubmit`: the list is fetched again and the modal closed. -/
def refresh (env : Env) (u : User) (page : Page) (db : Store) (requests : List Request)
    (toasts : List Toast) : Handled Page Request :=
  let requests1 := requests ++ [.get u.token]
  match env.list (.get u.token) with
  | .error e => submitCatch page db requests1 toasts e
  | .ok expensesResponse =>
    match normalizeAll env (expensesResponse.items.getD []) with
    | .error e => submitCatch page db requests1 toasts e
    | .ok shown => ⟨closeModal { page with expenses := shown }, db, requests1, toasts, none⟩

/-- `handleSubmit` of the expenses page (lines 145-203). -/
def handleSubmit (env : Env) (user : Option User) (page : Page) (db : Store) :
    Handled Page Request :=
  match validateForm page.formData with
  | some validationError => ⟨page, db, [], [⟨.string validationError, "error"⟩], none⟩
  | none =>
    match user with
    | none => submitCatch page db [] [] (JSError.ofMessage "User is not authenticated")
    | some u =>
      if !u.token.truthy then
        submitCatch page db [] [] (JSError.ofMessage "User is not authenticated")
      else
        let formData := page.formData
        let payload := payloadOfForm formData
        if (formData.get "id").truthy then
          if !(formData.get "id").isNumber then
            submitCatch page db [] [] (JSError.ofMessage "Invalid expense ID")
          else
            let request := Request.put (formData.get "id") u.token payload
            match env.submit request with
            | .error e => submitCatch page db [request] [] e
            | .ok _ =>
              refresh env u page db [request] [⟨.string "Expense updated successfully", "success"⟩]
        else
          let request := Request.post u.token payload
          match env.submit request with
          | .error e => submitCatch page db [request] [] e
          | .ok response =>
            let toasts := [(⟨.string "Expense added successfully", "success"⟩ : Toast)]
            match response.expenseId with
            | none => submitCatch page db [request] toasts typeError
            | some id =>
              match db.expenses.add (confirmedRow u payload id) with
              | .error e => submitCatch page db [request] toasts e
              | .ok expenses => refresh env u page { db with expenses := expenses } [request] toasts

/-- The object `payload` of lines 93-98, built from a stored row. -/
def payloadOfRow (expense : Record) : Record :=
  [("description", expense.get "description"),
   ("amount", parseFloat (expense.get "amount")),
   ("category", (expense.get "category").or .null),
   ("date_incurred", (expense.get "date_incurred").or .null)]

/-- The test of line 91 that lets a row through to the POST. -/
def syncable (expense : Record) : Bool :=
  (expense.get "id").truthy && (expense.get "id").isNumber

/-- One turn of the loop of lines 90-107 for the row at position `i`: the table after
it, and the request when one was made. -/
def syncRow (env : Env) (u : User) (i : Nat) (expense : Record) (table : Table) :
    Table × List Request :=
  if !syncable expense then (table, [])
  else
    let payload := payloadOfRow expense
    let request := Request.post u.token payload
    match env.syncPost i request with
    | .error _ => (table, [request])
    | .ok response =>
      match table.delete (expense.get "id") with
      | .error _ => (table, [request])
      | .ok table1 =>
        match response.expenseId with
        | none => (table1, [request])
        | some id =>
          match table1.add (confirmedRow u payload id) with
          | .error _ => (table1, [request])
          | .ok table2 => (table2, [request])

/-- The loop of lines 90-107 over the rows from position `i` on. -/
def syncLoop (env : Env) (u : User) : Nat → List Record → Table → Table × List Request
  | _, [], table => (table, [])
  | i, expense :: rest, table =>
    let step := syncRow env u i expense table
    let done := syncLoop env u (i + 1) rest step.1
    (done.1, step.2 ++ done.2)

/-- `syncOfflineExpenses` (lines 87-123): it never throws; the page, the store and the
requests it made. -/
def syncOfflineExpenses (env : Env) (user : Option User) (page : Page) (db : Store) :
    Page × Store × List Request :=
  match user with
  | none => (page, db, [])
  | some u =>
    let offlineExpenses := db.expenses.toArray
    let done := syncLoop env u 0 offlineExpenses db.expenses
    let db1 := { db with expenses := done.1 }
    let requests := done.2 ++ [.get u.token]
    match env.list (.get u.token) with
    | .error _ => (page, db1, requests)
    | .ok response =>
      match normalizeAll env (response.items.getD []) with
      | .error _ => (page, db1, requests)
      | .ok shown => ({ page with expenses := shown }, db1, requests)

/-- The `catch` block of `handleDelete` (lines 236-241). -/
def deleteCatch (page : Page) (db : Store) (requests : List Request) (err : JSError) :
    Handled Page Request :=
  let errorMessage := err.responseMessage.or (.string "Failed to delete expense")
  ⟨{ page with error := errorMessage }, db, requests, [⟨errorMessage, "error"⟩], none⟩

/-- `handleDelete(id)` (lines 220-243). -/
def handleDelete (env : Env) (user : Option User) (id : JSValue) (page : Page) (db : Store) :
    Handled Page Request :=
  if !id.truthy || !id.isNumber then
    ⟨page, db, [], [⟨.string "Cannot delete expense: Invalid ID", "error"⟩], none⟩
  else if !env.confirm then ⟨page, db, [], [], none⟩
  else
    match user with
    | none => deleteCatch page db [] (JSError.ofMessage "User is not authenticated")
    | some u =>
      if !u.token.truthy then
        deleteCatch page db [] (JSError.ofMessage "User is not authenticated")
      else
        let synced := syncOfflineExpenses env user page db
        let requests := synced.2.2 ++ [.delete id u.token]
        match env.delete (.delete id u.token) with
        | .error e => deleteCatch synced.1 synced.2.1 requests e
        | .ok _ =>
          let page1 := { synced.1 with expenses := page.expenses.filter (fun e => !(e.get "id").strictEq id) }
          match synced.2.1.expenses.delete id with
          | .error e => deleteCatch page1 synced.2.1 requests e
          | .ok expenses =>
            ⟨page1, { synced.2.1 with expenses := expenses }, requests,
              [⟨.string "Expense deleted successfully", "success"⟩], none⟩

end Expenses

/-! ## `syncRecords` when Dexie operations fail -/

/-- Failures of the Dexie operations of `offline.js`: the error with which the read or the
clear of a table rejects, `none` when the operation succeeds. -/
structure DexieFaults where
  read : OfflineTable → Option JSError
  clear : OfflineTable → Option JSError

/-- No Dexie operation fails. -/
def DexieFaults.none : DexieFaults := ⟨fun _ => Option.none, fun _ => Option.none⟩

/-- The first failure among the operations on the given tables, in their order. -/
def firstFault (fault : OfflineTable → Option JSError) : List OfflineTable → Option JSError
  | [] => Option.none
  | t :: ts =>
    match fault t with
    | some e => some e
    | Option.none => firstFault fault ts

/-- The tables in the order in which lines 36-40 read them. -/
def readOrder : List OfflineTable := [.products, .sales, .buyers, .marketPrices, .expenses]

/-- The tables in the order of the array given to `Promise.all` (lines 59-65). -/
def clearOrder : List OfflineTable := [.products, .sales, .buyers, .marketPrices, .expenses]

/-- The `Promise.all` of lines 59-65 when clears may fail: every clear that succeeds is
done; the promise rejects when one of them fails (with the first failure, in the order
of the array). -/
def clearSyncedWith (faults : DexieFaults) (db : Store) : Store × Option JSError :=
  (clearOrder.foldl (fun d t => if (faults.clear t).isSome then d else clearOfflineRecords t d) db,
    firstFault faults.clear clearOrder)

/-- `syncRecords(token)` with Dexie operations that may fail. -/
def syncRecordsWith (faults : DexieFaults) (env : SyncEnv) (token : JSValue) (db : Store) :
    SyncOutcome × Store × List SyncRequest :=
  if !env.onLine then
    (syncCatch (JSError.ofMessage "No internet connection. Please connect to sync data."), db, [])
  else
    match firstFault faults.read readOrder with
    | some error => (syncCatch error, db, [])
    | Option.none =>
      let offlineData := collectOfflineData db
      if totalRecords offlineData = 0 then
        (⟨true, .value (.string "No offline data to sync."), Option.none⟩, db, [])
      else
        let request : SyncRequest := ⟨token, offlineData⟩
        match env.post request with
        | .error error => (syncCatch error, db, [request])
        | .ok response =>
          match clearSyncedWith faults db with
          | (db1, some error) => (syncCatch error, db1, [request])
          | (db1, Option.none) =>
            match response.results with
            | Option.none => (syncCatch (JSError.ofMessage env.typeErrorMessage), db1, [request])
            | some results =>
              match results.synced with
              | Option.none => (syncCatch (JSError.ofMessage env.typeErrorMessage), db1, [request])
              | some synced => (⟨true, .syncedSummary synced, results.errors⟩, db1, [request])

/-- The text of the `message` of an outcome: the template literal of line 70 written out,
given the text of a number. -/
def SyncMessage.text (numberToString : JSNumber → String) : SyncMessage → String
  | .value v => toJSString numberToString v
  | .syncedSummary synced =>
    "Synced successfully: " ++ toJSString numberToString synced.products ++ " products, "
      ++ toJSString numberToString synced.sales ++ " sales, "
      ++ toJSString numberToString synced.buyers ++ " buyers, "
      ++ toJSString numberToString synced.prices ++ " prices, "
      ++ toJSString numberToString synced.expenses ++ " expenses."

/-- The message the failure outcome of `syncRecords` is said to carry: the message of the
server's error when there is one, else the message of the exception, else the fixed text. -/
def failureMessage (error : JSError) : JSValue :=
  if error.responseMessage.truthy then error.responseMessage
  else if error.message ≠ "" then .string error.message
  else .string "Failed to sync data"

/-! ## Integers read from text -/

/-- The value of a hexadecimal digit, `none` for any other character. -/
def hexDigitValue (c : Char) : Option Nat :=
  if c.isDigit then some (c.toNat - 48)
  else if 97 ≤ c.toNat && c.toNat ≤ 102 then some (c.toNat - 87)
  else if 65 ≤ c.toNat && c.toNat ≤ 70 then some (c.toNat - 55)
  else none

/-- The value of the longest run of hexadecimal digits at the start of `cs`, `none` when
there is no digit. -/
def hexValue (cs : List Char) : Option Nat :=
  let digits := cs.takeWhile (fun c => (hexDigitValue c).isSome)
  if digits.isEmpty then none
  else some (digits.foldl (fun n c => 16 * n + (hexDigitValue c).getD 0) 0)

/-- The unsigned integer at the start of `cs`, as `parseInt` without a radix reads it:
hexadecimal after `0x` or `0X`, decimal otherwise; the result is the Number value of the
integer read. -/
def unsignedInteger (cs : List Char) : JSNumber :=
  match cs with
  | '0' :: 'x' :: rest | '0' :: 'X' :: rest =>
    match hexValue rest with
    | some n => numberValue n 1
    | none => .nan
  | _ =>
    let digits := cs.takeWhile Char.isDigit
    if digits.isEmpty then .nan else numberValue (digitsValue digits) 1

/-- The global function `parseInt` on a string. -/
def parseIntString (s : String) : JSNumber :=
  match s.toList.dropWhile isStrWhiteSpace with
  | '-' :: cs => (unsignedInteger cs).neg
  | '+' :: cs => unsignedInteger cs
  | cs => unsignedInteger cs

/-- The number `parseInt(v)`.  A finite number is read through its decimal text, which
gives its integer part (the exponent form of very large and very small numbers is not
modelled); `NaN`, the infinities, `undefined`, `null` and booleans give `NaN`. -/
def parseIntNumber : JSValue → JSNumber
  | .string s => parseIntString s
  | .number (.fin q) => .fin (if 0 ≤ q then ⌊q⌋ else ⌈q⌉)
  | _ => .nan

/-- The global function `parseInt`. -/
def parseInt (v : JSValue) : JSValue := .number (parseIntNumber v)

/-! ## `src/pages/Sales.jsx` -/

namespace Sales

/-- The React state of the page that the handlers read or write. -/
structure Page where
  sales : List Record
  error : JSValue
  modalIsOpen : Bool
  bulkDeleteModalOpen : Bool
  formData : Record
  bulkDeleteDates : Record
  deriving DecidableEq

/-- The form as `useState` and `closeModal` set it. -/
def initialForm : Record :=
  [("id", .null), ("product_id", .string ""), ("quantity_sold", .string ""),
   ("price_per_unit", .string ""), ("sale_date", .string ""), ("buyer_id", .string ""),
   ("create_new_buyer", .bool false), ("buyer_name", .string ""),
   ("buyer_contact", .string ""), ("unit_id", .string "")]

/-- The requests of the page that the handlers make. -/
inductive Request where
  | put (id : JSValue) (token : JSValue) (payload : Record)
  | post (token : JSValue) (payload : Record)
  | get (token : JSValue)
  | delete (id : JSValue) (token : JSValue)
  | bulkDelete (token : JSValue) (dates : Record)
  | sync (token : JSValue) (deletions : List Record)
  deriving DecidableEq

/-- A 2xx answer to a create or update: the value of `response.data.sale.id`, `none` when
reading it raises a `TypeError` because `response.data.sale` is missing. -/
structure Created where
  saleId : Option JSValue
  deriving DecidableEq

/-- A 2xx answer to the list request: `items` is `none` when `response.data.items` is
not an array. -/
structure Listed where
  items : Option (List JsonItem)
  deriving DecidableEq

/-- A 2xx answer of `POST /api/sync`: `response.data.deletions_synced`, a number, `none`
when it is absent. -/
structure DeletionsSynced where
  deletions_synced : Option JSNumber
  deriving DecidableEq

/-- What the handlers read from outside: the answers of the server to the create or
update, the list, the delete, the bulk delete (its `message`) and the deletion sync
(`Except.error` when axios rejects); the answer to `window.confirm`; the successive values
of `Date.now()`; the text of a number. -/
structure Env where
  submit : Request → Except JSError Created
  list : Request → Except JSError Listed
  delete : Request → Except JSError Unit
  bulkDelete : Request → Except JSError JSValue
  sync : Request → Except JSError DeletionsSynced
  confirm : Bool
  now : Nat → Nat
  numberToString : JSNumber → String

/-- The error of a property read on `null` or `undefined`. -/
def typeError : JSError := JSError.ofMessage "Cannot read properties of undefined"

/-- The object literal of lines 145-155, 241-251 and 329-339: the displayed form of one
item of the list. -/
def normalize (item : JsonItem) : Except JSError Record :=
  if item.nullish then .error typeError
  else .ok
    [("id", item.get "id"),
     ("product_id", item.get "product_id"),
     ("quantity_sold", item.get "quantity_sold"),
     ("price_per_unit", item.get "price_per_unit"),
     ("total_price", item.get "total_price"),
     ("sale_date", (item.get "sale_date").or .null),
     ("buyer_id", (item.get "buyer_id").or .null),
     ("unit_id", (item.get "unit_id").or .null),
     ("farm_id", item.get "farm_id")]

/-- The array `items.map(...)`; the first nullish item makes the mapping throw. -/
def normalizeAll (items : List JsonItem) : Except JSError (List Record) :=
  items.mapM normalize

/-- `closeModal` (lines 166-169). -/
def closeModal (page : Page) : Page :=
  { page with modalIsOpen := false, formData := initialForm }

/-- `syncPendingDeletions` (lines 128-163): it never throws. -/
def syncPendingDeletions (env : Env) (user : Option User) (page : Page) (db : Store) :
    Handled Page Request :=
  let pendingDeletions := db.pendingDeletions.toArray
  match user with
  | none => ⟨page, db, [], [], none⟩
  | some u =>
    if pendingDeletions.isEmpty || !u.token.truthy then ⟨page, db, [], [], none⟩
    else
      let request := Request.sync u.token pendingDeletions
      let failed : Toast := ⟨.string "Failed to sync deletions", "error"⟩
      match env.sync request with
      | .error _ => ⟨page, db, [request], [failed], none⟩
      | .ok response =>
        match response.deletions_synced with
        | none => ⟨page, db, [request], [], none⟩
        | some n =>
          if !(JSNumber.lt (.fin 0) n) then ⟨page, db, [request], [], none⟩
          else
            let db1 := { db with pendingDeletions := db.pendingDeletions.clear }
            let synced : Toast :=
              ⟨.string ("Synced " ++ env.numberToString n ++ " deletions"), "success"⟩
            let requests := [request, .get u.token]
            match env.list (.get u.token) with
            | .error _ => ⟨page, db1, requests, [synced, failed], none⟩
            | .ok salesResponse =>
              match normalizeAll (salesResponse.items.getD []) with
              | .error _ => ⟨page, db1, requests, [synced, failed], none⟩
              | .ok shown => ⟨{ page with sales := shown }, db1, requests, [synced], none⟩

/-- `validateForm` (lines 190-200): the message, or `none` for `null`. -/
def validateForm (formData : Record) : Option String :=
  if !(formData.get "product_id").truthy then some "Product is required"
  else if !(formData.get "quantity_sold").truthy
      || (parseIntNumber (formData.get "quantity_sold")).le (.fin 0) then
    some "Quantity sold must be greater than 0"
  else if !(formData.get "price_per_unit").truthy
      || (parseFloatNumber (formData.get "price_per_unit")).lt (.fin 0) then
    some "Price per unit must be non-negative"
  else if !(formData.get "sale_date").truthy then some "Sale date is required"
  else if !(formData.get "unit_id").truthy then some "Unit is required"
  else if !(formData.get "create_new_buyer").truthy && !(formData.get "buyer_id").truthy then
    some "Buyer is required"
  else if (formData.get "create_new_buyer").truthy && !(formData.get "buyer_name").truthy then
    some "Buyer name is required when adding a new buyer"
  else if (formData.get "create_new_buyer").truthy && !(formData.get "buyer_contact").truthy then
    some "Buyer contact is required when adding a new buyer"
  else none

/-- The object `payload` of lines 212-222. -/
def payloadOfForm (formData : Record) : Record :=
  [("product_id", parseInt (formData.get "product_id")),
   ("quantity_sold", parseInt (formData.get "quantity_sold")),
   ("price_per_unit", parseFloat (formData.get "price_per_unit")),
   ("sale_date", (formData.get "sale_date").or .null),
   ("buyer_id", if (formData.get "buyer_id").truthy then parseInt (formData.get "buyer_id") else .null),
   ("create_new_buyer", formData.get "create_new_buyer"),
   ("buyer_name", if (formData.get "create_new_buyer").truthy then formData.get "buyer_name" else .null),
   ("buyer_contact",
      if (formData.get "create_new_buyer").truthy then formData.get "buyer_contact" else .null),
   ("unit_id", parseInt (formData.get "unit_id"))]

/-- The `catch` block of `handleSubmit` (lines 254-266).  The name `payload` is declared
with `const` inside the `try` block (line 212) and is not in scope here: when the message
contains 'Network Error', evaluating the object literal of line 261 raises a
`ReferenceError` before `db.sales.add` is called, and the handler rejects with it. -/
def submitCatch (page : Page) (db : Store) (requests : List Request) (toasts : List Toast)
    (err : JSError) : Handled Page Request :=
  let errorMessage := err.responseMessage.or (.string "Failed to save sale")
  let page1 := { page with error := errorMessage }
  let toasts1 := toasts ++ [⟨errorMessage, "error"⟩]
  if includes err.message "Network Error" then
    ⟨page1, db, requests, toasts1, some (JSError.ofMessage "payload is not defined")⟩
  else ⟨page1, db, requests, toasts1, none⟩

/-- Lines 236-253 of `handleSubmit`: the list is fetched again and the modal closed. -/
def refresh (env : Env) (u : User) (page : Page) (db : Store) (requests : List Request)
    (toasts : List Toast) : Handled Page Request :=
  let requests1 := requests ++ [.get u.token]
  match env.list (.get u.token) with
  | .error e => submitCatch page db requests1 toasts e
  | .ok salesResponse =>
    match normalizeAll (salesResponse.items.getD []) with
    | .error e => submitCatch page db requests1 toasts e
    | .ok shown => ⟨closeModal { page with sales := shown }, db, requests1, toasts, none⟩

/-- `handleSubmit` of the sales page (lines 202-267). -/
def handleSubmit (env : Env) (user : Option User) (page : Page) (db : Store) :
    Handled Page Request :=
  match validateForm page.formData with
  | some validationError => ⟨page, db, [], [⟨.string validationError, "error"⟩], none⟩
  | none =>
    match user with
    | none => submitCatch page db [] [] (JSError.ofMessage "User is not authenticated")
    | some u =>
      if !u.token.truthy then
        submitCatch page db [] [] (JSError.ofMessage "User is not authenticated")
      else
        let formData := page.formData
        let payload := payloadOfForm formData
        if (formData.get "id").truthy then
          let request := Request.put (formData.get "id") u.token payload
          match env.submit request with
          | .error e => submitCatch page db [request] [] e
          | .ok _ =>
            refresh env u page db [request] [⟨.string "Sale updated successfully", "success"⟩]
        else
          let request := Request.post u.token payload
          match env.submit request with
          | .error e => submitCatch page db [request] [] e
          | .ok response =>
            let toasts := [(⟨.string "Sale added successfully", "success"⟩ : Toast)]
            match response.saleId with
            | none => submitCatch page db [request] toasts typeError
            | some id =>
              match db.sales.add (((payload.set "id" id).set "buyer_id" (payload.get "buyer_id")).set
                  "farm_id" u.farm_id) with
              | .error e => submitCatch page db [request] toasts e
              | .ok sales => refresh env u page { db with sales := sales } [request] toasts

/-- The tombstone `{ entity_type: 'sale', entity_id: id, farm_id: user.farm_id }` of
lines 301 and 358. -/
def tombstone (u : User) (id : JSValue) : Record :=
  [("entity_type", .string "sale"), ("entity_id", id), ("farm_id", u.farm_id)]

/-- The `catch` block of `handleDelete` (lines 295-306), entered with the requests made. -/
def deleteCatch (user : Option User) (id : JSValue) (page : Page) (db : Store)
    (requests : List Request) (err : JSError) : Handled Page Request :=
  let errorMessage := err.responseMessage.or (.string "Failed to delete sale")
  let page1 := { page with error := errorMessage }
  let toasts1 : List Toast := [⟨errorMessage, "error"⟩]
  if includes err.message "Network Error" then
    match user with
    | none => ⟨page1, db, requests, toasts1, some typeError⟩
    | some u =>
      match db.pendingDeletions.add (tombstone u id) with
      | .error e => ⟨page1, db, requests, toasts1, some e⟩
      | .ok pendingDeletions =>
        let db1 := { db with pendingDeletions := pendingDeletions }
        let page2 := { page1 with sales := page.sales.filter (fun s => !(s.get "id").strictEq id) }
        match db1.sales.delete id with
        | .error e => ⟨page2, db1, requests, toasts1, some e⟩
        | .ok sales =>
          ⟨page2, { db1 with sales := sales }, requests,
            toasts1 ++ [⟨.string "Deletion queued offline", "info"⟩], none⟩
  else ⟨page1, db, requests, toasts1, none⟩

/-- `handleDelete(id)` (lines 285-308). -/
def handleDelete (env : Env) (user : Option User) (id : JSValue) (page : Page) (db : Store) :
    Handled Page Request :=
  if !env.confirm then ⟨page, db, [], [], none⟩
  else
    match user with
    | none => deleteCatch user id page db [] (JSError.ofMessage "User is not authenticated")
    | some u =>
      if !u.token.truthy then
        deleteCatch user id page db [] (JSError.ofMessage "User is not authenticated")
      else
        let request := Request.delete id u.token
        match env.delete request with
        | .error e => deleteCatch user id page db [request] e
        | .ok _ =>
          let page1 := { page with sales := page.sales.filter (fun s => !(s.get "id").strictEq id) }
          match db.sales.delete id with
          | .error e => deleteCatch user id page1 db [request] e
          | .ok sales =>
            ⟨page1, { db with sales := sales }, [request],
              [⟨.string "Sale deleted successfully", "success"⟩], none⟩

end Sales

/-! ## `fetchExpenses` of `src/pages/Expenses.jsx` -/

namespace Expenses

/-- The callback of lines 38-52 and 61-75 on one item: the normalized record, or `none`
for the `null` it returns when the id is falsy or not a number. -/
def normalizeOrNull (env : Env) (expense : JsonItem) : Except JSError (Option Record) :=
  match normalize env expense with
  | .error e => .error e
  | .ok normalized =>
    if !(normalized.get "id").truthy || !(normalized.get "id").isNumber then .ok none
    else .ok (some normalized)

/-- The array `items.map(...).filter(expense => expense !== null)` of lines 37-53 and
60-76; the first nullish item makes the mapping throw. -/
def normalizeAndFilter (env : Env) (items : List JsonItem) : Except JSError (List Record) :=
  match items.mapM (normalizeOrNull env) with
  | .error e => .error e
  | .ok normalized => .ok (normalized.filterMap id)

/-- The `catch` block of `fetchExpenses` (lines 55-79): the error is shown and, when the
local table has rows, its normalized rows are listed. -/
def fetchCatch (env : Env) (page : Page) (db : Store) (requests : List Request)
    (err : JSError) : Handled Page Request :=
  let page1 := { page with
    error := (JSValue.string err.message).or (.string "Failed to load expenses") }
  let offlineExpenses := db.expenses.toArray
  if offlineExpenses.isEmpty then ⟨page1, db, requests, [], none⟩
  else
    match normalizeAndFilter env (offlineExpenses.map JsonItem.object) with
    | .error e => ⟨page1, db, requests, [], some e⟩
    | .ok normalizedOffline =>
      ⟨{ page1 with expenses := normalizedOffline }, db, requests,
        [⟨.string "Loaded offline expenses data", "info"⟩], none⟩

/-- `fetchExpenses` (lines 30-83). -/
def fetchExpenses (env : Env) (user : Option User) (page : Page) (db : Store) :
    Handled Page Request :=
  match user with
  | none => fetchCatch env page db [] (JSError.ofMessage "User is not authenticated")
  | some u =>
    if !u.token.truthy then
      fetchCatch env page db [] (JSError.ofMessage "User is not authenticated")
    else
      match env.list (.get u.token) with
      | .error e => fetchCatch env page db [.get u.token] e
      | .ok response =>
        match normalizeAndFilter env (response.items.getD []) with
        | .error e => fetchCatch env page db [.get u.token] e
        | .ok normalizedExpenses =>
          ⟨{ page with expenses := normalizedExpenses }, db, [.get u.token], [], none⟩

end Expenses

/-! ## `src/pages/Buyers.jsx` -/

namespace Buyers

/-- The React state of the page that `handleSubmit` reads or writes. -/
structure Page where
  buyers : List Record
  error : JSValue
  modalIsOpen : Bool
  formData : Record
  deriving DecidableEq

/-- The form as `useState` and `closeModal` set it. -/
def initialForm : Record :=
  [("id", .null), ("name", .string ""), ("contact", .string ""), ("location", .string "")]

/-- The requests of the page to `/api/buyers`. -/
inductive Request where
  | put (id : JSValue) (token : JSValue) (payload : Record)
  | post (token : JSValue) (payload : Record)
  | get (token : JSValue)
  | delete (id : JSValue) (token : JSValue)
  deriving DecidableEq

/-- A 2xx answer to a create or update: the value of `response.data.buyer.id`, `none` when
reading it raises a `TypeError` because `response.data.buyer` is missing. -/
structure Created where
  buyerId : Option JSValue
  deriving DecidableEq

/-- A 2xx answer to the list request: `items` is `none` when `response.data.items` is
not an array; the items are objects with primitive fields. -/
structure Listed where
  items : Option (List Record)
  deriving DecidableEq

/-- What the handlers read from outside: the answers of the server (`Except.error` when
axios rejects), the answer to `window.confirm` and the successive values of `Date.now()`. -/
structure Env where
  submit : Request → Except JSError Created
  list : Request → Except JSError Listed
  delete : Request → Except JSError Unit
  confirm : Bool
  now : Nat → Nat

/-- `closeModal` (lines 60-63). -/
def closeModal (page : Page) : Page :=
  { page with modalIsOpen := false, formData := initialForm }

/-- The object `payload` of lines 78-82. -/
def payloadOfForm (formData : Record) : Record :=
  [("name", formData.get "name"),
   ("contact", (formData.get "contact").or .null),
   ("location", (formData.get "location").or .null)]

/-- The `catch` block of `handleSubmit` (lines 100-111). -/
def submitCatch (env : Env) (user : Option User) (page : Page) (db : Store)
    (requests : List Request) (toasts : List Toast) (err : JSError) : Handled Page Request :=
  let errorMessage := err.responseMessage.or (.string "Failed to save buyer")
  let page1 := { page with error := errorMessage }
  let toasts1 := toasts ++ [⟨errorMessage, "error"⟩]
  if includes err.message "Network Error" then
    match user with
    | none => ⟨page1, db, requests, toasts1,
        some (JSError.ofMessage "Cannot read properties of null")⟩
    | some u =>
      match db.buyers.add (page.formData.set "farm_id" u.farm_id) with
      | .error e => ⟨page1, db, requests, toasts1, some e⟩
      | .ok buyers =>
        ⟨closeModal { page1 with
            buyers := page.buyers ++ [page.formData.set "id" (.number (.fin (env.now 0)))] },
          { db with buyers := buyers }, requests,
          toasts1 ++ [⟨.string "Buyer saved offline", "info"⟩], none⟩
  else ⟨page1, db, requests, toasts1, none⟩

/-- Lines 95-99 of `handleSubmit`: the list is fetched again and the modal closed. -/
def refresh (env : Env) (user : Option User) (u : User) (page : Page) (db : Store)
    (requests : List Request) (toasts : List Toast) : Handled Page Request :=
  let requests1 := requests ++ [.get u.token]
  match env.list (.get u.token) with
  | .error e => submitCatch env user page db requests1 toasts e
  | .ok response =>
    ⟨closeModal { page with buyers := response.items.getD [] }, db, requests1, toasts, none⟩

/-- `handleSubmit` of the buyers page (lines 74-112). -/
def handleSubmit (env : Env) (user : Option User) (page : Page) (db : Store) :
    Handled Page Request :=
  match user with
  | none => submitCatch env user page db [] [] (JSError.ofMessage "User is not authenticated")
  | some u =>
    if !u.token.truthy then
      submitCatch env user page db [] [] (JSError.ofMessage "User is not authenticated")
    else
      let formData := page.formData
      let payload := payloadOfForm formData
      if (formData.get "id").truthy then
        let request := Request.put (formData.get "id") u.token payload
        match env.submit request with
        | .error e => submitCatch env user page db [request] [] e
        | .ok _ =>
          refresh env user u page db [request]
            [⟨.string "Buyer updated successfully", "success"⟩]
      else
        let request := Request.post u.token payload
        match env.submit request with
        | .error e => submitCatch env user page db [request] [] e
        | .ok response =>
          let toasts := [(⟨.string "Buyer added successfully", "success"⟩ : Toast)]
          match response.buyerId with
          | none =>
            submitCatch env user page db [request] toasts
              (JSError.ofMessage "Cannot read properties of undefined")
          | some id =>
            match db.buyers.add ((payload.set "id" id).set "farm_id" u.farm_id) with
            | .error e => submitCatch env user page db [request] toasts e
            | .ok buyers => refresh env user u page { db with buyers := buyers } [request] toasts

end Buyers

/-! ## Addition and updates -/

/-- The sum of two numbers. -/
def JSNumber.add : JSNumber → JSNumber → JSNumber
  | .nan, _ => .nan
  | _, .nan => .nan
  | .fin a, .fin b => .fin (a + b)
  | .posInf, .negInf => .nan
  | .negInf, .posInf => .nan
  | .posInf, _ => .posInf
  | _, .posInf => .posInf
  | .negInf, _ => .negInf
  | _, .negInf => .negInf

/-- The conversion to a number of a value that is not a string. -/
def toNumber : JSValue → JSNumber
  | .undefined => .nan
  | .null => .fin 0
  | .bool true => .fin 1
  | .bool false => .fin 0
  | .number n => n
  | .string _ => .nan

/-- The operator `a + b`: the concatenation of the two texts when one side is a string,
the sum of the two numbers otherwise. -/
def jsAdd (numberToString : JSNumber → String) (a b : JSValue) : JSValue :=
  if a.isString || b.isString then
    .string (toJSString numberToString a ++ toJSString numberToString b)
  else .number ((toNumber a).add (toNumber b))

/-- `table.update(key, changes)`: the properties of `changes` are set on the row with that
key, if there is one; an invalid key is refused. -/
def Table.update (t : Table) (key : JSValue) (changes : Record) : Except JSError Table :=
  if !validKey key then .error dataError
  else .ok { t with rows := t.rows.map (fun r =>
    if r.key == key then changes.foldl (fun row kv => row.set kv.1 kv.2) r else r) }

/-! ## `src/pages/Products.jsx` -/

namespace Products

/-- The React state of the page that `handleSubmit` reads or writes. -/
structure Page where
  products : List Record
  lowInventory : List Record
  error : JSValue
  modalIsOpen : Bool
  formMode : String
  formData : Record
  selectedProductId : JSValue
  quantityToAdd : JSValue
  deriving DecidableEq

/-- The form as `useState`, `openModal('add')` and `closeModal` set it. -/
def initialForm : Record :=
  [("id", .null), ("name", .string ""), ("category", .string ""), ("quantity", .number (.fin 0)),
   ("harvest_date", .string ""), ("minimum_threshold", .number (.fin 0)),
   ("default_unit_id", .string "")]

/-- The requests of the page that `handleSubmit` makes. -/
inductive Request where
  | patchQuantity (id : JSValue) (token : JSValue) (payload : Record)
  | put (id : JSValue) (token : JSValue) (payload : Record)
  | post (token : JSValue) (payload : Record)
  | get (token : JSValue)
  | getAlerts (token : JSValue)
  deriving DecidableEq

/-- A 2xx answer to a create or update: the value of `response.data.product.id`, `none`
when reading it raises a `TypeError` because `response.data.product` is missing. -/
structure Created where
  productId : Option JSValue
  deriving DecidableEq

/-- A 2xx answer to the list request: `items` is `none` when `response.data.items` is
not an array; the items are objects with primitive fields. -/
structure Listed where
  items : Option (List Record)
  deriving DecidableEq

/-- What `handleSubmit` reads from outside.  `patch` answers the quantity PATCH with the
object `response.data.product`; `submit` answers the PUT or POST; `list` answers the GET
of the products; `alerts` answers the GET of the alerts with `response.data` (`none` when
it is falsy); each is `Except.error` when axios rejects.  `now` gives the successive values
of `Date.now()`; `numberToString` is the text of a number. -/
structure Env where
  patch : Request → Except JSError Record
  submit : Request → Except JSError Created
  list : Request → Except JSError Listed
  alerts : Request → Except JSError (Option (List Record))
  now : Nat → Nat
  numberToString : JSNumber → String

/-- `closeModal` (lines 92-98). -/
def closeModal (page : Page) : Page :=
  { page with modalIsOpen := false, formData := initialForm, formMode := "add",
              selectedProductId := .string "", quantityToAdd := .string "" }

/-- The object `payload` of lines 129-136. -/
def payloadOfForm (formData : Record) : Record :=
  [("name", formData.get "name"),
   ("category", formData.get "category"),
   ("quantity", parseInt (formData.get "quantity")),
   ("harvest_date", (formData.get "harvest_date").or .null),
   ("minimum_threshold", (parseInt (formData.get "minimum_threshold")).or (.number (.fin 0))),
   ("default_unit_id",
      if (formData.get "default_unit_id").truthy then parseInt (formData.get "default_unit_id")
      else .null)]

/-- The `catch` block of `handleSubmit` (lines 161-187).  It reads the values of the
render in which the handler was created (`page`) and writes to the state as the `try`
block left it (`current`). -/
def submitCatch (env : Env) (user : Option User) (page current : Page) (db : Store)
    (requests : List Request) (toasts : List Toast) (err : JSError) : Handled Page Request :=
  let errorMessage := err.responseMessage.or (.string "Failed to save product")
  let page1 := { current with error := errorMessage }
  let toasts1 := toasts ++ [⟨errorMessage, "error"⟩]
  if includes err.message "Network Error" then
    if page.formMode == "addQuantity" && page.selectedProductId.truthy then
      match page.products.find?
          (fun p => (p.get "id").strictEq (parseInt page.selectedProductId)) with
      | none => ⟨closeModal page1, db, requests, toasts1, none⟩
      | some product =>
        match db.products.update (parseInt page.selectedProductId)
            [("quantity", jsAdd env.numberToString (product.get "quantity")
              (parseInt page.quantityToAdd))] with
        | .error e => ⟨page1, db, requests, toasts1, some e⟩
        | .ok products =>
          let shown := page.products.map (fun p =>
            if (p.get "id").strictEq (parseInt page.selectedProductId) then
              p.set "quantity" (jsAdd env.numberToString (p.get "quantity")
                (parseInt page.quantityToAdd))
            else p)
          ⟨closeModal { page1 with products := shown }, { db with products := products },
            requests,
            toasts1 ++ [⟨.string ("Quantity update for "
              ++ toJSString env.numberToString (product.get "name") ++ " saved offline"), "info"⟩],
            none⟩
    else if page.formMode == "add" then
      match user with
      | none => ⟨page1, db, requests, toasts1,
          some (JSError.ofMessage "Cannot read properties of null")⟩
      | some u =>
        match db.products.add ((page.formData.set "id" (.number (.fin (env.now 0)))).set
            "farm_id" u.farm_id) with
        | .error e => ⟨page1, db, requests, toasts1, some e⟩
        | .ok products =>
          ⟨closeModal { page1 with
              products := page.products ++ [page.formData.set "id" (.number (.fin (env.now 1)))] },
            { db with products := products }, requests,
            toasts1 ++ [⟨.string "Product saved offline", "info"⟩], none⟩
    else ⟨closeModal page1, db, requests, toasts1, none⟩
  else ⟨page1, db, requests, toasts1, none⟩

/-- Lines 151-160 of `handleSubmit`: the products and the alerts are fetched again and the
modal closed. -/
def refresh (env : Env) (user : Option User) (u : User) (page current : Page) (db : Store)
    (requests : List Request) (toasts : List Toast) : Handled Page Request :=
  let requests1 := requests ++ [.get u.token]
  match env.list (.get u.token) with
  | .error e => submitCatch env user page current db requests1 toasts e
  | .ok response =>
    let shown := (response.items.getD []).map
      (fun item => item.set "harvest_date" ((item.get "harvest_date").or .null))
    let current1 := { current with products := shown }
    let requests2 := requests1 ++ [.getAlerts u.token]
    match env.alerts (.getAlerts u.token) with
    | .error e => submitCatch env user page current1 db requests2 toasts e
    | .ok lowInventory =>
      ⟨closeModal { current1 with lowInventory := lowInventory.getD [] },
        db, requests2, toasts, none⟩

/-- `handleSubmit` of the products page (lines 113-188). -/
def handleSubmit (env : Env) (user : Option User) (page : Page) (db : Store) :
    Handled Page Request :=
  match user with
  | none =>
    submitCatch env user page page db [] [] (JSError.ofMessage "User is not authenticated")
  | some u =>
    if !u.token.truthy then
      submitCatch env user page page db [] [] (JSError.ofMessage "User is not authenticated")
    else if page.formMode == "addQuantity" then
      if !page.selectedProductId.truthy then
        submitCatch env user page page db [] [] (JSError.ofMessage "Please select a product")
      else
        let payload : Record := [("quantity_to_add", parseInt page.quantityToAdd)]
        let request := Request.patchQuantity page.selectedProductId u.token payload
        match env.patch request with
        | .error e => submitCatch env user page page db [request] [] e
        | .ok product =>
          let current := { page with products := page.products.map (fun p =>
            if (p.get "id").strictEq (parseInt page.selectedProductId) then product else p) }
          match db.products.update (parseInt page.selectedProductId)
              [("quantity", product.get "quantity")] with
          | .error e => submitCatch env user page current db [request] [] e
          | .ok products =>
            refresh env user u page current { db with products := products } [request]
              [⟨.string ("Added " ++ toJSString env.numberToString page.quantityToAdd ++ " to "
                ++ toJSString env.numberToString (product.get "name")), "success"⟩]
    else
      let formData := page.formData
      let payload := payloadOfForm formData
      if page.formMode == "edit" && (formData.get "id").truthy then
        let request := Request.put (formData.get "id") u.token payload
        match env.submit request with
        | .error e => submitCatch env user page page db [request] [] e
        | .ok _ =>
          refresh env user u page page db [request]
            [⟨.string "Product updated successfully", "success"⟩]
      else
        let request := Request.post u.token payload
        match env.submit request with
        | .error e => submitCatch env user page page db [request] [] e
        | .ok response =>
          let toasts := [(⟨.string "Product added successfully", "success"⟩ : Toast)]
          match response.productId with
          | none =>
            submitCatch env user page page db [request] toasts
              (JSError.ofMessage "Cannot read properties of undefined")
          | some id =>
            match db.products.add ((payload.set "id" id).set "farm_id" u.farm_id) with
            | .error e => submitCatch env user page page db [request] toasts e
            | .ok products =>
              refresh env user u page page { db with products := products } [request] toasts

end Products

/-! ## `src/context/AuthContext.jsx` -/

/-- The session that `AuthProvider` holds: the items `token` and `farmName` of
`localStorage` (`none` when absent) and the state `user`. -/
structure Session where
  token : Option String
  farmName : Option String
  user : Option User
  deriving DecidableEq

/-- `logout` (lines 58-63): both items are removed and the user becomes `null`. -/
def logout (_ : Session) : Session × List Toast :=
  (⟨none, none, none⟩, [⟨.string "Logged out successfully!", "success"⟩])

/-- The answer to `GET /api/farm`: a 2xx response, or a rejection with the status of the
response it carries (`none` when there is no response). -/
inductive FarmAnswer where
  | ok
  | rejected (status : Option Nat)
  deriving DecidableEq

/-- `fetchFarmDetails` (lines 65-87), called from a render in which the state `user` was
`rendered`: with a stored token and no user in that render it asks for the farm; a 2xx
answer sets the user, a rejection with status 401 logs out, any other rejection is only
written to the console. -/
def fetchFarmDetails (farm : String → FarmAnswer) (rendered : Option User) (session : Session) :
    Session × List Toast :=
  match session.token with
  | none => (session, [])
  | some token =>
    if token = "" || rendered.isSome then (session, [])
    else
      match farm token with
      | .ok => ({ session with user := some ⟨.string token, .undefined⟩ }, [])
      | .rejected status =>
        if status = some 401 then
          ((logout session).1,
            (logout session).2 ++ [⟨.string "Session expired. Please log in again.", "error"⟩])
        else (session, [])

/-- The effect of lines 89-96, run after a render: with a stored token and no user, the
user becomes `{ token }` (line 92) and `fetchFarmDetails` is called. -/
def restoreSession (farm : String → FarmAnswer) (session : Session) : Session × List Toast :=
  match session.token, session.user with
  | some token, none =>
    if token = "" then (session, [])
    else fetchFarmDetails farm none { session with user := some ⟨.string token, .undefined⟩ }
  | _, _ => (session, [])

/-! ## `fetchData` of `src/pages/Dashboard.jsx` -/

namespace Dashboard

/-- The React state of the dashboard: the three bodies (`null` until loaded) and the
error text. -/
structure Page where
  summary : Option Record
  financial : Option Record
  trends : Option Record
  error : JSValue
  deriving DecidableEq

/-- A rejection of axios as `fetchData` reads it: the error and `error.response?.status`
(`none` when there is no response). -/
structure Rejection where
  error : JSError
  status : Option Nat
  deriving DecidableEq

/-- What `fetchData` reads from outside: the outcome of the `Promise.all` of the three GETs
for a token (the three bodies, or the rejection it settles with) and the translation `t`
of a message key. -/
structure Env where
  answers : JSValue → Except Rejection (Record × Record × Record)
  t : String → String

/-- What `fetchData` leaves: the page state, the session, the route passed to `navigate`
(`none` when it is not called) and the toasts. -/
structure Outcome where
  page : Page
  session : Session
  navigated : Option String
  toasts : List Toast
  deriving DecidableEq

/-- `fetchData` (lines 24-53), which the effect of lines 55-59 calls when there is a user:
a rejection with status 401 removes the items `token` and `farmName` of `localStorage` and
goes to the login route. -/
def fetchData (env : Env) (user : User) (session : Session) (page : Page) : Outcome :=
  match env.answers user.token with
  | .ok (summary, financial, trends) =>
    ⟨{ page with summary := some summary, financial := some financial, trends := some trends },
      session, none, [⟨.string (env.t "dashboard.dataLoaded"), "success"⟩]⟩
  | .error rejection =>
    let errorMessage := rejection.error.responseMessage.or (.string (env.t "dashboard.error"))
    let page1 := { page with error := errorMessage }
    let toasts : List Toast := [⟨errorMessage, "error"⟩]
    if rejection.status = some 401 then
      ⟨page1, { session with token := none, farmName := none }, some "/login",
        toasts ++ [⟨.string (env.t "auth.sessionExpired"), "error"⟩]⟩
    else ⟨page1, session, none, toasts⟩

end Dashboard

/-! ## The form handlers of `src/pages/Products.jsx` -/

namespace Products

/-- `openModal(mode)` (lines 82-90). -/
def openModal (mode : String) (page : Page) : Page :=
  { page with formMode := mode, modalIsOpen := true,
              formData := if mode == "add" then initialForm else page.formData,
              selectedProductId := .string "", quantityToAdd := .string "" }

/-- `handleChange` (lines 105-107): the text of the input goes into the form. -/
def handleChange (name value : String) (page : Page) : Page :=
  { page with formData := page.formData.set name (.string value) }

/-- `handleQuantityChange` (lines 109-111). -/
def handleQuantityChange (value : String) (page : Page) : Page :=
  { page with quantityToAdd := .string value }

/-- The `onChange` of the product select of the 'Add Quantity' form: the `value` of the
chosen option, a text, becomes `selectedProductId`. -/
def handleSelectChange (value : String) (page : Page) : Page :=
  { page with selectedProductId := .string value }

/-- `handleAddQuantity(product)` (lines 203-206): `setSelectedProductId(product.id)` is
followed by `openModal('addQuantity')`, whose `setSelectedProductId('')` is the later
write. -/
def handleAddQuantity (product : Record) (page : Page) : Page :=
  openModal "addQuantity" { page with selectedProductId := product.get "id" }

end Products

/-! ## `fetchBuyers` of `src/pages/Buyers.jsx` -/

namespace Buyers

/-- The `catch` block of `fetchBuyers` (lines 36-44): the rows of the local table replace
the list when there is at least one. -/
def fetchCatch (page : Page) (db : Store) (requests : List Request) (err : JSError) :
    Handled Page Request :=
  let page1 := { page with error := err.responseMessage.or (.string "Failed to load buyers") }
  let offlineBuyers := db.buyers.toArray
  if offlineBuyers.length ≠ 0 then
    ⟨{ page1 with buyers := offlineBuyers }, db, requests,
      [⟨.string "Loaded offline buyers data", "info"⟩], none⟩
  else ⟨page1, db, requests, [], none⟩

/-- `fetchBuyers` (lines 28-47), the effect that runs when the page is shown. -/
def fetchBuyers (env : Env) (user : Option User) (page : Page) (db : Store) :
    Handled Page Request :=
  match user with
  | none => fetchCatch page db [] (JSError.ofMessage "User is not authenticated")
  | some u =>
    if !u.token.truthy then fetchCatch page db [] (JSError.ofMessage "User is not authenticated")
    else
      match env.list (.get u.token) with
      | .error e => fetchCatch page db [.get u.token] e
      | .ok response =>
        ⟨{ page with buyers := response.items.getD [] }, db, [.get u.token], [], none⟩

end Buyers

/-! ## The bulk delete and the form of `src/pages/Sales.jsx` -/

/-- `TimeClip` of a number: the time value of a date made from it. -/
def timeClip : JSNumber → JSNumber
  | .fin q =>
    if |q| > 8640000000000000 then .nan
    else .fin (if 0 ≤ q then ((⌊q⌋ : ℤ) : ℚ) else ((⌈q⌉ : ℤ) : ℚ))
  | _ => .nan

/-- The time value of `new Date(value)`, `NaN` for an invalid date; `parse` is `Date.parse`
on a text. -/
def dateValue (parse : String → JSNumber) : JSValue → JSNumber
  | .string s => parse s
  | v => timeClip (toNumber v)

/-- The comparison of `Array.prototype.includes`: as `===`, except that `NaN` is found. -/
def sameValueZero (a b : JSValue) : Bool := decide (a = b)

/-- `Promise.all(rows.map(row => table.add(row)))`: every add is made, in the order of the
rows; the promise rejects with the first failure. -/
def addAll (table : Table) : List Record → Table × Option JSError
  | [] => (table, none)
  | row :: rest =>
    match table.add row with
    | .error e => ((addAll table rest).1, some e)
    | .ok table1 => addAll table1 rest

/-- `Promise.all(keys.map(key => table.delete(key)))`: every delete is made, in the order
of the keys; the promise rejects with the first failure. -/
def deleteAll (table : Table) : List JSValue → Table × Option JSError
  | [] => (table, none)
  | key :: rest =>
    match table.delete key with
    | .error e => ((deleteAll table rest).1, some e)
    | .ok table1 => deleteAll table1 rest

namespace Sales

/-- `closeBulkDeleteModal` (lines 172-175). -/
def closeBulkDeleteModal (page : Page) : Page :=
  { page with bulkDeleteModalOpen := false,
              bulkDeleteDates := [("start_date", .string ""), ("end_date", .string "")] }

/-- The test of the filter of lines 347-352:
`saleDate >= startDate && saleDate <= endDate` on the three dates. -/
def inBulkRange (parse : String → JSNumber) (dates : Record) (s : Record) : Bool :=
  let saleDate := dateValue parse (s.get "sale_date")
  let startDate := dateValue parse (dates.get "start_date")
  let endDate := dateValue parse (dates.get "end_date")
  startDate.le saleDate && saleDate.le endDate

/-- The array `tempIds` of lines 346-354. -/
def tempIds (parse : String → JSNumber) (page : Page) : List JSValue :=
  (page.sales.filter (inBulkRange parse page.bulkDeleteDates)).map (fun s => s.get "id")

/-- The `catch` block of `handleBulkDelete` (lines 340-365), entered with the requests and
toasts made so far. -/
def bulkDeleteCatch (parse : String → JSNumber) (user : Option User) (page : Page) (db : Store)
    (requests : List Request) (toasts : List Toast) (err : JSError) : Handled Page Request :=
  let errorMessage := err.responseMessage.or (.string "Failed to delete sales")
  let page1 := { page with error := errorMessage }
  let toasts1 := toasts ++ [⟨errorMessage, "error"⟩]
  if includes err.message "Network Error" then
    let ids := tempIds parse page
    let tombstones : Except JSError (List Record) :=
      match user with
      | some u => .ok (ids.map (tombstone u))
      | none => if ids.isEmpty then .ok [] else .error typeError
    match tombstones with
    | .error e => ⟨page1, db, requests, toasts1, some e⟩
    | .ok rows =>
      let added := addAll db.pendingDeletions rows
      let db1 := { db with pendingDeletions := added.1 }
      match added.2 with
      | some e => ⟨page1, db1, requests, toasts1, some e⟩
      | none =>
        let shown := page.sales.filter
          (fun s => !(ids.any (fun id => sameValueZero id (s.get "id"))))
        let page2 := { page1 with sales := shown }
        let deleted := deleteAll db1.sales ids
        let db2 := { db1 with sales := deleted.1 }
        match deleted.2 with
        | some e => ⟨page2, db2, requests, toasts1, some e⟩
        | none =>
          ⟨closeBulkDeleteModal page2, db2, requests,
            toasts1 ++ [⟨.string "Bulk deletion queued offline", "info"⟩], none⟩
  else ⟨page1, db, requests, toasts1, none⟩

/-- `handleBulkDelete` (lines 310-368). -/
def handleBulkDelete (parse : String → JSNumber) (env : Env) (user : Option User) (page : Page)
    (db : Store) : Handled Page Request :=
  if !(page.bulkDeleteDates.get "start_date").truthy
      || !(page.bulkDeleteDates.get "end_date").truthy then
    ⟨page, db, [], [⟨.string "Please select both start and end dates", "error"⟩], none⟩
  else if !env.confirm then ⟨page, db, [], [], none⟩
  else
    match user with
    | none =>
      bulkDeleteCatch parse user page db [] [] (JSError.ofMessage "User is not authenticated")
    | some u =>
      if !u.token.truthy then
        bulkDeleteCatch parse user page db [] [] (JSError.ofMessage "User is not authenticated")
      else
        let request := Request.bulkDelete u.token page.bulkDeleteDates
        match env.bulkDelete request with
        | .error e => bulkDeleteCatch parse user page db [request] [] e
        | .ok message =>
          let toasts : List Toast := [⟨message, "success"⟩]
          let requests := [request, .get u.token]
          match env.list (.get u.token) with
          | .error e => bulkDeleteCatch parse user page db requests toasts e
          | .ok salesResponse =>
            match normalizeAll (salesResponse.items.getD []) with
            | .error e => bulkDeleteCatch parse user page db requests toasts e
            | .ok shown =>
              ⟨closeBulkDeleteModal { page with sales := shown }, db, requests, toasts, none⟩

/-- The inputs of the sale form that are wired to `handleChange` (lines 552-668). -/
inductive ChangeField where
  | product_id
  | quantity_sold
  | unit_id
  | price_per_unit
  | sale_date
  | buyer_name
  | buyer_contact
  deriving DecidableEq

/-- The `name` attribute of an input. -/
def ChangeField.name : ChangeField → String
  | .product_id => "product_id"
  | .quantity_sold => "quantity_sold"
  | .unit_id => "unit_id"
  | .price_per_unit => "price_per_unit"
  | .sale_date => "sale_date"
  | .buyer_name => "buyer_name"
  | .buyer_contact => "buyer_contact"

/-- The state of the first render (the `useState` calls of lines 15-37). -/
def initialPage : Page where
  sales := []
  error := .string ""
  modalIsOpen := false
  bulkDeleteModalOpen := false
  formData := initialForm
  bulkDeleteDates := [("start_date", .string ""), ("end_date", .string "")]

/-- `openModal` (line 165). -/
def openModal (page : Page) : Page := { page with modalIsOpen := true }

/-- `handleChange` (lines 182-184) for the input `field`. -/
def handleChange (field : ChangeField) (value : String) (page : Page) : Page :=
  { page with formData := page.formData.set field.name (.string value) }

/-- The `onChange` of the buyer select (lines 626-628). -/
def handleBuyerSelect (value : String) (page : Page) : Page :=
  { page with formData :=
      (((page.formData.set "buyer_id" (.string value)).set "create_new_buyer" (.bool false)).set
        "buyer_name" (.string "")).set "buyer_contact" (.string "") }

/-- The `onChange` of the 'Add New Buyer' checkbox (line 646). -/
def handleNewBuyerToggle (checked : Bool) (page : Page) : Page :=
  { page with formData :=
      (page.formData.set "create_new_buyer" (.bool checked)).set "buyer_id" (.string "") }

/-- `handleEdit(sale)` (lines 269-283). -/
def handleEdit (sale : Record) (page : Page) : Page :=
  openModal { page with formData :=
    [("id", sale.get "id"),
     ("product_id", (sale.get "product_id").or (.string "")),
     ("quantity_sold", (sale.get "quantity_sold").or (.string "")),
     ("price_per_unit", (sale.get "price_per_unit").or (.string "")),
     ("sale_date", (sale.get "sale_date").or (.string "")),
     ("buyer_id", (sale.get "buyer_id").or (.string "")),
     ("create_new_buyer", .bool false),
     ("buyer_name", .string ""),
     ("buyer_contact", .string ""),
     ("unit_id", (sale.get "unit_id").or (.string ""))] }

/-- What the user can do to the sale form: type into an input, choose a buyer, tick or
untick 'Add New Buyer', press 'Edit' on a sale, close the form. -/
inductive FormEvent where
  | change (field : ChangeField) (value : String)
  | selectBuyer (value : String)
  | toggleNewBuyer (checked : Bool)
  | edit (sale : Record)
  | close
  deriving DecidableEq

/-- The page after one event of the form. -/
def formStep (page : Page) : FormEvent → Page
  | .change field value => handleChange field value page
  | .selectBuyer value => handleBuyerSelect value page
  | .toggleNewBuyer checked => handleNewBuyerToggle checked page
  | .edit sale => handleEdit sale page
  | .close => closeModal page

/-- The page after a sequence of events of the form, from the first render. -/
def formAfter (events : List FormEvent) : Page :=
  events.foldl formStep initialPage

end Sales

/-! ## The value of a number input -/

/-- Whether `cs` is a run of one or more ASCII digits. -/
def digitsOnly (cs : List Char) : Bool := !cs.isEmpty && cs.all Char.isDigit

/-- Whether `cs` is empty or an exponent part: `e` or `E`, an optional sign, digits. -/
def validExponent : List Char → Bool
  | [] => true
  | c :: rest =>
    (c == 'e' || c == 'E') &&
      (match rest with
       | '+' :: ds => digitsOnly ds
       | '-' :: ds => digitsOnly ds
       | ds => digitsOnly ds)

/-- Whether `cs` is a valid floating-point number of HTML: an optional `-`, then digits, or
a `.` followed by digits, or both, then an optional exponent part. -/
def validFloatingPointNumber (cs : List Char) : Bool :=
  let unsigned := match cs with
    | '-' :: rest => rest
    | rest => rest
  match unsigned.dropWhile Char.isDigit with
  | '.' :: rest =>
    !(rest.takeWhile Char.isDigit).isEmpty && validExponent (rest.dropWhile Char.isDigit)
  | rest => !(unsigned.takeWhile Char.isDigit).isEmpty && validExponent rest

/-- The `value` that an `<input type="number">` reports after the user has typed `typed`
(its value sanitization): the text itself when it is a valid floating-point number whose
value is a finite number, the empty text otherwise. -/
def sanitizeNumber (typed : String) : String :=
  if validFloatingPointNumber typed.toList
      && (match parseFloatString typed with
          | .fin _ => true
          | _ => false) then typed
  else ""

/-! ## What an entity page renders -/

/-- What an entity page returns once loading is over: the error text alone, or the page
with one table line per listed record. -/
inductive View where
  | errorText (error : JSValue)
  | table (rows : List Record)
  deriving DecidableEq

/-- The records that a view displays. -/
def View.rows : View → List Record
  | .errorText _ => []
  | .table rows => rows

/-- The return of the buyers page (`Buyers.jsx` lines 158-200): `if (error) return` the
error text, else the table of `buyers`. -/
def Buyers.view (page : Buyers.Page) : View :=
  if page.error.truthy then .errorText page.error else .table page.buyers

/-- The return of the expenses page (`Expenses.jsx` lines 275-334): `if (error) return`
the error text, else the table of `expenses`. -/
def Expenses.view (page : Expenses.Page) : View :=
  if page.error.truthy then .errorText page.error else .table page.expenses

/-! ## The life of the sales page -/

namespace Sales

/-- The `catch` block of `fetchData` (lines 102-122): the error is set and, when the local
table has rows, its rows are listed. -/
def fetchCatch (page : Page) (db : Store) (requests : List Request) (err : JSError) :
    Handled Page Request :=
  let page1 := { page with
    error := (JSValue.string err.message).or (.string "Failed to load sales") }
  let offlineSales := db.sales.toArray
  if offlineSales.length ≠ 0 then
    match normalizeAll (offlineSales.map JsonItem.object) with
    | .error e => ⟨page1, db, requests, [], some e⟩
    | .ok normalizedOffline =>
      ⟨{ page1 with sales := normalizedOffline }, db, requests,
        [⟨.string "Loaded offline sales data", "info"⟩], none⟩
  else ⟨page1, db, requests, [], none⟩

/-- `fetchData` (lines 49-126), the effect that runs when the page is shown.  Of the seven
GETs of the `Promise.all` the one of the sales is answered by `env.list`; `others` is the
rejection with which the `Promise.all` settles because of one of the other six, if it does,
and `reading` the error raised while the bodies of the other six are read (lines 98-101),
if one is. -/
def fetchData (env : Env) (others reading : Option JSError) (user : Option User) (page : Page)
    (db : Store) : Handled Page Request :=
  match user with
  | none => fetchCatch page db [] (JSError.ofMessage "User is not authenticated")
  | some u =>
    if !u.token.truthy then
      fetchCatch page db [] (JSError.ofMessage "User is not authenticated")
    else
      let requests := [Request.get u.token]
      match others with
      | some e => fetchCatch page db requests e
      | none =>
        match env.list (.get u.token) with
        | .error e => fetchCatch page db requests e
        | .ok salesResponse =>
          match normalizeAll (salesResponse.items.getD []) with
          | .error e => fetchCatch page db requests e
          | .ok normalizedSales =>
            let page1 := { page with sales := normalizedSales }
            match reading with
            | some e => fetchCatch page1 db requests e
            | none =>
              let synced := syncPendingDeletions env user page1 db
              ⟨synced.page, synced.db, requests ++ synced.requests, synced.toasts, none⟩

/-- `handleBulkDeleteChange` (lines 186-188). -/
def handleBulkDeleteChange (name value : String) (page : Page) : Page :=
  { page with bulkDeleteDates := page.bulkDeleteDates.set name (.string value) }

/-- What happens to the sales page and the local store: the page is opened (anew, or its
effect runs again for another user), the user acts on the form, on the dates of the bulk
delete or on a button, and the sync page submits or clears the local tables. -/
inductive Event where
  | mount
  | fetch (env : Env) (others reading : Option JSError) (user : Option User)
  | form (event : FormEvent)
  | dates (name value : String)
  | submit (env : Env) (user : Option User)
  | delete (env : Env) (user : Option User) (index : Nat)
  | bulkDelete (parse : String → JSNumber) (env : Env) (user : Option User)
  | syncRecords (env : SyncEnv) (token : JSValue)
  | clear (type : OfflineTable)

/-- The page and the store after one event.  `delete` is the 'Delete' button of the sale
at position `index` of the list. -/
def step (state : Page × Store) : Event → Page × Store
  | .mount => (initialPage, state.2)
  | .fetch env others reading user =>
    ((fetchData env others reading user state.1 state.2).page,
      (fetchData env others reading user state.1 state.2).db)
  | .form event => (formStep state.1 event, state.2)
  | .dates name value => (handleBulkDeleteChange name value state.1, state.2)
  | .submit env user =>
    ((handleSubmit env user state.1 state.2).page, (handleSubmit env user state.1 state.2).db)
  | .delete env user index =>
    match state.1.sales[index]? with
    | none => state
    | some sale =>
      ((handleDelete env user (sale.get "id") state.1 state.2).page,
        (handleDelete env user (sale.get "id") state.1 state.2).db)
  | .bulkDelete parse env user =>
    ((handleBulkDelete parse env user state.1 state.2).page,
      (handleBulkDelete parse env user state.1 state.2).db)
  | .syncRecords env token => (state.1, (Agriperks.syncRecords env token state.2).2.1)
  | .clear type => (state.1, clearOfflineRecords type state.2)

/-- The page and the store after a sequence of events, from the first render and the
empty store. -/
def run (events : List Event) : Page × Store :=
  events.foldl step (initialPage, Store.empty)

/-- The server answers of an environment carry ids that `confirmed` knows: the id of every
sale it confirms as created, which is never `undefined`, and the id of every item it
lists. -/
def Env.gives (confirmed : JSValue → Bool) (env : Env) : Prop :=
  (∀ request id, env.submit request = .ok ⟨some id⟩ → confirmed id = true ∧ id ≠ .undefined) ∧
  (∀ request items, env.list request = .ok ⟨some items⟩ →
    ∀ item ∈ items, confirmed (item.get "id") = true)

/-- The server answers met in an event carry ids that `confirmed` knows. -/
def Event.gives (confirmed : JSValue → Bool) : Event → Prop
  | .fetch env _ _ _ => env.gives confirmed
  | .submit env _ => env.gives confirmed
  | .delete env _ _ => env.gives confirmed
  | .bulkDelete _ env _ => env.gives confirmed
  | _ => True

end Sales

/-- Every listed sale, every row of the local sales table and every tombstone carries an
id that `confirmed` knows. -/
def Sales.idsConfirmed (confirmed : JSValue → Bool) (state : Sales.Page × Store) : Prop :=
  (∀ s ∈ state.1.sales, confirmed (s.get "id") = true) ∧
  (∀ row ∈ state.2.sales.rows, confirmed (row.get "id") = true) ∧
  (∀ row ∈ state.2.pendingDeletions.rows, confirmed (row.get "entity_id") = true)

/-! ## Sample data -/

/-- A buffered product row. -/
def sampleProduct : Record :=
  [("id", .number (.fin 1)), ("name", .string "Maize"), ("quantity", .number (.fin 5))]

/-- A second buffered product row, one the server rejects in the examples. -/
def rejectedProduct : Record :=
  [("id", .number (.fin 2)), ("name", .string ""), ("quantity", .number (.fin 3))]

/-- The tombstone `Sales.handleDelete` writes for sale 7 of farm 1, with its Dexie key. -/
def sampleTombstone : Record :=
  [("entity_type", .string "sale"), ("entity_id", .number (.fin 7)),
   ("farm_id", .number (.fin 1)), ("id", .number (.fin 1))]

/-- A store whose only rows are the two buffered products. -/
def twoProductStore : Store :=
  { Store.empty with products := ⟨[sampleProduct, rejectedProduct], 3⟩ }

/-- A server that answers 2xx, reports one product synced and an error for the other. -/
def partialRejectEnv : SyncEnv where
  onLine := true
  post := fun _ => .ok ⟨some ⟨some ⟨.number (.fin 1), .number (.fin 0), .number (.fin 0),
    .number (.fin 0), .number (.fin 0)⟩, some ["Product 2: name is required"]⟩⟩
  typeErrorMessage := "Cannot read properties of undefined"

/-- A reachable server that answers every sync request with an error status. -/
def failingEnv : SyncEnv where
  onLine := true
  post := fun _ => .error ⟨"Request failed with status code 500", .string "Internal error"⟩
  typeErrorMessage := "Cannot read properties of undefined"

/-- No connectivity. -/
def offlineEnv : SyncEnv := { failingEnv with onLine := false }

/-- A store holding one buffered product and one tombstone. -/
def tombstoneStore : Store :=
  { Store.empty with products := ⟨[sampleProduct], 2⟩,
                     pendingDeletions := ⟨[sampleTombstone], 2⟩ }

/-- A reachable server that accepts every sync request. -/
def acceptingEnv : SyncEnv where
  onLine := true
  post := fun request => .ok ⟨some ⟨some ⟨.number (.fin request.body.products.length),
    .number (.fin request.body.sales.length), .number (.fin request.body.buyers.length),
    .number (.fin request.body.prices.length), .number (.fin request.body.expenses.length)⟩,
    some []⟩⟩
  typeErrorMessage := "Cannot read properties of undefined"

/-- The session of a signed-in user of farm 1. -/
def sampleUser : User := ⟨.string "jwt", .number (.fin 1)⟩

/-- A server that cannot be reached from the market prices page: every `fetch` rejects
with a message that contains 'Network Error'. -/
def MarketPrices.unreachableEnv : MarketPrices.Env where
  send := fun _ => .rejected (JSError.ofMessage "Network Error")
  list := fun _ => .rejected (JSError.ofMessage "Network Error")
  now := fun i => 1700000000000 + i
  stringify := fun _ => ""

/-- The market prices page with the create form filled in for maize. -/
def MarketPrices.samplePage : MarketPrices.Page where
  prices := []
  error := ""
  modalIsOpen := true
  formData := [("id", .null), ("product_name", .string "Maize"), ("current_price", .string "10"),
    ("location", .string ""), ("date_updated", .string ""), ("unit", .string "kg")]

/-- The row `MarketPrices.handleSubmit` buffers for the sample form. -/
def MarketPrices.bufferedRow : Record :=
  [("id", .number (.fin 1700000000000)), ("product_name", .string "Maize"),
   ("current_price", .string "10"), ("location", .string ""), ("date_updated", .string ""),
   ("unit", .string "kg"), ("farm_id", .number (.fin 1))]

/-- A server that cannot be reached from the expenses page: axios rejects every request
with the message 'Network Error' and no response. -/
def Expenses.unreachableEnv : Expenses.Env where
  submit := fun _ => .error (JSError.ofMessage "Network Error")
  syncPost := fun _ _ => .error (JSError.ofMessage "Network Error")
  list := fun _ => .error (JSError.ofMessage "Network Error")
  delete := fun _ => .error (JSError.ofMessage "Network Error")
  confirm := true
  now := fun i => 1700000000000 + i
  numberToString := fun _ => ""

/-- The expenses page with the create form filled in: 'Feed', 120.50. -/
def Expenses.feedPage : Expenses.Page where
  expenses := []
  error := .string ""
  modalIsOpen := true
  formData := [("id", .null), ("description", .string "Feed"), ("amount", .string "120.50"),
    ("category", .string ""), ("date_incurred", .string "")]

/-- The payload of the 'Feed' expense. -/
def Expenses.feedPayload : Record :=
  [("description", .string "Feed"), ("amount", .number (.fin (241 / 2))),
   ("category", .null), ("date_incurred", .null)]

/-- The 'Feed' expense as a stored row with the given id, for farm 1. -/
def Expenses.feedRow (id : ℚ) : Record :=
  Expenses.feedPayload ++ [("id", .number (.fin id)), ("farm_id", .number (.fin 1))]

/-- A reachable server for the expenses page: the create of `handleSubmit` is confirmed
with id 42, the POST made for row `i` by `syncOfflineExpenses` with id `43 + i`, the list
is empty. -/
def Expenses.confirmingEnv : Expenses.Env where
  submit := fun _ => .ok ⟨some (.number (.fin 42))⟩
  syncPost := fun i _ => .ok ⟨some (.number (.fin (43 + i)))⟩
  list := fun _ => .ok ⟨some []⟩
  delete := fun _ => .ok ()
  confirm := true
  now := fun i => 1700000000000 + i
  numberToString := fun _ => ""

/-- A second buffered expense, 'Seed', with temporary id 1700000000005. -/
def Expenses.seedRow : Record :=
  [("description", .string "Seed"), ("amount", .number (.fin 30)), ("category", .null),
   ("date_incurred", .null), ("id", .number (.fin 1700000000005)),
   ("farm_id", .number (.fin 1))]

/-- A store whose expenses table holds 'Feed' under the temporary id 1700000000000 and
'Seed' under 1700000000005. -/
def Expenses.bufferedStore : Store :=
  { Store.empty with
    expenses := ⟨[Expenses.feedRow 1700000000000, Expenses.seedRow], 1700000000006⟩ }

/-- A server that confirms the POST made for the first row with id 42 and rejects the
POST made for any other row. -/
def Expenses.firstOnlyEnv : Expenses.Env :=
  { Expenses.confirmingEnv with
    syncPost := fun i _ =>
      if i = 0 then .ok ⟨some (.number (.fin 42))⟩
      else .error ⟨"Request failed with status code 400", .string "Invalid expense"⟩ }

/-- Dexie operations of which the clear of the sales table fails. -/
def salesClearFault : DexieFaults where
  read := fun _ => none
  clear := fun t => if t = .sales then some (JSError.ofMessage "Transaction aborted") else none

/-- A store with one buffered product and one buffered sale. -/
def productAndSaleStore : Store :=
  { Store.empty with products := ⟨[sampleProduct], 2⟩,
                     sales := ⟨[[("id", .number (.fin 1)), ("product_id", .number (.fin 1))]], 2⟩ }

/-- The text of a whole number, used where an example has to print counts. -/
def wholeNumberText : JSNumber → String
  | .fin q => toString q.num
  | _ => "NaN"

/-- A server that cannot be reached from the sales page: axios rejects every request with
the message 'Network Error' and no response. -/
def Sales.unreachableEnv : Sales.Env where
  submit := fun _ => .error (JSError.ofMessage "Network Error")
  list := fun _ => .error (JSError.ofMessage "Network Error")
  delete := fun _ => .error (JSError.ofMessage "Network Error")
  bulkDelete := fun _ => .error (JSError.ofMessage "Network Error")
  sync := fun _ => .error (JSError.ofMessage "Network Error")
  confirm := true
  now := fun i => 1700000000000 + i
  numberToString := wholeNumberText

/-- A sale as the page lists it and the local table stores it, with the given id. -/
def Sales.saleRow (id : ℚ) : Record :=
  [("id", .number (.fin id)), ("product_id", .number (.fin 1)),
   ("quantity_sold", .number (.fin 2)), ("price_per_unit", .number (.fin 10)),
   ("sale_date", .string "2025-01-15"), ("buyer_id", .number (.fin 3)),
   ("unit_id", .number (.fin 1)), ("farm_id", .number (.fin 1))]

/-- The sales page listing the given sales, with the form closed. -/
def Sales.pageListing (sales : List Record) : Sales.Page where
  sales := sales
  error := .string ""
  modalIsOpen := false
  bulkDeleteModalOpen := false
  formData := Sales.initialForm
  bulkDeleteDates := [("start_date", .string ""), ("end_date", .string "")]

/-- A store whose sales table holds the synced sales 7 and 9. -/
def Sales.syncedStore : Store :=
  { Store.empty with sales := ⟨[Sales.saleRow 7, Sales.saleRow 9], 10⟩ }

/-- The stored tombstone for the sale `entity_id` of farm 1 under the Dexie key `key`. -/
def Sales.storedTombstone (entity_id key : ℚ) : Record :=
  [("entity_type", .string "sale"), ("entity_id", .number (.fin entity_id)),
   ("farm_id", .number (.fin 1)), ("id", .number (.fin key))]

/-- A store with two buffered deletions, for the sales 7 and 9. -/
def Sales.twoTombstoneStore : Store :=
  { Store.empty with
    pendingDeletions := ⟨[Sales.storedTombstone 7 1, Sales.storedTombstone 9 2], 3⟩ }

/-- A server that confirms one of the submitted deletions (that of sale 7) and rejects the
other: `POST /api/sync` answers `{ deletions_synced: 1 }`, and the list of sales is empty. -/
def Sales.oneConfirmedEnv : Sales.Env :=
  { Sales.unreachableEnv with
    sync := fun _ => .ok ⟨some (.fin 1)⟩
    list := fun _ => .ok ⟨some []⟩ }

/-- A raw expense with a well-formed id and amount. -/
def Expenses.rawFeed : JsonItem :=
  .object [("id", .number (.fin 42)), ("description", .string "Feed"),
    ("amount", .number (.fin (241 / 2))), ("category", .null), ("date_incurred", .null),
    ("farm_id", .number (.fin 1))]

/-- A raw expense whose amount is the text 'abc'. -/
def Expenses.rawTextAmount : JsonItem :=
  .object [("id", .number (.fin 1)), ("description", .string "Fuel"),
    ("amount", .string "abc"), ("category", .null), ("date_incurred", .null),
    ("farm_id", .number (.fin 1))]

/-- A raw expense whose amount is the negative number -5. -/
def Expenses.rawNegativeAmount : JsonItem :=
  .object [("id", .number (.fin 2)), ("description", .string "Seed"),
    ("amount", .number (.fin (-5))), ("category", .null), ("date_incurred", .null),
    ("farm_id", .number (.fin 1))]

/-- A reachable server whose list of expenses is the given array. -/
def Expenses.listingEnv (items : List JsonItem) : Expenses.Env :=
  { Expenses.confirmingEnv with list := fun _ => .ok ⟨some items⟩ }

/-- The expenses page as it is first rendered. -/
def Expenses.emptyPage : Expenses.Page where
  expenses := []
  error := .string ""
  modalIsOpen := false
  formData := Expenses.initialForm

/-- A server that answers the create of a market price with status 400 and a message that
quotes the rejected product name, 'Network Error'. -/
def MarketPrices.rejectingEnv : MarketPrices.Env :=
  { MarketPrices.unreachableEnv with
    send := fun _ => .responded false 400 "Invalid product_name: Network Error"
      (.error (JSError.ofMessage "Unexpected token")) }

/-- The answer of a server that rejects a request with status 422 and the message 'Name
is required' in its error body. -/
def validationError : JSError :=
  ⟨"Request failed with status code 422", .string "Name is required"⟩

/-- A server that rejects every create or update of an expense as invalid. -/
def Expenses.rejectingEnv : Expenses.Env :=
  { Expenses.confirmingEnv with submit := fun _ => .error validationError }

/-- A server that rejects every create or update of a sale as invalid. -/
def Sales.rejectingEnv : Sales.Env :=
  { Sales.unreachableEnv with submit := fun _ => .error validationError }

/-- The sales page with the create form filled in for an existing buyer. -/
def Sales.samplePage : Sales.Page :=
  { Sales.pageListing [] with
    modalIsOpen := true
    formData := [("id", .null), ("product_id", .string "1"), ("quantity_sold", .string "2"),
      ("price_per_unit", .string "10"), ("sale_date", .string "2025-01-15"),
      ("buyer_id", .string "3"), ("create_new_buyer", .bool false), ("buyer_name", .string ""),
      ("buyer_contact", .string ""), ("unit_id", .string "1")] }

/-- A server that rejects every create or update of a buyer as invalid. -/
def Buyers.rejectingEnv : Buyers.Env where
  submit := fun _ => .error validationError
  list := fun _ => .ok ⟨some []⟩
  delete := fun _ => .ok ()
  confirm := true
  now := fun i => 1700000000000 + i

/-- The buyers page with the form open on the buyer 3, whose name has been emptied. -/
def Buyers.samplePage : Buyers.Page where
  buyers := [[("id", .number (.fin 3)), ("name", .string "Amina"), ("contact", .null),
    ("location", .null), ("farm_id", .number (.fin 1))]]
  error := .string ""
  modalIsOpen := true
  formData := [("id", .number (.fin 3)), ("name", .string ""), ("contact", .string ""),
    ("location", .string "")]

/-- A server that rejects every create or update of a product as invalid. -/
def Products.rejectingEnv : Products.Env where
  patch := fun _ => .error validationError
  submit := fun _ => .error validationError
  list := fun _ => .ok ⟨some []⟩
  alerts := fun _ => .ok none
  now := fun i => 1700000000000 + i
  numberToString := wholeNumberText

/-- The products page with the create form filled in without a name. -/
def Products.samplePage : Products.Page where
  products := []
  lowInventory := []
  error := .string ""
  modalIsOpen := true
  formMode := "add"
  formData := [("id", .null), ("name", .string ""), ("category", .string "Grain"),
    ("quantity", .string "5"), ("harvest_date", .string ""), ("minimum_threshold", .string "1"),
    ("default_unit_id", .string "")]
  selectedProductId := .string ""
  quantityToAdd := .string ""

/-- The answer of a server that rejects a request with status 401. -/
def unauthorizedError : JSError :=
  ⟨"Request failed with status code 401", .string "Token has expired"⟩

/-- A server that answers every request of the expenses page with status 401. -/
def Expenses.unauthorizedEnv : Expenses.Env :=
  { Expenses.confirmingEnv with
    submit := fun _ => .error unauthorizedError
    syncPost := fun _ _ => .error unauthorizedError
    list := fun _ => .error unauthorizedError
    delete := fun _ => .error unauthorizedError }

/-- The session of the signed-in user of farm 1. -/
def sampleSession : Session := ⟨some "jwt", some "My Farm", some sampleUser⟩

/-- The session after a reload: the token is stored, the user is not set yet. -/
def reloadedSession : Session := ⟨some "jwt", some "My Farm", none⟩

/-- A server that cannot be reached from the products page: axios rejects every request
with the message 'Network Error' and no response; the clock advances by one millisecond
from one reading to the next. -/
def Products.unreachableEnv : Products.Env where
  patch := fun _ => .error (JSError.ofMessage "Network Error")
  submit := fun _ => .error (JSError.ofMessage "Network Error")
  list := fun _ => .error (JSError.ofMessage "Network Error")
  alerts := fun _ => .error (JSError.ofMessage "Network Error")
  now := fun i => 1700000000000 + i
  numberToString := wholeNumberText

/-- The same unreachable server with a clock that gives the same millisecond at every
reading. -/
def Products.sameTickEnv : Products.Env :=
  { Products.unreachableEnv with now := fun _ => 1700000000000 }

/-- The products page with the create form filled in for maize, quantity 5. -/
def Products.maizePage : Products.Page where
  products := []
  lowInventory := []
  error := .string ""
  modalIsOpen := true
  formMode := "add"
  formData := [("id", .null), ("name", .string "Maize"), ("category", .string "Grain"),
    ("quantity", .string "5"), ("harvest_date", .string ""), ("minimum_threshold", .string "1"),
    ("default_unit_id", .string "2")]
  selectedProductId := .string ""
  quantityToAdd := .string ""

/-- The payload of the create request for the maize form. -/
def Products.maizePayload : Record :=
  [("name", .string "Maize"), ("category", .string "Grain"), ("quantity", .number (.fin 5)),
   ("harvest_date", .null), ("minimum_threshold", .number (.fin 1)),
   ("default_unit_id", .number (.fin 2))]

/-- The maize form as a row with the given id and quantity: the fields hold the texts of
the inputs. -/
def Products.maizeFormRow (id : ℚ) (quantity : String) : Record :=
  [("id", .number (.fin id)), ("name", .string "Maize"), ("category", .string "Grain"),
   ("quantity", .string quantity), ("harvest_date", .string ""),
   ("minimum_threshold", .string "1"), ("default_unit_id", .string "2")]

/-- The payload of the create request for the sample market price. -/
def MarketPrices.samplePayload : Record :=
  [("product_name", .string "Maize"), ("current_price", .number (.fin 10)),
   ("location", .null), ("date_updated", .null), ("unit", .string "kg")]

/-- A server that cannot be reached from the buyers page. -/
def Buyers.unreachableEnv : Buyers.Env where
  submit := fun _ => .error (JSError.ofMessage "Network Error")
  list := fun _ => .error (JSError.ofMessage "Network Error")
  delete := fun _ => .error (JSError.ofMessage "Network Error")
  confirm := true
  now := fun i => 1700000000000 + i

/-- The buyers page with the create form filled in for Amina. -/
def Buyers.createPage : Buyers.Page where
  buyers := []
  error := .string ""
  modalIsOpen := true
  formData := [("id", .null), ("name", .string "Amina"), ("contact", .string "0700"),
    ("location", .string "")]

/-- The buyer 3 of the given farm, as the server lists it and as the local table mirrors
it. -/
def Buyers.aminaRow (farm : ℚ) : Record :=
  [("name", .string "Amina"), ("contact", .string "0700"), ("location", .null),
   ("id", .number (.fin 3)), ("farm_id", .number (.fin farm))]

/-- The form of the buyers page opened on buyer 3, with the contact changed to 0711. -/
def Buyers.editedForm : Record :=
  [("id", .number (.fin 3)), ("name", .string "Amina"), ("contact", .string "0711"),
   ("location", .string "")]

/-- The buyers page listing buyer 3, with the edit form open on it. -/
def Buyers.editPage : Buyers.Page where
  buyers := [Buyers.aminaRow 1]
  error := .string ""
  modalIsOpen := true
  formData := Buyers.editedForm

/-- A store whose buyers table mirrors buyer 3 of the given farm. -/
def Buyers.mirroredStore (farm : ℚ) : Store :=
  { Store.empty with buyers := ⟨[Buyers.aminaRow farm], 4⟩ }

/-- The buyers page as it is first rendered. -/
def Buyers.emptyPage : Buyers.Page where
  buyers := []
  error := .string ""
  modalIsOpen := false
  formData := Buyers.initialForm

/-- The expense form with the description 'Feed' and the given text as amount. -/
def Expenses.formWithAmount (amount : String) : Record :=
  [("id", .null), ("description", .string "Feed"), ("amount", .string amount),
   ("category", .string ""), ("date_incurred", .string "")]

/-- `Date.parse` on the dates of the examples: midnight UTC of the day, in milliseconds;
any other text is taken for an invalid date. -/
def Sales.sampleDateParse (s : String) : JSNumber :=
  if s = "2025-01-10" then .fin 1736467200000
  else if s = "2025-01-12" then .fin 1736640000000
  else if s = "2025-01-15" then .fin 1736899200000
  else if s = "2025-01-20" then .fin 1737331200000
  else if s = "2025-01-31" then .fin 1738281600000
  else .nan

/-- A listed sale with the given id and sale date. -/
def Sales.datedSale (id : ℚ) (date : String) : Record :=
  [("id", .number (.fin id)), ("product_id", .number (.fin 1)),
   ("quantity_sold", .number (.fin 2)), ("price_per_unit", .number (.fin 10)),
   ("total_price", .number (.fin 20)), ("sale_date", .string date),
   ("buyer_id", .number (.fin 3)), ("unit_id", .number (.fin 1)),
   ("farm_id", .number (.fin 1))]

/-- The sales page listing the sales 7, 8 and 9 of 10, 15 and 31 January 2025, with the
bulk delete form filled in for 12 to 20 January. -/
def Sales.bulkPage : Sales.Page where
  sales := [Sales.datedSale 7 "2025-01-10", Sales.datedSale 8 "2025-01-15",
    Sales.datedSale 9 "2025-01-31"]
  error := .string ""
  modalIsOpen := false
  bulkDeleteModalOpen := true
  formData := Sales.initialForm
  bulkDeleteDates := [("start_date", .string "2025-01-12"), ("end_date", .string "2025-01-20")]

/-- The events of a user who fills in the sale form, chooses buyer 3, then ticks 'Add New
Buyer' and types the name and contact of the new buyer. -/
def Sales.newBuyerEvents : List Sales.FormEvent :=
  [.change .product_id "1", .change .quantity_sold "2", .change .unit_id "1",
   .change .price_per_unit "10", .change .sale_date "2025-01-15", .selectBuyer "3",
   .toggleNewBuyer true, .change .buyer_name "Amina", .change .buyer_contact "0700"]

/-- A server that answers every request of the sales page with status 401. -/
def Sales.unauthorizedEnv : Sales.Env :=
  { Sales.unreachableEnv with
    submit := fun _ => .error unauthorizedError
    list := fun _ => .error unauthorizedError
    delete := fun _ => .error unauthorizedError
    bulkDelete := fun _ => .error unauthorizedError
    sync := fun _ => .error unauthorizedError }

/-- A server that answers the GETs of the dashboard with status 401; the texts of the
message keys are the keys. -/
def Dashboard.unauthorizedEnv : Dashboard.Env where
  answers := fun _ => .error ⟨unauthorizedError, some 401⟩
  t := fun key => key

/-- The dashboard as it is first rendered. -/
def Dashboard.emptyPage : Dashboard.Page := ⟨none, none, none, .string ""⟩

/-- The ids 7 and 9, the ones that the server of the examples has given. -/
def Sales.knownIds (id : JSValue) : Bool :=
  id == .number (.fin 7) || id == .number (.fin 9)

/-- A server that lists the sales 7 and 9 and cannot be reached for anything else. -/
def Sales.listingEnv : Sales.Env :=
  { Sales.unreachableEnv with
    list := fun _ => .ok ⟨some [.object (Sales.saleRow 7), .object (Sales.saleRow 9)]⟩ }

/-- The page is opened while the server lists the sales 7 and 9; then the connection is
lost and the 'Delete' button of the first listed sale is pressed. -/
def Sales.deleteOfflineEvents : List Sales.Event :=
  [.fetch Sales.listingEnv none none (some sampleUser),
   .delete Sales.unreachableEnv (some sampleUser) 0]

/-- The sale form is filled in and submitted while the server cannot be reached. -/
def Sales.createOfflineEvents : List Sales.Event :=
  Sales.newBuyerEvents.map Sales.Event.form ++ [.submit Sales.unreachableEnv (some sampleUser)]

/-! ## Properties of `syncRecords` -/

theorem totalRecords_eq (d : OfflineData) :
    totalRecords d = d.products.length + d.sales.length + d.buyers.length + d.prices.length
      + d.expenses.length := by
  simp [totalRecords]

theorem totalRecords_clearSynced (db : Store) :
    totalRecords (collectOfflineData (clearSynced db)) = 0 := by
  simp [totalRecords, collectOfflineData, clearSynced, clearOfflineRecords, getOfflineRecords,
    Table.clear, Table.toArray]

theorem clearSynced_pendingDeletions (db : Store) :
    (clearSynced db).pendingDeletions = db.pendingDeletions := rfl

/-- The requests `syncRecords` issues: none, or the single POST of the collected data. -/
theorem syncRecords_requests (env : SyncEnv) (token : JSValue) (db : Store) :
    (syncRecords env token db).2.2 = [] ∨
      (syncRecords env token db).2.2 = [⟨token, collectOfflineData db⟩] := by
  unfold syncRecords
  split
  · exact Or.inl rfl
  · simp only []
    split
    · exact Or.inl rfl
    · split
      · exact Or.inr rfl
      · split
        · exact Or.inr rfl
        · split <;> exact Or.inr rfl

/-- C1: without connectivity (`navigator.onLine` false) `syncRecords` returns the failure
outcome with the 'No internet connection...' message, issues no HTTP request and leaves
the store (so all five local tables) unchanged, for every store content and token. -/
theorem syncRecords_offline (env : SyncEnv) (token : JSValue) (db : Store)
    (h : env.onLine = false) :
    syncRecords env token db =
      (⟨false, .value (.string "No internet connection. Please connect to sync data."), none⟩,
        db, []) := by
  simp [syncRecords, h, syncCatch, JSError.ofMessage, JSValue.or, JSValue.truthy]

/-- C1 at a store with two buffered products and no connectivity. -/
theorem syncRecords_offline_witness :
    syncRecords offlineEnv (.string "jwt") twoProductStore =
      (⟨false, .value (.string "No internet connection. Please connect to sync data."), none⟩,
        twoProductStore, []) :=
  syncRecords_offline offlineEnv (.string "jwt") twoProductStore rfl

/-- C2 (the code at the failing input): the server answers 2xx, reports one product
synced and an error for the other; `syncRecords` returns success with that error, and
the rejected row is gone from the products table, which is empty afterwards. -/
theorem syncRecords_rejected_record_cleared :
    (syncRecords partialRejectEnv (.string "jwt") twoProductStore).1.success = true ∧
    (syncRecords partialRejectEnv (.string "jwt") twoProductStore).1.errors =
      some ["Product 2: name is required"] ∧
    rejectedProduct ∈ twoProductStore.products.rows ∧
    (syncRecords partialRejectEnv (.string "jwt") twoProductStore).2.1.products.rows = [] := by
  refine ⟨rfl, rfl, ?_, rfl⟩
  simp [twoProductStore]

/-- C3: when the sync-offline-data request that `syncRecords` makes fails (axios rejects:
network error or non-2xx status), `syncRecords` returns the failure outcome built by its
`catch` block and the store is exactly the store before the call. -/
theorem syncRecords_request_failure_retains (env : SyncEnv) (token : JSValue) (db : Store)
    (request : SyncRequest) (error : JSError)
    (hmade : request ∈ (syncRecords env token db).2.2)
    (hfail : env.post request = .error error) :
    (syncRecords env token db).1 = syncCatch error ∧
    (syncRecords env token db).1.success = false ∧
    (syncRecords env token db).2.1 = db := by
  have hreq : request = ⟨token, collectOfflineData db⟩ := by
    rcases syncRecords_requests env token db with h | h
    · rw [h] at hmade; simp at hmade
    · rw [h] at hmade; simpa using hmade
  subst hreq
  unfold syncRecords at hmade ⊢
  split at hmade
  · simp at hmade
  · rename_i hon
    simp only [] at hmade
    split at hmade
    · simp at hmade
    · rename_i htotal
      simp [hon, htotal, hfail, syncCatch]

/-- C3 at a store with two buffered products and a server that answers with status 500. -/
theorem syncRecords_request_failure_retains_witness :
    (⟨.string "jwt", collectOfflineData twoProductStore⟩ : SyncRequest) ∈
        (syncRecords failingEnv (.string "jwt") twoProductStore).2.2 ∧
    (syncRecords failingEnv (.string "jwt") twoProductStore).1 =
        syncCatch ⟨"Request failed with status code 500", .string "Internal error"⟩ ∧
    (syncRecords failingEnv (.string "jwt") twoProductStore).1.success = false ∧
    (syncRecords failingEnv (.string "jwt") twoProductStore).2.1 = twoProductStore :=
  have hmade : (⟨.string "jwt", collectOfflineData twoProductStore⟩ : SyncRequest) ∈
      (syncRecords failingEnv (.string "jwt") twoProductStore).2.2 := by
    simp [syncRecords, failingEnv, totalRecords, collectOfflineData, getOfflineRecords,
      twoProductStore, Store.empty, Table.toArray, Table.empty]
  ⟨hmade, syncRecords_request_failure_retains failingEnv (.string "jwt") twoProductStore
    ⟨.string "jwt", collectOfflineData twoProductStore⟩
    ⟨"Request failed with status code 500", .string "Internal error"⟩ hmade rfl⟩

/-- C4 as stated fails: with a reachable server that answers the sync request with an
error, the first call retains the rows and the second call, made with no intervening
mutation, submits them again. -/
theorem syncRecords_second_call_resubmits :
    (syncRecords failingEnv (.string "jwt")
        (syncRecords failingEnv (.string "jwt") twoProductStore).2.1).2.2 =
      [⟨.string "jwt", collectOfflineData twoProductStore⟩] ∧
    collectOfflineData twoProductStore ≠ ⟨[], [], [], [], []⟩ := by
  constructor
  · simp [syncRecords, failingEnv, totalRecords, collectOfflineData, getOfflineRecords,
      twoProductStore, Store.empty, Table.toArray, Table.empty]
  · simp [collectOfflineData, getOfflineRecords, twoProductStore, Store.empty, Table.toArray]

/-- C4 (amended): if the first call was made online and every request it issued was
answered with a 2xx response (this includes the case that nothing was buffered), then a
second call on the store the first one left, whatever its token and environment, issues
no request, leaves the store as it is and reports no errors and no synced counts; when it
is made online it returns the no-op success 'No offline data to sync.'. -/
theorem syncRecords_second_call_noop (env1 env2 : SyncEnv) (token1 token2 : JSValue)
    (db : Store) (honline : env1.onLine = true)
    (hanswered : ∀ request ∈ (syncRecords env1 token1 db).2.2,
      ∃ response, env1.post request = .ok response) :
    (syncRecords env2 token2 (syncRecords env1 token1 db).2.1).2.2 = [] ∧
    (syncRecords env2 token2 (syncRecords env1 token1 db).2.1).2.1 =
      (syncRecords env1 token1 db).2.1 ∧
    (syncRecords env2 token2 (syncRecords env1 token1 db).2.1).1.errors = none ∧
    (∀ synced, (syncRecords env2 token2 (syncRecords env1 token1 db).2.1).1.message ≠
      .syncedSummary synced) ∧
    (env2.onLine = true →
      (syncRecords env2 token2 (syncRecords env1 token1 db).2.1).1 =
        ⟨true, .value (.string "No offline data to sync."), none⟩) := by
  have hzero : totalRecords (collectOfflineData (syncRecords env1 token1 db).2.1) = 0 := by
    by_cases htotal : totalRecords (collectOfflineData db) = 0
    · simp [syncRecords, honline, htotal]
    · cases hpost : env1.post ⟨token1, collectOfflineData db⟩ with
      | error error =>
        have hmem : (⟨token1, collectOfflineData db⟩ : SyncRequest) ∈
            (syncRecords env1 token1 db).2.2 := by
          simp [syncRecords, honline, htotal, hpost]
        obtain ⟨response, hresp⟩ := hanswered _ hmem
        rw [hpost] at hresp
        cases hresp
      | ok response =>
        have hstore : (syncRecords env1 token1 db).2.1 = clearSynced db := by
          simp only [syncRecords, honline, htotal, hpost, Bool.not_true, Bool.false_eq_true,
            if_false]
          split
          · rfl
          · split <;> rfl
        rw [hstore]
        exact totalRecords_clearSynced db
  generalize (syncRecords env1 token1 db).2.1 = db1 at hzero ⊢
  unfold syncRecords
  by_cases h2 : env2.onLine = true
  · simp [h2, hzero]
  · simp [h2, syncCatch]

/-- C4 (amended) after a first call that the server answered with a 2xx response: the
second call, offline or online, issues no request. -/
theorem syncRecords_second_call_noop_witness :
    (syncRecords offlineEnv (.string "jwt")
        (syncRecords partialRejectEnv (.string "jwt") twoProductStore).2.1).2.2 = [] ∧
    (syncRecords partialRejectEnv (.string "jwt")
        (syncRecords partialRejectEnv (.string "jwt") twoProductStore).2.1).1 =
      ⟨true, .value (.string "No offline data to sync."), none⟩ :=
  ⟨(syncRecords_second_call_noop partialRejectEnv offlineEnv (.string "jwt") (.string "jwt")
      twoProductStore rfl (fun _ _ => ⟨_, rfl⟩)).1,
   (syncRecords_second_call_noop partialRejectEnv partialRejectEnv (.string "jwt")
      (.string "jwt") twoProductStore rfl (fun _ _ => ⟨_, rfl⟩)).2.2.2.2 rfl⟩

/-- C5: online and with the five local tables empty, `syncRecords` returns the no-op
success with message 'No offline data to sync.', issues no HTTP request and leaves the
store unchanged. -/
theorem syncRecords_nothing_buffered (env : SyncEnv) (token : JSValue) (db : Store)
    (honline : env.onLine = true)
    (hproducts : db.products.rows = []) (hsales : db.sales.rows = [])
    (hbuyers : db.buyers.rows = []) (hprices : db.marketPrices.rows = [])
    (hexpenses : db.expenses.rows = []) :
    syncRecords env token db =
      (⟨true, .value (.string "No offline data to sync."), none⟩, db, []) := by
  simp [syncRecords, honline, totalRecords, collectOfflineData, getOfflineRecords,
    Table.toArray, hproducts, hsales, hbuyers, hprices, hexpenses]

/-- C5 at the empty store. -/
theorem syncRecords_nothing_buffered_witness :
    syncRecords failingEnv (.string "jwt") Store.empty =
      (⟨true, .value (.string "No offline data to sync."), none⟩, Store.empty, []) :=
  syncRecords_nothing_buffered failingEnv (.string "jwt") Store.empty rfl rfl rfl rfl rfl rfl

/-- C6 as stated fails: with a tombstone in `pendingDeletions`, the only request of an
online `syncRecords` call carries the product and nothing else, so the tombstone (with or
without its local id) is in no submitted array; with tombstones only, no request is
issued at all. -/
theorem syncRecords_omits_tombstones :
    sampleTombstone ∈ tombstoneStore.pendingDeletions.rows ∧
    (syncRecords acceptingEnv (.string "jwt") tombstoneStore).2.2 =
      [⟨.string "jwt", ⟨[cleanRecord sampleProduct], [], [], [], []⟩⟩] ∧
    (∀ request ∈ (syncRecords acceptingEnv (.string "jwt") tombstoneStore).2.2,
      sampleTombstone ∉ request.body.records ∧
      cleanRecord sampleTombstone ∉ request.body.records) ∧
    (syncRecords acceptingEnv (.string "jwt")
      { Store.empty with pendingDeletions := ⟨[sampleTombstone], 2⟩ }).2.2 = [] := by
  have hreq : (syncRecords acceptingEnv (.string "jwt") tombstoneStore).2.2 =
      [⟨.string "jwt", ⟨[cleanRecord sampleProduct], [], [], [], []⟩⟩] := by
    simp [syncRecords, acceptingEnv, totalRecords, collectOfflineData, getOfflineRecords,
      tombstoneStore, Store.empty, Table.toArray, Table.empty]
  refine ⟨by simp [tombstoneStore], hreq, ?_, ?_⟩
  · rw [hreq]
    intro request hmem
    rw [List.mem_singleton] at hmem
    subst hmem
    simp only [OfflineData.records, List.append_nil, List.mem_singleton]
    constructor <;> decide
  · simp [syncRecords, acceptingEnv, totalRecords, collectOfflineData, getOfflineRecords,
      Store.empty, Table.toArray, Table.empty]

/-- C6 (amended): what `syncRecords` collects and submits is built from the rows of
products, sales, buyers, marketPrices and expenses only: every submitted record is a
cleaned row of one of these five tables, the outcome and the requests are the same
whatever `pendingDeletions` holds, and `pendingDeletions` is left as it was. -/
theorem syncRecords_independent_of_tombstones (env : SyncEnv) (token : JSValue) (db : Store)
    (tombstones : Table) :
    (∀ request ∈ (syncRecords env token db).2.2, ∀ record ∈ request.body.records,
      ∃ row ∈ db.entityRows, record = cleanRecord row) ∧
    (syncRecords env token { db with pendingDeletions := tombstones }).1 =
      (syncRecords env token db).1 ∧
    (syncRecords env token { db with pendingDeletions := tombstones }).2.2 =
      (syncRecords env token db).2.2 ∧
    (syncRecords env token { db with pendingDeletions := tombstones }).2.1.pendingDeletions =
      tombstones := by
  have hcollect : collectOfflineData { db with pendingDeletions := tombstones } =
      collectOfflineData db := rfl
  refine ⟨?_, ?_, ?_, ?_⟩
  · intro request hmem record hrec
    have hreq : request = ⟨token, collectOfflineData db⟩ := by
      rcases syncRecords_requests env token db with h | h
      · rw [h] at hmem; simp at hmem
      · rw [h] at hmem; simpa using hmem
    subst hreq
    simp only [OfflineData.records, collectOfflineData, getOfflineRecords, Table.toArray,
      List.mem_append, List.mem_map] at hrec
    simp only [Store.entityRows, List.mem_append]
    rcases hrec with (((⟨row, hrow, rfl⟩ | ⟨row, hrow, rfl⟩) | ⟨row, hrow, rfl⟩) |
      ⟨row, hrow, rfl⟩) | ⟨row, hrow, rfl⟩
    · exact ⟨row, by simp [hrow], rfl⟩
    · exact ⟨row, by simp [hrow], rfl⟩
    · exact ⟨row, by simp [hrow], rfl⟩
    · exact ⟨row, by simp [hrow], rfl⟩
    · exact ⟨row, by simp [hrow], rfl⟩
  · unfold syncRecords
    rw [hcollect]
    split
    · rfl
    · simp only []
      split
      · rfl
      · split
        · rfl
        · split
          · rfl
          · split <;> rfl
  · unfold syncRecords
    rw [hcollect]
    split
    · rfl
    · simp only []
      split
      · rfl
      · split
        · rfl
        · split
          · rfl
          · split <;> rfl
  · unfold syncRecords
    split
    · rfl
    · simp only []
      split
      · rfl
      · split
        · rfl
        · split
          · rfl
          · split <;> rfl

/-! ## The offline create of a market price -/

/-- C7 (the code at the failing input): the create form for maize is submitted while
every `fetch` rejects with 'Network Error'.  `MarketPrices.handleSubmit` reports 'Market
price saved offline' and writes the row to the table `prices`; the table `marketPrices`,
the one `syncRecords` reads for its `prices` array, stays empty, so the next online
`syncRecords` call answers 'No offline data to sync.', issues no request and leaves the
buffered row where it is. -/
theorem marketPrice_buffered_never_submitted :
    (MarketPrices.handleSubmit MarketPrices.unreachableEnv (some sampleUser)
      MarketPrices.samplePage Store.empty).toasts.getLast? =
        some ⟨.string "Market price saved offline", "info"⟩ ∧
    (MarketPrices.handleSubmit MarketPrices.unreachableEnv (some sampleUser)
      MarketPrices.samplePage Store.empty).db.prices.rows = [MarketPrices.bufferedRow] ∧
    (MarketPrices.handleSubmit MarketPrices.unreachableEnv (some sampleUser)
      MarketPrices.samplePage Store.empty).db.marketPrices.rows = [] ∧
    syncRecords acceptingEnv (.string "jwt")
      (MarketPrices.handleSubmit MarketPrices.unreachableEnv (some sampleUser)
        MarketPrices.samplePage Store.empty).db =
      (⟨true, .value (.string "No offline data to sync."), none⟩,
        (MarketPrices.handleSubmit MarketPrices.unreachableEnv (some sampleUser)
          MarketPrices.samplePage Store.empty).db, []) := by
  decide!

/-! ## Rows of a table under `add` and `delete` -/

theorem mem_insertRow (row r : Record) (l : List Record) :
    r ∈ insertRow row l ↔ r = row ∨ r ∈ l := by
  induction l with
  | nil => simp [insertRow]
  | cons x xs ih =>
    unfold insertRow
    split
    · simp
    · simp only [List.mem_cons, ih]
      tauto

theorem filter_insertRow_of_neg (p : Record → Bool) (row : Record) (l : List Record)
    (h : p row = false) : (insertRow row l).filter p = l.filter p := by
  induction l with
  | nil => simp [insertRow, h]
  | cons x xs ih =>
    unfold insertRow
    split
    · simp [List.filter_cons, h]
    · simp only [List.filter_cons, ih]

theorem filter_insertRow_of_pos (p : Record → Bool) (row : Record) (l : List Record)
    (h : p row = true) (hl : l.filter p = []) : (insertRow row l).filter p = [row] := by
  induction l with
  | nil => simp [insertRow, h]
  | cons x xs ih =>
    have hx : p x = false := by
      by_contra hx
      simp [List.filter_cons, hx] at hl
    have hxs : xs.filter p = [] := by
      simpa [List.filter_cons, hx] using hl
    unfold insertRow
    split
    · simp [List.filter_cons, h, hx, hxs]
    · simp [List.filter_cons, hx, ih hxs]

/-- What a successful `add` of a row with an explicit key does to the rows. -/
theorem Table.add_explicit (t t1 : Table) (row : Record) (hkey : row.key ≠ .undefined)
    (h : t.add row = .ok t1) :
    t1.rows = insertRow row t.rows ∧ validKey row.key = true ∧ ∀ r ∈ t.rows, r.key ≠ row.key := by
  unfold Table.add at h
  rw [if_neg hkey] at h
  split at h
  · cases h
  · rename_i hvalid
    split at h
    · cases h
    · rename_i habsent
      cases h
      refine ⟨rfl, by simpa using hvalid, ?_⟩
      intro r hr heq
      apply habsent
      simp only [List.any_eq_true, beq_iff_eq]
      exact ⟨r, hr, heq⟩

/-- A `delete` with a valid key succeeds and removes the rows with that key. -/
theorem Table.delete_valid (t : Table) (key : JSValue) (hvalid : validKey key = true) :
    t.delete key = .ok { t with rows := t.rows.filter (fun r => r.key != key) } := by
  simp [Table.delete, hvalid]

/-- An `add` of a row with a valid key that is not in the table succeeds. -/
theorem Table.add_fresh (t : Table) (row : Record) (hvalid : validKey row.key = true)
    (hfresh : t.rows.filter (fun r => r.key == row.key) = []) :
    t.add row = .ok ⟨insertRow row t.rows, bumpKey t.nextKey row.key⟩ := by
  have hkey : row.key ≠ .undefined := by
    intro h
    rw [h] at hvalid
    simp [validKey] at hvalid
  have habsent : t.rows.any (fun r => r.key == row.key) = false := by
    rw [List.filter_eq_nil_iff] at hfresh
    simp only [List.any_eq_false]
    intro r hr
    simpa using hfresh r hr
  simp [Table.add, hkey, hvalid, habsent]

/-! ## The expenses page -/

/-- C8 (the code at the failing input): the valid create form 'Feed', 120.50 is submitted
while axios rejects with 'Network Error'.  `Expenses.handleSubmit` makes the POST, shows
'Failed to save expense' and then rejects with the `ReferenceError` of line 197: the
local expenses table and the displayed list stay empty and 'Expense saved offline' is
never shown. -/
theorem expense_offline_create_not_buffered :
    Expenses.validateForm Expenses.feedPage.formData = none ∧
    (Expenses.handleSubmit Expenses.unreachableEnv (some sampleUser) Expenses.feedPage
      Store.empty).requests = [.post (.string "jwt") Expenses.feedPayload] ∧
    (Expenses.handleSubmit Expenses.unreachableEnv (some sampleUser) Expenses.feedPage
      Store.empty).thrown = some (JSError.ofMessage "payload is not defined") ∧
    (Expenses.handleSubmit Expenses.unreachableEnv (some sampleUser) Expenses.feedPage
      Store.empty).db = Store.empty ∧
    (Expenses.handleSubmit Expenses.unreachableEnv (some sampleUser) Expenses.feedPage
      Store.empty).page.expenses = [] ∧
    (Expenses.handleSubmit Expenses.unreachableEnv (some sampleUser) Expenses.feedPage
      Store.empty).toasts = [⟨.string "Failed to save expense", "error"⟩] := by
  decide!

/-- C10 (the code at the failing input): the create of 'Feed' is confirmed by the server
with id 42 and `Expenses.handleSubmit` mirrors the row into the local table.  The next
`syncOfflineExpenses`, which `handleDelete` runs before every delete, POSTs that
acknowledged row again (the server then holds it twice) and replaces it locally by the
row with the second id. -/
theorem mirrored_expense_posted_again :
    (Expenses.handleSubmit Expenses.confirmingEnv (some sampleUser) Expenses.feedPage
      Store.empty).db.expenses.rows = [Expenses.feedRow 42] ∧
    (Expenses.syncOfflineExpenses Expenses.confirmingEnv (some sampleUser) Expenses.feedPage
      (Expenses.handleSubmit Expenses.confirmingEnv (some sampleUser) Expenses.feedPage
        Store.empty).db).2.2 =
      [.post (.string "jwt") Expenses.feedPayload, .get (.string "jwt")] ∧
    (Expenses.syncOfflineExpenses Expenses.confirmingEnv (some sampleUser) Expenses.feedPage
      (Expenses.handleSubmit Expenses.confirmingEnv (some sampleUser) Expenses.feedPage
        Store.empty).db).2.1.expenses.rows = [Expenses.feedRow 43] ∧
    (Expenses.handleDelete Expenses.confirmingEnv (some sampleUser) (.number (.fin 7))
      Expenses.feedPage
      (Expenses.handleSubmit Expenses.confirmingEnv (some sampleUser) Expenses.feedPage
        Store.empty).db).requests =
      [.post (.string "jwt") Expenses.feedPayload, .get (.string "jwt"),
       .delete (.number (.fin 7)) (.string "jwt")] := by
  decide!

/-! ## The loop of `syncOfflineExpenses` -/

/-- The row that line 103 stores for a confirmed POST. -/
theorem Expenses.confirmedRow_key (u : User) (expense : Record) (id : JSValue) :
    (Expenses.confirmedRow u (Expenses.payloadOfRow expense) id).key = id := by
  simp [Expenses.confirmedRow, Expenses.payloadOfRow, Record.set, Record.key, Record.get]

theorem Expenses.confirmedRow_fields (u : User) (expense : Record) (id : JSValue) :
    (Expenses.confirmedRow u (Expenses.payloadOfRow expense) id).get "description"
      = expense.get "description" ∧
    (Expenses.confirmedRow u (Expenses.payloadOfRow expense) id).get "amount"
      = parseFloat (expense.get "amount") := by
  simp [Expenses.confirmedRow, Expenses.payloadOfRow, Record.set, Record.get]

theorem parseFloat_of_isNumber (v : JSValue) (h : v.isNumber = true) : parseFloat v = v := by
  cases v <;> simp_all [JSValue.isNumber, parseFloat, parseFloatNumber]

/-- A syncable row has a valid key. -/
theorem Expenses.validKey_of_syncable (expense : Record) (h : Expenses.syncable expense = true) :
    validKey (expense.get "id") = true := by
  unfold Expenses.syncable at h
  generalize expense.get "id" = id at h
  cases id with
  | number n => cases n <;> simp_all [validKey, JSValue.truthy, JSValue.isNumber]
  | _ => simp_all [JSValue.isNumber]

/-- One turn of the loop leaves the rows with key `k` alone when the row it handles has
another key and the server does not answer with `k` or without an id. -/
theorem Expenses.syncRow_filter (env : Expenses.Env) (u : User) (n : Nat) (row : Record)
    (table : Table) (k : JSValue) (hkey : row.key ≠ k)
    (hid : ∀ v, env.syncPost n (.post u.token (Expenses.payloadOfRow row)) = .ok ⟨some v⟩ →
      v ≠ .undefined ∧ v ≠ k) :
    (Expenses.syncRow env u n row table).1.rows.filter (fun r => r.key == k) =
      table.rows.filter (fun r => r.key == k) := by
  have hdel : (table.rows.filter (fun r => r.key != row.get "id")).filter (fun r => r.key == k)
      = table.rows.filter (fun r => r.key == k) := by
    rw [List.filter_filter]
    apply List.filter_congr
    intro r _
    by_cases hr : r.key = k
    · have hne : r.key ≠ row.get "id" := fun h => hkey (by rw [← hr, h]; rfl)
      have h1 : (r.key != row.get "id") = true := by simpa using hne
      simp only [h1, Bool.and_true]
    · have h2 : (r.key == k) = false := by simpa using hr
      simp only [h2, Bool.false_and]
  unfold Expenses.syncRow
  split
  · rfl
  · rename_i hsync
    have hvalid := Expenses.validKey_of_syncable row (by simpa using hsync)
    simp only [Table.delete_valid _ _ hvalid]
    split
    · rfl
    · rename_i response hpost
      split
      · exact hdel
      · rename_i v hv
        have hresp : response = ⟨some v⟩ := by
          cases response; simp_all
        obtain ⟨hundef, hk⟩ := hid v (by rw [hpost, hresp])
        split
        · exact hdel
        · rename_i table2 hadd
          have hnew := Expenses.confirmedRow_key u row v
          obtain ⟨hrows, -, -⟩ := Table.add_explicit _ _ _ (by rw [hnew]; exact hundef) hadd
          rw [hrows, filter_insertRow_of_neg _ _ _ (by rw [hnew]; simpa using hk)]
          exact hdel

/-- The loop leaves the rows with key `k` alone under the same conditions on every row
it handles. -/
theorem Expenses.syncLoop_filter (env : Expenses.Env) (u : User) (k : JSValue)
    (l : List Record) : ∀ (n : Nat) (table : Table),
    (∀ j row, l[j]? = some row → row.key ≠ k ∧
      ∀ v, env.syncPost (n + j) (.post u.token (Expenses.payloadOfRow row)) = .ok ⟨some v⟩ →
        v ≠ .undefined ∧ v ≠ k) →
    (Expenses.syncLoop env u n l table).1.rows.filter (fun r => r.key == k) =
      table.rows.filter (fun r => r.key == k) := by
  induction l with
  | nil => intro n table _; rfl
  | cons x xs ih =>
    intro n table h
    simp only [Expenses.syncLoop]
    rw [ih (n + 1)]
    · obtain ⟨hkey, hid⟩ := h 0 x (by simp)
      exact Expenses.syncRow_filter env u n x table k hkey (by simpa using hid)
    · intro j row hj
      have := h (j + 1) row (by simpa using hj)
      rw [show n + (j + 1) = n + 1 + j by omega] at this
      exact this

/-- A successful `add` keeps the rows that were there. -/
theorem Table.add_mem (t t1 : Table) (row f : Record) (h : t.add row = .ok t1)
    (hf : f ∈ t.rows) : f ∈ t1.rows := by
  unfold Table.add at h
  split at h
  · split at h
    · cases h
    · cases h
      exact (mem_insertRow _ _ _).mpr (Or.inr hf)
  · split at h
    · cases h
    · split at h
      · cases h
      · cases h
        exact (mem_insertRow _ _ _).mpr (Or.inr hf)

/-- The turn of the loop for a confirmed row: its old key is gone and the row with the
server id is the one row with that id. -/
theorem Expenses.syncRow_confirmed (env : Expenses.Env) (u : User) (n : Nat)
    (expense : Record) (table : Table) (S : JSValue)
    (hsync : Expenses.syncable expense = true)
    (hpost : env.syncPost n (.post u.token (Expenses.payloadOfRow expense)) = .ok ⟨some S⟩)
    (hS : validKey S = true) (hST : S ≠ expense.key)
    (hfresh : table.rows.filter (fun r => r.key == S) = []) :
    (Expenses.syncRow env u n expense table).1.rows.filter (fun r => r.key == S) =
      [Expenses.confirmedRow u (Expenses.payloadOfRow expense) S] ∧
    (Expenses.syncRow env u n expense table).1.rows.filter (fun r => r.key == expense.key)
      = [] := by
  have hvalid := Expenses.validKey_of_syncable expense hsync
  have hnew := Expenses.confirmedRow_key u expense S
  have hrows1 : (table.rows.filter (fun r => r.key != expense.get "id")).filter
      (fun r => r.key == S) = [] := by
    rw [List.filter_eq_nil_iff] at hfresh ⊢
    intro r hr
    exact hfresh r (List.mem_of_mem_filter hr)
  have hadd := Table.add_fresh
    { table with rows := table.rows.filter (fun r => r.key != expense.get "id") }
    (Expenses.confirmedRow u (Expenses.payloadOfRow expense) S) (by rw [hnew]; exact hS)
    (by rw [hnew]; exact hrows1)
  simp only [Expenses.syncRow, hsync, hpost, Table.delete_valid _ _ hvalid, hadd, Bool.not_true,
    Bool.false_eq_true, if_false]
  constructor
  · exact filter_insertRow_of_pos _ _ _ (by rw [hnew]; simp) hrows1
  · rw [filter_insertRow_of_neg _ _ _ (by rw [hnew]; simpa using hST)]
    rw [List.filter_eq_nil_iff]
    intro r hr
    have := (List.mem_filter.mp hr).2
    simpa [Record.key] using this

/-- The loop, for the row at position `i` whose POST the server confirms with `S`. -/
theorem Expenses.syncLoop_confirmed (env : Expenses.Env) (u : User) (expense : Record)
    (S : JSValue) (hsync : Expenses.syncable expense = true) (hS : validKey S = true)
    (hST : S ≠ expense.key) (l : List Record) : ∀ (n i : Nat) (table : Table),
    l[i]? = some expense →
    env.syncPost (n + i) (.post u.token (Expenses.payloadOfRow expense)) = .ok ⟨some S⟩ →
    table.rows.filter (fun r => r.key == S) = [] →
    (∀ j row, l[j]? = some row → j ≠ i → row.key ≠ S ∧ row.key ≠ expense.key ∧
      ∀ v, env.syncPost (n + j) (.post u.token (Expenses.payloadOfRow row)) = .ok ⟨some v⟩ →
        v ≠ .undefined ∧ v ≠ S ∧ v ≠ expense.key) →
    (Expenses.syncLoop env u n l table).1.rows.filter (fun r => r.key == S) =
      [Expenses.confirmedRow u (Expenses.payloadOfRow expense) S] ∧
    (Expenses.syncLoop env u n l table).1.rows.filter (fun r => r.key == expense.key) = [] := by
  induction l with
  | nil => intro n i table hi; simp at hi
  | cons x xs ih =>
    intro n i table hi hpost hfresh hothers
    simp only [Expenses.syncLoop]
    cases i with
    | zero =>
      have hx : x = expense := by simpa using hi
      subst hx
      obtain ⟨h1, h2⟩ := Expenses.syncRow_confirmed env u n x table S hsync
        (by simpa using hpost) hS hST hfresh
      constructor
      · rw [Expenses.syncLoop_filter env u S xs (n + 1)]
        · exact h1
        · intro j row hj
          obtain ⟨a, -, c⟩ := hothers (j + 1) row (by simpa using hj) (by omega)
          refine ⟨a, fun v hv => ?_⟩
          obtain ⟨c1, c2, -⟩ := c v (by rw [show n + (j + 1) = n + 1 + j by omega]; exact hv)
          exact ⟨c1, c2⟩
      · rw [Expenses.syncLoop_filter env u x.key xs (n + 1)]
        · exact h2
        · intro j row hj
          obtain ⟨-, b, c⟩ := hothers (j + 1) row (by simpa using hj) (by omega)
          refine ⟨b, fun v hv => ?_⟩
          obtain ⟨c1, -, c3⟩ := c v (by rw [show n + (j + 1) = n + 1 + j by omega]; exact hv)
          exact ⟨c1, c3⟩
    | succ i =>
      obtain ⟨a, -, c⟩ := hothers 0 x (by simp) (by omega)
      apply ih (n + 1) i
      · simpa using hi
      · rw [show n + 1 + i = n + (i + 1) by omega]; exact hpost
      · rw [Expenses.syncRow_filter env u n x table S a]
        · exact hfresh
        · intro v hv
          obtain ⟨c1, c2, -⟩ := c v (by simpa using hv)
          exact ⟨c1, c2⟩
      · intro j row hj hji
        have := hothers (j + 1) row (by simpa using hj) (by omega)
        rw [show n + (j + 1) = n + 1 + j by omega] at this
        exact this

/-- One turn of the loop keeps a row `f` of the table when the row it handles has another
key, is not syncable, or has its POST rejected. -/
theorem Expenses.syncRow_mem (env : Expenses.Env) (u : User) (n : Nat) (row f : Record)
    (table : Table) (hf : f ∈ table.rows)
    (h : row.key ≠ f.key ∨ Expenses.syncable row = false ∨
      ∃ e, env.syncPost n (.post u.token (Expenses.payloadOfRow row)) = .error e) :
    f ∈ (Expenses.syncRow env u n row table).1.rows := by
  unfold Expenses.syncRow
  split
  · exact hf
  · rename_i hsync
    have hsync1 : Expenses.syncable row = true := by simpa using hsync
    have hvalid := Expenses.validKey_of_syncable row hsync1
    simp only [Table.delete_valid _ _ hvalid]
    split
    · exact hf
    · rename_i response hpost
      have hkey : row.key ≠ f.key := by
        rcases h with h | h | ⟨e, h⟩
        · exact h
        · rw [hsync1] at h; cases h
        · rw [hpost] at h; cases h
      have hf1 : f ∈ table.rows.filter (fun r => r.key != row.get "id") := by
        refine List.mem_filter.mpr ⟨hf, ?_⟩
        have : f.key ≠ row.get "id" := fun h => hkey (by rw [h]; rfl)
        simpa using this
      split
      · exact hf1
      · split
        · exact hf1
        · rename_i table2 hadd
          exact Table.add_mem _ _ _ _ hadd hf1

/-- The loop keeps a row under the same conditions on every row it handles. -/
theorem Expenses.syncLoop_mem (env : Expenses.Env) (u : User) (f : Record)
    (l : List Record) : ∀ (n : Nat) (table : Table), f ∈ table.rows →
    (∀ j row, l[j]? = some row → row.key ≠ f.key ∨ Expenses.syncable row = false ∨
      ∃ e, env.syncPost (n + j) (.post u.token (Expenses.payloadOfRow row)) = .error e) →
    f ∈ (Expenses.syncLoop env u n l table).1.rows := by
  induction l with
  | nil => intro n table hf _; exact hf
  | cons x xs ih =>
    intro n table hf h
    simp only [Expenses.syncLoop]
    apply ih (n + 1)
    · exact Expenses.syncRow_mem env u n x f table hf (by simpa using h 0 x (by simp))
    · intro j row hj
      have := h (j + 1) row (by simpa using hj)
      rw [show n + (j + 1) = n + 1 + j by omega] at this
      exact this

/-- The expenses table that `syncOfflineExpenses` leaves is the one its loop leaves. -/
theorem Expenses.syncOfflineExpenses_table (env : Expenses.Env) (u : User)
    (page : Expenses.Page) (db : Store) :
    (Expenses.syncOfflineExpenses env (some u) page db).2.1.expenses =
      (Expenses.syncLoop env u 0 db.expenses.rows db.expenses).1 := by
  unfold Expenses.syncOfflineExpenses
  simp only [Table.toArray]
  split
  · rfl
  · split <;> rfl

/-- Rows at different positions of a table with distinct keys have different keys. -/
theorem key_ne_of_nodup (rows : List Record) (hkeys : (rows.map Record.key).Nodup)
    (i j : Nat) (a b : Record) (hi : rows[i]? = some a) (hj : rows[j]? = some b)
    (hne : j ≠ i) : b.key ≠ a.key := by
  intro heq
  have hlt : j < (rows.map Record.key).length := by
    rw [List.length_map]
    exact (List.getElem?_eq_some_iff.mp hj).1
  have h := List.getElem?_inj hlt hkeys
    (by rw [List.getElem?_map, List.getElem?_map, hi, hj]; simp [heq] : _ = (rows.map Record.key)[i]?)
  exact hne h

/-- C9: round trip of `syncOfflineExpenses`.  Let the expenses table have distinct keys
and let the server answer each confirmed POST of the pass with an id that is not a key of
the table, the id `S` being given to the row at position `i` only.  If that row, with
temporary id `T`, is syncable and its POST is confirmed with the valid key `S`, then
afterwards the table holds exactly one row with id `S`; it carries the description of
the buffered row and its amount (as `parseFloat` reads it, the amount itself when it is
a number); no row has id `T`; and every row whose POST was rejected is still in the
table. -/
theorem syncOfflineExpenses_round_trip (env : Expenses.Env) (u : User) (page : Expenses.Page)
    (db : Store) (i : Nat) (expense : Record) (S : JSValue)
    (hrow : db.expenses.rows[i]? = some expense)
    (hsync : Expenses.syncable expense = true)
    (hpost : env.syncPost i (.post u.token (Expenses.payloadOfRow expense)) = .ok ⟨some S⟩)
    (hS : validKey S = true)
    (hkeys : (db.expenses.rows.map Record.key).Nodup)
    (hids : ∀ j row v, db.expenses.rows[j]? = some row →
      env.syncPost j (.post u.token (Expenses.payloadOfRow row)) = .ok ⟨some v⟩ →
      v ≠ .undefined ∧ v ∉ db.expenses.rows.map Record.key ∧ (j ≠ i → v ≠ S)) :
    (Expenses.syncOfflineExpenses env (some u) page db).2.1.expenses.rows.filter
        (fun r => r.key == S) = [Expenses.confirmedRow u (Expenses.payloadOfRow expense) S] ∧
    (Expenses.confirmedRow u (Expenses.payloadOfRow expense) S).get "description" =
      expense.get "description" ∧
    (Expenses.confirmedRow u (Expenses.payloadOfRow expense) S).get "amount" =
      parseFloat (expense.get "amount") ∧
    ((expense.get "amount").isNumber = true →
      (Expenses.confirmedRow u (Expenses.payloadOfRow expense) S).get "amount" =
        expense.get "amount") ∧
    (∀ r ∈ (Expenses.syncOfflineExpenses env (some u) page db).2.1.expenses.rows,
      r.key ≠ expense.key) ∧
    (∀ j row err, db.expenses.rows[j]? = some row →
      env.syncPost j (.post u.token (Expenses.payloadOfRow row)) = .error err →
      row ∈ (Expenses.syncOfflineExpenses env (some u) page db).2.1.expenses.rows) := by
  rw [Expenses.syncOfflineExpenses_table]
  have hkeyOf : ∀ (j : Nat) (row : Record), db.expenses.rows[j]? = some row →
      row.key ∈ db.expenses.rows.map Record.key := fun j row hj =>
    List.mem_map.mpr ⟨row, List.getElem?_mem hj, rfl⟩
  obtain ⟨-, hSfresh, -⟩ := hids i expense S hrow hpost
  have hST : S ≠ expense.key := fun h => hSfresh (h ▸ hkeyOf i expense hrow)
  have hnone : db.expenses.rows.filter (fun r => r.key == S) = [] := by
    rw [List.filter_eq_nil_iff]
    intro r hr heq
    exact hSfresh (List.mem_map.mpr ⟨r, hr, by simpa using heq⟩)
  obtain ⟨h1, h2⟩ := Expenses.syncLoop_confirmed env u expense S hsync hS hST db.expenses.rows
    0 i db.expenses hrow (by simpa using hpost) hnone (by
      intro j row hj hji
      refine ⟨fun h => hSfresh (h ▸ hkeyOf j row hj),
        key_ne_of_nodup _ hkeys i j expense row hrow hj hji, fun v hv => ?_⟩
      obtain ⟨c1, c2, c3⟩ := hids j row v hj (by simpa using hv)
      exact ⟨c1, c3 hji, fun h => c2 (h ▸ hkeyOf i expense hrow)⟩)
  have hfields := Expenses.confirmedRow_fields u expense S
  refine ⟨h1, hfields.1, hfields.2, ?_, ?_, ?_⟩
  · intro hnum
    rw [hfields.2, parseFloat_of_isNumber _ hnum]
  · intro r hr heq
    have hmem : r ∈ (Expenses.syncLoop env u 0 db.expenses.rows db.expenses).1.rows.filter
        (fun r => r.key == expense.key) := List.mem_filter.mpr ⟨hr, by simpa using heq⟩
    rw [h2] at hmem
    cases hmem
  · intro j row err hj herr
    apply Expenses.syncLoop_mem env u row db.expenses.rows 0 db.expenses
      (List.getElem?_mem hj)
    intro j1 row1 hj1
    by_cases hjj : j1 = j
    · subst hjj
      have : row1 = row := by rw [hj1] at hj; exact Option.some.inj hj
      subst this
      exact Or.inr (Or.inr ⟨err, by simpa using herr⟩)
    · exact Or.inl (key_ne_of_nodup _ hkeys j j1 row row1 hj hj1 hjj)

/-- C9 at the scenario of the specification: 'Feed', 120.50, buffered under a temporary
id and confirmed with id 42, next to a row whose POST is rejected. -/
theorem syncOfflineExpenses_round_trip_witness :
    (Expenses.syncOfflineExpenses Expenses.firstOnlyEnv (some sampleUser) Expenses.feedPage
        Expenses.bufferedStore).2.1.expenses.rows.filter
        (fun r => r.key == .number (.fin 42)) = [Expenses.feedRow 42] ∧
    (∀ r ∈ (Expenses.syncOfflineExpenses Expenses.firstOnlyEnv (some sampleUser)
        Expenses.feedPage Expenses.bufferedStore).2.1.expenses.rows,
      r.key ≠ .number (.fin 1700000000000)) ∧
    Expenses.seedRow ∈ (Expenses.syncOfflineExpenses Expenses.firstOnlyEnv (some sampleUser)
        Expenses.feedPage Expenses.bufferedStore).2.1.expenses.rows := by
  have h := syncOfflineExpenses_round_trip Expenses.firstOnlyEnv sampleUser Expenses.feedPage
    Expenses.bufferedStore 0 (Expenses.feedRow 1700000000000) (.number (.fin 42))
    (by decide!) (by decide!) (by decide!) (by decide!) (by decide!)
    (by
      intro j row v hj hv
      match j, hj, hv with
      | 0, _, hv =>
        have hv42 : v = .number (.fin 42) := by
          simp only [Expenses.firstOnlyEnv, if_true] at hv
          cases hv
          rfl
        subst hv42
        exact ⟨by decide, by decide!, fun h => absurd rfl h⟩
      | n + 1, _, hv =>
        simp [Expenses.firstOnlyEnv] at hv)
  refine ⟨?_, ?_, ?_⟩
  · have h1 := h.1
    have e : Expenses.confirmedRow sampleUser
        (Expenses.payloadOfRow (Expenses.feedRow 1700000000000)) (.number (.fin 42))
        = Expenses.feedRow 42 := by decide!
    rw [e] at h1
    exact h1
  · exact h.2.2.2.2.1
  · exact h.2.2.2.2.2 1 Expenses.seedRow
      ⟨"Request failed with status code 400", .string "Invalid expense"⟩ (by decide!) rfl

/-! ## Failures and the summary of `syncRecords` -/

theorem JSValue.or_truthy (a b : JSValue) (h : a.truthy = true) : a.or b = a := by
  unfold JSValue.or
  rw [if_pos h]

theorem JSValue.or_falsy (a b : JSValue) (h : a.truthy = false) : a.or b = b := by
  unfold JSValue.or
  rw [if_neg (by rw [h]; exact Bool.false_ne_true)]

theorem JSValue.truthy_string (s : String) :
    (JSValue.string s).truthy = decide (s ≠ "") := rfl

theorem syncCatch_eq (error : JSError) :
    syncCatch error = ⟨false, .value (failureMessage error), none⟩ := by
  unfold syncCatch failureMessage
  by_cases h1 : error.responseMessage.truthy = true
  · rw [JSValue.or_truthy _ _ h1, JSValue.or_truthy _ _ h1, if_pos h1]
  · have h1f : error.responseMessage.truthy = false := by simpa using h1
    rw [JSValue.or_falsy _ _ h1f, if_neg h1]
    by_cases h2 : error.message = ""
    · rw [JSValue.or_falsy _ _ (by rw [JSValue.truthy_string]; simp [h2])]
      simp [h2]
    · rw [JSValue.or_truthy _ _ (by rw [JSValue.truthy_string]; simp [h2])]
      simp [h2]

/-- Without Dexie failures `syncRecordsWith` is `syncRecords`. -/
theorem syncRecordsWith_none (env : SyncEnv) (token : JSValue) (db : Store) :
    syncRecordsWith DexieFaults.none env token db = syncRecords env token db := by
  unfold syncRecordsWith syncRecords
  split
  · rfl
  · have hread : firstFault DexieFaults.none.read readOrder = none := rfl
    have hclear : clearSyncedWith DexieFaults.none db = (clearSynced db, none) := rfl
    simp only [hread, hclear]

/-- C19: `syncRecords` always returns an outcome, and every failure is turned into the
typed outcome with `success` false whose message is the message of the server's error when
there is one, else the message of the exception, else 'Failed to sync data': this holds
for a failed store read, a rejected HTTP call, a failed store clear and a response that
cannot be taken apart. -/
theorem syncRecords_failures_typed (faults : DexieFaults) (env : SyncEnv) (token : JSValue)
    (db : Store) :
    ((syncRecordsWith faults env token db).1.success = true ∨
      ∃ error, (syncRecordsWith faults env token db).1 =
        ⟨false, .value (failureMessage error), none⟩) ∧
    (env.onLine = true → ∀ error, firstFault faults.read readOrder = some error →
      (syncRecordsWith faults env token db).1 = ⟨false, .value (failureMessage error), none⟩) ∧
    (∀ request ∈ (syncRecordsWith faults env token db).2.2, ∀ error,
      env.post request = .error error →
      (syncRecordsWith faults env token db).1 = ⟨false, .value (failureMessage error), none⟩) ∧
    (∀ request ∈ (syncRecordsWith faults env token db).2.2, ∀ response error,
      env.post request = .ok response → firstFault faults.clear clearOrder = some error →
      (syncRecordsWith faults env token db).1 = ⟨false, .value (failureMessage error), none⟩) ∧
    (∀ request ∈ (syncRecordsWith faults env token db).2.2, ∀ response,
      env.post request = .ok response → firstFault faults.clear clearOrder = none →
      (response.results = none ∨ ∃ errors, response.results = some ⟨none, errors⟩) →
      (syncRecordsWith faults env token db).1 =
        ⟨false, .value (failureMessage (JSError.ofMessage env.typeErrorMessage)), none⟩) := by
  have hreq : ∀ request ∈ (syncRecordsWith faults env token db).2.2,
      request = ⟨token, collectOfflineData db⟩ ∧ env.onLine = true ∧
      firstFault faults.read readOrder = none ∧ totalRecords (collectOfflineData db) ≠ 0 := by
    intro request hmem
    unfold syncRecordsWith at hmem
    split at hmem
    · simp at hmem
    · rename_i hon
      split at hmem
      · simp at hmem
      · rename_i hread
        simp only [] at hmem
        split at hmem
        · simp at hmem
        · rename_i htotal
          have hone : request = ⟨token, collectOfflineData db⟩ := by
            split at hmem
            · simpa using hmem
            · split at hmem
              · simpa using hmem
              · split at hmem
                · simpa using hmem
                · split at hmem <;> simpa using hmem
          exact ⟨hone, by simpa using hon, hread, htotal⟩
  refine ⟨?_, ?_, ?_, ?_, ?_⟩
  · unfold syncRecordsWith
    split
    · exact Or.inr ⟨_, syncCatch_eq _⟩
    · split
      · exact Or.inr ⟨_, syncCatch_eq _⟩
      · simp only []
        split
        · exact Or.inl rfl
        · split
          · exact Or.inr ⟨_, syncCatch_eq _⟩
          · split
            · exact Or.inr ⟨_, syncCatch_eq _⟩
            · split
              · exact Or.inr ⟨_, syncCatch_eq _⟩
              · split
                · exact Or.inr ⟨_, syncCatch_eq _⟩
                · exact Or.inl rfl
  · intro hon error hread
    simp [syncRecordsWith, hon, hread, syncCatch_eq]
  · intro request hmem error hpost
    obtain ⟨rfl, hon, hread, htotal⟩ := hreq request hmem
    simp [syncRecordsWith, hon, hread, htotal, hpost, syncCatch_eq]
  · intro request hmem response error hpost hclear
    obtain ⟨rfl, hon, hread, htotal⟩ := hreq request hmem
    simp [syncRecordsWith, hon, hread, htotal, hpost, clearSyncedWith, hclear, syncCatch_eq]
  · intro request hmem response hpost hclear hparse
    obtain ⟨rfl, hon, hread, htotal⟩ := hreq request hmem
    rcases hparse with hnone | ⟨errors, hsome⟩
    · simp [syncRecordsWith, hon, hread, htotal, hpost, clearSyncedWith, hclear, hnone,
        syncCatch_eq]
    · simp [syncRecordsWith, hon, hread, htotal, hpost, clearSyncedWith, hclear, hsome,
        syncCatch_eq]

/-- C19 at a store with a product and a sale, a server that accepts the batch and a clear
of the sales table that fails: the outcome is the typed failure with the message of the
Dexie error. -/
theorem syncRecords_failures_typed_witness :
    (syncRecordsWith salesClearFault acceptingEnv (.string "jwt") productAndSaleStore).1 =
      ⟨false, .value (.string "Transaction aborted"), none⟩ :=
  (syncRecords_failures_typed salesClearFault acceptingEnv (.string "jwt")
    productAndSaleStore).2.2.2.1 ⟨.string "jwt", collectOfflineData productAndSaleStore⟩
    (by decide!) _ (JSError.ofMessage "Transaction aborted") rfl (by decide!)

/-- C20: when the request of `syncRecords` is answered with a 2xx response that carries
`results.synced`, the outcome is a success, its `errors` are the `errors` of the response
as they came, and its message is 'Synced successfully: ' followed by the server's count
for products, sales, buyers, prices and expenses, each before the name of its own type. -/
theorem syncRecords_success_summary (env : SyncEnv) (token : JSValue) (db : Store)
    (synced : SyncedCounts) (errors : Option (List String)) (numberToString : JSNumber → String)
    (honline : env.onLine = true) (hbuffered : totalRecords (collectOfflineData db) ≠ 0)
    (hpost : env.post ⟨token, collectOfflineData db⟩ = .ok ⟨some ⟨some synced, errors⟩⟩) :
    (syncRecords env token db).1.success = true ∧
    (syncRecords env token db).1.errors = errors ∧
    (syncRecords env token db).1.message.text numberToString =
      "Synced successfully: " ++ toJSString numberToString synced.products ++ " products, "
        ++ toJSString numberToString synced.sales ++ " sales, "
        ++ toJSString numberToString synced.buyers ++ " buyers, "
        ++ toJSString numberToString synced.prices ++ " prices, "
        ++ toJSString numberToString synced.expenses ++ " expenses." := by
  simp [syncRecords, honline, hbuffered, hpost, SyncMessage.text]

/-- C20 at a store with two buffered products and a server that reports one product
synced and one error. -/
theorem syncRecords_success_summary_witness :
    (syncRecords partialRejectEnv (.string "jwt") twoProductStore).1.success = true ∧
    (syncRecords partialRejectEnv (.string "jwt") twoProductStore).1.errors =
      some ["Product 2: name is required"] ∧
    (syncRecords partialRejectEnv (.string "jwt") twoProductStore).1.message.text
        wholeNumberText =
      "Synced successfully: 1 products, 0 sales, 0 buyers, 0 prices, 0 expenses." := by
  have h := syncRecords_success_summary partialRejectEnv (.string "jwt") twoProductStore
    ⟨.number (.fin 1), .number (.fin 0), .number (.fin 0), .number (.fin 0), .number (.fin 0)⟩
    (some ["Product 2: name is required"]) wholeNumberText rfl (by decide!) rfl
  refine ⟨h.1, h.2.1, ?_⟩
  rw [h.2.2]
  decide!

/-! ## Deletions on the sales page -/

theorem length_insertRow (row : Record) (l : List Record) :
    (insertRow row l).length = l.length + 1 := by
  induction l with
  | nil => rfl
  | cons x xs ih =>
    unfold insertRow
    split
    · rfl
    · simp [ih]

/-- On a valid key, `a === key` holds exactly when `a` is `key`. -/
theorem strictEq_of_validKey (a key : JSValue) (h : validKey key = true) :
    a.strictEq key = true ↔ a = key := by
  cases key with
  | number n =>
    cases n <;> cases a <;> (try rename_i m; cases m) <;>
      simp_all [JSValue.strictEq, validKey]
  | string s => cases a <;> (try rename_i m; cases m) <;> simp_all [JSValue.strictEq, validKey]
  | _ => simp [validKey] at h

/-- The tombstone has no `id`, so `add` gives it the next generated key. -/
theorem Sales.add_tombstone (u : User) (id : JSValue) (t : Table)
    (h : t.nextKey ≤ maxGeneratedKey) :
    t.add (Sales.tombstone u id) =
      .ok ⟨insertRow ((Sales.tombstone u id).set "id" (.number (.fin t.nextKey))) t.rows,
        t.nextKey + 1⟩ := by
  have hkey : (Sales.tombstone u id).key = .undefined := by
    simp [Sales.tombstone, Record.key, Record.get]
  unfold Table.add
  rw [if_pos hkey, if_neg (by omega)]

theorem Sales.stored_tombstone_fields (u : User) (id key : JSValue) :
    ((Sales.tombstone u id).set "id" key).get "entity_type" = .string "sale" ∧
    ((Sales.tombstone u id).set "id" key).get "entity_id" = id ∧
    ((Sales.tombstone u id).set "id" key).get "farm_id" = u.farm_id := by
  simp [Sales.tombstone, Record.set, Record.get]

/-- What `handleDelete` leaves when the DELETE fails with a 'Network Error'. -/
theorem Sales.handleDelete_unreachable (env : Sales.Env) (u : User) (id : JSValue)
    (page : Sales.Page) (db : Store) (err : JSError)
    (hconfirm : env.confirm = true) (htoken : u.token.truthy = true)
    (hfail : env.delete (.delete id u.token) = .error err)
    (hnet : includes err.message "Network Error" = true)
    (hid : validKey id = true)
    (hgen : db.pendingDeletions.nextKey ≤ maxGeneratedKey) :
    Sales.handleDelete env (some u) id page db =
      ⟨{ page with error := err.responseMessage.or (.string "Failed to delete sale"),
                   sales := page.sales.filter (fun s => !(s.get "id").strictEq id) },
       { db with
          pendingDeletions := ⟨insertRow ((Sales.tombstone u id).set "id"
            (.number (.fin db.pendingDeletions.nextKey))) db.pendingDeletions.rows,
            db.pendingDeletions.nextKey + 1⟩,
          sales := { db.sales with rows := db.sales.rows.filter (fun r => r.key != id) } },
       [.delete id u.token],
       [⟨err.responseMessage.or (.string "Failed to delete sale"), "error"⟩,
        ⟨.string "Deletion queued offline", "info"⟩], none⟩ := by
  simp [Sales.handleDelete, Sales.deleteCatch, hconfirm, htoken, hfail, hnet,
    Sales.add_tombstone u id _ hgen, Table.delete_valid _ _ hid]

/-- C11: `Sales.handleDelete(id)` for a sale id that is a valid key, when the user
confirms, is signed in and the DELETE fails with a 'Network Error' (the key generator of
`pendingDeletions` not being exhausted): a tombstone with `entity_type` 'sale',
`entity_id` `id` and the farm of the session is added to `pendingDeletions` (which grows
by this one row), no listed
sale and no row of the local sales table has the id any more, every other listed sale
stays, and 'Deletion queued offline' is shown. -/
theorem handleDelete_offline_tombstone (env : Sales.Env) (u : User) (id : JSValue)
    (page : Sales.Page) (db : Store) (err : JSError)
    (hconfirm : env.confirm = true) (htoken : u.token.truthy = true)
    (hfail : env.delete (.delete id u.token) = .error err)
    (hnet : includes err.message "Network Error" = true)
    (hid : validKey id = true)
    (hgen : db.pendingDeletions.nextKey ≤ maxGeneratedKey) :
    (∃ row ∈ (Sales.handleDelete env (some u) id page db).db.pendingDeletions.rows,
      row.get "entity_type" = .string "sale" ∧ row.get "entity_id" = id ∧
      row.get "farm_id" = u.farm_id) ∧
    (Sales.handleDelete env (some u) id page db).db.pendingDeletions.rows.length =
      db.pendingDeletions.rows.length + 1 ∧
    (∀ s ∈ (Sales.handleDelete env (some u) id page db).page.sales, s.get "id" ≠ id) ∧
    (∀ row ∈ (Sales.handleDelete env (some u) id page db).db.sales.rows, row.key ≠ id) ∧
    (∀ s ∈ page.sales, s.get "id" ≠ id →
      s ∈ (Sales.handleDelete env (some u) id page db).page.sales) ∧
    (Sales.handleDelete env (some u) id page db).toasts.getLast? =
      some ⟨.string "Deletion queued offline", "info"⟩ := by
  rw [Sales.handleDelete_unreachable env u id page db err hconfirm htoken hfail hnet hid hgen]
  have hfields := Sales.stored_tombstone_fields u id (.number (.fin db.pendingDeletions.nextKey))
  refine ⟨⟨_, (mem_insertRow _ _ _).mpr (Or.inl rfl), hfields⟩, length_insertRow _ _,
    ?_, ?_, ?_, rfl⟩
  · intro s hs heq
    have := (List.mem_filter.mp hs).2
    rw [(strictEq_of_validKey _ _ hid).mpr heq] at this
    cases this
  · intro row hrow heq
    have := (List.mem_filter.mp hrow).2
    simp [heq] at this
  · intro s hs hne
    refine List.mem_filter.mpr ⟨hs, ?_⟩
    have : (s.get "id").strictEq id ≠ true := fun h => hne ((strictEq_of_validKey _ _ hid).mp h)
    simpa using this

/-- C11 for the synced sale 7, listed and stored next to sale 9. -/
theorem handleDelete_offline_tombstone_witness :
    (Sales.handleDelete Sales.unreachableEnv (some sampleUser) (.number (.fin 7))
      (Sales.pageListing [Sales.saleRow 7, Sales.saleRow 9])
      Sales.syncedStore).db.pendingDeletions.rows.length = 1 ∧
    Sales.saleRow 9 ∈ (Sales.handleDelete Sales.unreachableEnv (some sampleUser)
      (.number (.fin 7)) (Sales.pageListing [Sales.saleRow 7, Sales.saleRow 9])
      Sales.syncedStore).page.sales ∧
    (∀ s ∈ (Sales.handleDelete Sales.unreachableEnv (some sampleUser)
      (.number (.fin 7)) (Sales.pageListing [Sales.saleRow 7, Sales.saleRow 9])
      Sales.syncedStore).page.sales, s.get "id" ≠ .number (.fin 7)) := by
  have h := handleDelete_offline_tombstone Sales.unreachableEnv sampleUser (.number (.fin 7))
    (Sales.pageListing [Sales.saleRow 7, Sales.saleRow 9]) Sales.syncedStore
    (JSError.ofMessage "Network Error") rfl (by decide) rfl (by decide!) (by decide)
    (by decide!)
  exact ⟨h.2.1, h.2.2.2.2.1 (Sales.saleRow 9) (by decide!) (by decide!), h.2.2.1⟩

/-- C13 (the code at the failing input): two tombstones are buffered, for the sales 7 and
9, and the server confirms one deletion (`deletions_synced` is 1).  `syncPendingDeletions`
shows 'Synced 1 deletions' and clears the whole `pendingDeletions` table: the tombstone
for 9 is gone together with the tombstone for 7. -/
theorem syncPendingDeletions_clears_rejected :
    Sales.storedTombstone 9 2 ∈ Sales.twoTombstoneStore.pendingDeletions.rows ∧
    (Sales.syncPendingDeletions Sales.oneConfirmedEnv (some sampleUser) (Sales.pageListing [])
      Sales.twoTombstoneStore).requests =
      [.sync (.string "jwt") [Sales.storedTombstone 7 1, Sales.storedTombstone 9 2],
       .get (.string "jwt")] ∧
    (Sales.syncPendingDeletions Sales.oneConfirmedEnv (some sampleUser) (Sales.pageListing [])
      Sales.twoTombstoneStore).toasts = [⟨.string "Synced 1 deletions", "success"⟩] ∧
    (Sales.syncPendingDeletions Sales.oneConfirmedEnv (some sampleUser) (Sales.pageListing [])
      Sales.twoTombstoneStore).db.pendingDeletions.rows = [] := by
  decide!

/-! ## A rejected market price -/

/-- C14 (the code at the failing input): the server answers the create with status 400 and
a body text that contains 'Network Error'.  The message of the error that line 148 throws
contains that text, so the `catch` block takes the answer for a connectivity failure:
`MarketPrices.handleSubmit` writes the form to the local `prices` table and shows 'Market
price saved offline'. -/
theorem marketPrice_rejection_buffered :
    (MarketPrices.handleSubmit MarketPrices.rejectingEnv (some sampleUser)
      MarketPrices.samplePage Store.empty).page.error =
        "Failed to add market price: 400 Invalid product_name: Network Error" ∧
    (MarketPrices.handleSubmit MarketPrices.rejectingEnv (some sampleUser)
      MarketPrices.samplePage Store.empty).db.prices.rows = [MarketPrices.bufferedRow] ∧
    (MarketPrices.handleSubmit MarketPrices.rejectingEnv (some sampleUser)
      MarketPrices.samplePage Store.empty).toasts.getLast? =
        some ⟨.string "Market price saved offline", "info"⟩ := by
  decide!

/-! ## The expense normalizer -/

/-- C17 as stated fails: the list answer holds an expense whose amount is the text 'abc'
and one whose amount is -5; `fetchExpenses` lists both, the first with the amount `NaN`,
the second with the amount -5. -/
theorem fetchExpenses_keeps_malformed_amounts :
    (Expenses.fetchExpenses
      (Expenses.listingEnv [Expenses.rawTextAmount, Expenses.rawNegativeAmount])
      (some sampleUser) Expenses.emptyPage Store.empty).page.expenses =
      [[("id", .number (.fin 1)), ("description", .string "Fuel"), ("amount", .number .nan),
        ("category", .null), ("date_incurred", .null), ("farm_id", .number (.fin 1))],
       [("id", .number (.fin 2)), ("description", .string "Seed"),
        ("amount", .number (.fin (-5))), ("category", .null), ("date_incurred", .null),
        ("farm_id", .number (.fin 1))]] := by
  decide!

/-- The record that lines 39-46 build from an item that is not nullish. -/
theorem Expenses.normalize_object (env : Expenses.Env) (expense : JsonItem)
    (hobject : expense.nullish = false) :
    ∃ normalized, Expenses.normalize env expense = .ok normalized ∧
      normalized.get "id" = expense.get "id" ∧
      normalized.get "amount" =
        (if (expense.get "amount").isNumber then expense.get "amount"
         else parseFloat ((expense.get "amount").or (.number (.fin 0)))) := by
  unfold Expenses.normalize
  rw [if_neg (by rw [hobject]; exact Bool.false_ne_true)]
  exact ⟨_, rfl, by simp [Record.get], by simp [Record.get]⟩

/-- C17 (amended): the normalizer of `fetchExpenses` yields `null` exactly when the id of
the raw record is falsy or not a number.  A record with a numeric non-zero id is kept
whatever its amount: the amount it carries is the raw amount when that is a number
(negative included) and `parseFloat(amount || 0)` otherwise (`NaN` for a non-numeric
string). -/
theorem normalizeOrNull_by_id (env : Expenses.Env) (expense : JsonItem)
    (hobject : expense.nullish = false) :
    (((expense.get "id").truthy && (expense.get "id").isNumber) = false →
      Expenses.normalizeOrNull env expense = .ok none) ∧
    (((expense.get "id").truthy && (expense.get "id").isNumber) = true →
      ∃ normalized, Expenses.normalizeOrNull env expense = .ok (some normalized) ∧
        normalized.get "id" = expense.get "id" ∧
        normalized.get "amount" =
          (if (expense.get "amount").isNumber then expense.get "amount"
           else parseFloat ((expense.get "amount").or (.number (.fin 0))))) := by
  obtain ⟨normalized, hnorm, hnid, hnamount⟩ := Expenses.normalize_object env expense hobject
  constructor
  · intro h
    have h2 : (!(expense.get "id").truthy || !(expense.get "id").isNumber) = true := by
      cases h1 : (expense.get "id").truthy <;> cases h3 : (expense.get "id").isNumber <;>
        simp_all
    simp [Expenses.normalizeOrNull, hnorm, hnid, h2]
  · intro h
    have h2 : (!(expense.get "id").truthy || !(expense.get "id").isNumber) = false := by
      cases h1 : (expense.get "id").truthy <;> cases h3 : (expense.get "id").isNumber <;>
        simp_all
    refine ⟨normalized, ?_, hnid, hnamount⟩
    simp [Expenses.normalizeOrNull, hnorm, hnid, h2]

/-- C17 (amended) at the raw expense whose amount is the text 'abc': it is kept, with the
amount `NaN`. -/
theorem normalizeOrNull_by_id_witness :
    ∃ normalized,
      Expenses.normalizeOrNull Expenses.confirmingEnv Expenses.rawTextAmount =
        .ok (some normalized) ∧
      normalized.get "id" = .number (.fin 1) ∧ normalized.get "amount" = .number .nan := by
  obtain ⟨normalized, h1, h2, h3⟩ :=
    (normalizeOrNull_by_id Expenses.confirmingEnv Expenses.rawTextAmount rfl).2 (by decide!)
  exact ⟨normalized, h1, h2, by rw [h3]; decide!⟩

/-- C18 (the code at the failing input): the list answer is `[null, expense 42]` and the
local table is empty.  Reading `expense.id` on the `null` item throws inside the mapping;
`fetchExpenses` lands in its `catch` block, shows the message of the `TypeError` and lists
nothing: the well-formed expense 42 is not shown.  A primitive item that is not nullish is
mapped to `null` and filtered out. -/
theorem fetchExpenses_null_item_throws :
    Expenses.normalizeAndFilter Expenses.confirmingEnv [.value .null, Expenses.rawFeed] =
      .error Expenses.typeError ∧
    (Expenses.fetchExpenses (Expenses.listingEnv [.value .null, Expenses.rawFeed])
      (some sampleUser) Expenses.emptyPage Store.empty).page.expenses = [] ∧
    (Expenses.fetchExpenses (Expenses.listingEnv [.value .null, Expenses.rawFeed])
      (some sampleUser) Expenses.emptyPage Store.empty).page.error =
      .string "Cannot read properties of undefined" ∧
    (Expenses.fetchExpenses (Expenses.listingEnv [.value (.number (.fin 5)), Expenses.rawFeed])
      (some sampleUser) Expenses.emptyPage Store.empty).page.expenses.map (fun r => r.get "id") =
      [.number (.fin 42)] := by
  decide!

/-! ## A create or update that the server rejects -/

/-- C15: a create or update submitted through `handleSubmit` of the expenses, sales,
buyers or products page by a signed-in user, whose request axios rejects with an error
whose message does not contain 'Network Error': the handler shows the message of the
server's error (the fixed 'Failed to save ...' text when the answer carries none) as an
error toast and as the page error, leaves the store as it was and does not throw. -/
theorem handleSubmit_rejected_surfaces_error (u : User) (db : Store) (err : JSError)
    (htoken : u.token.truthy = true) (hnet : includes err.message "Network Error" = false) :
    (∀ (env : Expenses.Env) (page : Expenses.Page),
      Expenses.validateForm page.formData = none →
      ((page.formData.get "id").truthy = true → (page.formData.get "id").isNumber = true) →
      env.submit (if (page.formData.get "id").truthy
        then .put (page.formData.get "id") u.token (Expenses.payloadOfForm page.formData)
        else .post u.token (Expenses.payloadOfForm page.formData)) = .error err →
      (Expenses.handleSubmit env (some u) page db).db = db ∧
      (Expenses.handleSubmit env (some u) page db).toasts =
        [⟨err.responseMessage.or (.string "Failed to save expense"), "error"⟩] ∧
      (Expenses.handleSubmit env (some u) page db).page.error =
        err.responseMessage.or (.string "Failed to save expense") ∧
      (Expenses.handleSubmit env (some u) page db).thrown = none) ∧
    (∀ (env : Sales.Env) (page : Sales.Page),
      Sales.validateForm page.formData = none →
      env.submit (if (page.formData.get "id").truthy
        then .put (page.formData.get "id") u.token (Sales.payloadOfForm page.formData)
        else .post u.token (Sales.payloadOfForm page.formData)) = .error err →
      (Sales.handleSubmit env (some u) page db).db = db ∧
      (Sales.handleSubmit env (some u) page db).toasts =
        [⟨err.responseMessage.or (.string "Failed to save sale"), "error"⟩] ∧
      (Sales.handleSubmit env (some u) page db).page.error =
        err.responseMessage.or (.string "Failed to save sale") ∧
      (Sales.handleSubmit env (some u) page db).thrown = none) ∧
    (∀ (env : Buyers.Env) (page : Buyers.Page),
      env.submit (if (page.formData.get "id").truthy
        then .put (page.formData.get "id") u.token (Buyers.payloadOfForm page.formData)
        else .post u.token (Buyers.payloadOfForm page.formData)) = .error err →
      (Buyers.handleSubmit env (some u) page db).db = db ∧
      (Buyers.handleSubmit env (some u) page db).toasts =
        [⟨err.responseMessage.or (.string "Failed to save buyer"), "error"⟩] ∧
      (Buyers.handleSubmit env (some u) page db).page.error =
        err.responseMessage.or (.string "Failed to save buyer") ∧
      (Buyers.handleSubmit env (some u) page db).thrown = none) ∧
    (∀ (env : Products.Env) (page : Products.Page),
      page.formMode ≠ "addQuantity" →
      env.submit (if page.formMode == "edit" && (page.formData.get "id").truthy
        then .put (page.formData.get "id") u.token (Products.payloadOfForm page.formData)
        else .post u.token (Products.payloadOfForm page.formData)) = .error err →
      (Products.handleSubmit env (some u) page db).db = db ∧
      (Products.handleSubmit env (some u) page db).toasts =
        [⟨err.responseMessage.or (.string "Failed to save product"), "error"⟩] ∧
      (Products.handleSubmit env (some u) page db).page.error =
        err.responseMessage.or (.string "Failed to save product") ∧
      (Products.handleSubmit env (some u) page db).thrown = none) := by
  refine ⟨?_, ?_, ?_, ?_⟩
  · intro env page hvalid hid hreject
    by_cases h : (page.formData.get "id").truthy = true
    · simp only [h, if_true] at hreject
      simp [Expenses.handleSubmit, Expenses.submitCatch, hvalid, htoken, h, hid h, hreject, hnet]
    · simp only [h, Bool.false_eq_true, if_false] at hreject
      simp [Expenses.handleSubmit, Expenses.submitCatch, hvalid, htoken, h, hreject, hnet]
  · intro env page hvalid hreject
    by_cases h : (page.formData.get "id").truthy = true
    · simp only [h, if_true] at hreject
      simp [Sales.handleSubmit, Sales.submitCatch, hvalid, htoken, h, hreject, hnet]
    · simp only [h, Bool.false_eq_true, if_false] at hreject
      simp [Sales.handleSubmit, Sales.submitCatch, hvalid, htoken, h, hreject, hnet]
  · intro env page hreject
    by_cases h : (page.formData.get "id").truthy = true
    · simp only [h, if_true] at hreject
      simp [Buyers.handleSubmit, Buyers.submitCatch, htoken, h, hreject, hnet]
    · simp only [h, Bool.false_eq_true, if_false] at hreject
      simp [Buyers.handleSubmit, Buyers.submitCatch, htoken, h, hreject, hnet]
  · intro env page hmode hreject
    have hmode1 : (page.formMode == "addQuantity") = false := by simpa using hmode
    by_cases h : (page.formMode == "edit" && (page.formData.get "id").truthy) = true
    · simp only [h, if_true] at hreject
      simp [Products.handleSubmit, Products.submitCatch, htoken, hmode1, h, hreject, hnet]
    · simp only [h, Bool.false_eq_true, if_false] at hreject
      simp [Products.handleSubmit, Products.submitCatch, htoken, hmode1, h, hreject, hnet]

/-- C15 at a rejected create of an expense, of a sale and of a product and a rejected
update of a buyer: each handler shows 'Name is required' and leaves the store empty. -/
theorem handleSubmit_rejected_surfaces_error_witness :
    (Expenses.handleSubmit Expenses.rejectingEnv (some sampleUser) Expenses.feedPage
      Store.empty).db = Store.empty ∧
    (Expenses.handleSubmit Expenses.rejectingEnv (some sampleUser) Expenses.feedPage
      Store.empty).toasts = [⟨.string "Name is required", "error"⟩] ∧
    (Sales.handleSubmit Sales.rejectingEnv (some sampleUser) Sales.samplePage
      Store.empty).toasts = [⟨.string "Name is required", "error"⟩] ∧
    (Buyers.handleSubmit Buyers.rejectingEnv (some sampleUser) Buyers.samplePage
      Store.empty).toasts = [⟨.string "Name is required", "error"⟩] ∧
    (Products.handleSubmit Products.rejectingEnv (some sampleUser) Products.samplePage
      Store.empty).db = Store.empty := by
  have h := handleSubmit_rejected_surfaces_error sampleUser Store.empty validationError
    (by decide) (by decide!)
  have h1 := h.1 Expenses.rejectingEnv Expenses.feedPage (by decide!) (by decide!) rfl
  have h2 := h.2.1 Sales.rejectingEnv Sales.samplePage (by decide!) rfl
  have h3 := h.2.2.1 Buyers.rejectingEnv Buyers.samplePage rfl
  have h4 := h.2.2.2 Products.rejectingEnv Products.samplePage (by decide) rfl
  exact ⟨h1.1, h1.2.1, h2.2.1, h3.2.1, h4.1⟩

/-! ## The body of the sync request and the clear of one table -/

/-- A property other than `id` is read from a cleaned record as from the record. -/
theorem cleanRecord_get (record : Record) (k : String) (hk : k ≠ "id") :
    (cleanRecord record).get k = record.get k := by
  unfold cleanRecord Record.get
  rw [List.find?_filter]
  have hfun : (fun kv : String × JSValue => decide ((kv.1 != "id") = true ∧ (kv.1 == k) = true)) =
      (fun kv : String × JSValue => kv.1 == k) := by
    funext kv
    by_cases h : kv.1 = k
    · subst h; simp [hk]
    · simp [h]
  rw [hfun]

/-- A cleaned record has no `id`. -/
theorem cleanRecord_get_id (record : Record) : (cleanRecord record).get "id" = .undefined := by
  unfold cleanRecord Record.get
  rw [List.find?_filter]
  have hfun : (fun kv : String × JSValue =>
      decide ((kv.1 != "id") = true ∧ (kv.1 == "id") = true)) = (fun _ => false) := by
    funext kv
    by_cases h : kv.1 = "id" <;> simp [h]
  rw [hfun, List.find?_eq_none.mpr (fun _ _ => by simp)]

/-- C21: every request that `syncRecords` issues carries a body with the five arrays
`products`, `sales`, `buyers`, `prices` and `expenses`; each array is the list of the rows of
its table (`prices` from `marketPrices`) in stored order with `cleanRecord` applied.  A
cleaned row has no `id` and keeps every other property, with its value and in its place.
With a connection and at least one row in the five tables the request is issued. -/
theorem syncRecords_body_is_cleaned_tables (env : SyncEnv) (token : JSValue) (db : Store) :
    (∀ request ∈ (syncRecords env token db).2.2,
      request.body = ⟨db.products.rows.map cleanRecord, db.sales.rows.map cleanRecord,
        db.buyers.rows.map cleanRecord, db.marketPrices.rows.map cleanRecord,
        db.expenses.rows.map cleanRecord⟩) ∧
    (env.onLine = true → db.entityRows ≠ [] →
      (syncRecords env token db).2.2 = [⟨token, collectOfflineData db⟩]) ∧
    (∀ row : Record, (cleanRecord row).get "id" = .undefined ∧
      (∀ kv, kv ∈ cleanRecord row ↔ kv ∈ row ∧ kv.1 ≠ "id") ∧
      (cleanRecord row).Sublist row ∧
      ∀ k, k ≠ "id" → (cleanRecord row).get k = row.get k) := by
  refine ⟨?_, ?_, ?_⟩
  · intro request hmem
    rcases syncRecords_requests env token db with h | h
    · rw [h] at hmem; simp at hmem
    · rw [h] at hmem
      simp only [List.mem_singleton] at hmem
      subst hmem
      rfl
  · intro hon hrows
    have htotal : totalRecords (collectOfflineData db) ≠ 0 := by
      rw [totalRecords_eq]
      simp only [collectOfflineData, getOfflineRecords, Table.toArray, List.length_map]
      intro hzero
      apply hrows
      simp only [Store.entityRows]
      have h1 : db.products.rows = [] := List.length_eq_zero.mp (by omega)
      have h2 : db.sales.rows = [] := List.length_eq_zero.mp (by omega)
      have h3 : db.buyers.rows = [] := List.length_eq_zero.mp (by omega)
      have h4 : db.marketPrices.rows = [] := List.length_eq_zero.mp (by omega)
      have h5 : db.expenses.rows = [] := List.length_eq_zero.mp (by omega)
      simp [h1, h2, h3, h4, h5]
    unfold syncRecords
    simp only [hon, Bool.not_true, Bool.false_eq_true, if_false, htotal]
    split
    · rfl
    · split
      · rfl
      · split <;> rfl
  · intro row
    refine ⟨cleanRecord_get_id row, ?_, ?_, fun k hk => cleanRecord_get row k hk⟩
    · intro kv
      simp [cleanRecord, List.mem_filter]
    · exact List.filter_sublist row

/-- C21 for the store with the two buffered products and a server that accepts: the one
request carries the two product rows without their ids, and four empty arrays. -/
theorem syncRecords_body_is_cleaned_tables_witness :
    (syncRecords acceptingEnv (.string "jwt") twoProductStore).2.2 =
      [⟨.string "jwt",
        ⟨[[("name", .string "Maize"), ("quantity", .number (.fin 5))],
          [("name", .string ""), ("quantity", .number (.fin 3))]], [], [], [], []⟩⟩] :=
  ((syncRecords_body_is_cleaned_tables acceptingEnv (.string "jwt") twoProductStore).2.1 rfl
    (by decide)).trans (by decide!)

/-- C25: `clearOfflineRecords(type)` leaves the table named `type` without rows, so that
`getOfflineRecords(type)` is the empty list afterwards, and leaves every other table as it
was: the other four tables of `offline.js` and the tables that the pages declare. -/
theorem clearOfflineRecords_frame (type : OfflineTable) (db : Store) :
    getOfflineRecords type (clearOfflineRecords type db) = [] ∧
    (∀ other : OfflineTable, other ≠ type →
      getOfflineRecords other (clearOfflineRecords type db) = getOfflineRecords other db) ∧
    (clearOfflineRecords type db).prices = db.prices ∧
    (clearOfflineRecords type db).pendingDeletions = db.pendingDeletions ∧
    (clearOfflineRecords type db).units = db.units ∧
    (clearOfflineRecords type db).users = db.users := by
  refine ⟨?_, ?_, ?_, ?_, ?_, ?_⟩
  · cases type <;> rfl
  · intro other hne
    cases type <;> cases other <;> first | rfl | exact absurd rfl hne
  · cases type <;> rfl
  · cases type <;> rfl
  · cases type <;> rfl
  · cases type <;> rfl

/-! ## What the offline branches of the create forms store -/

/-- C23 (the code at the failing inputs): three create forms are submitted while the server
cannot be reached.  The products page sends the payload with the quantity 5 and `null` for
the empty harvest date, and stores the form: the quantity is the text '5', the harvest date
the empty text.  The market prices page sends the price 10 and `null` for the empty
location, and stores the text '10' and the empty text.  The buyers page sends its payload
and stores nothing: the form carries `id: null`, `db.buyers.add` refuses the key and the
handler ends with that error. -/
theorem offline_create_stores_form_not_payload :
    (Products.handleSubmit Products.unreachableEnv (some sampleUser) Products.maizePage
      Store.empty).requests = [.post (.string "jwt") Products.maizePayload] ∧
    (Products.handleSubmit Products.unreachableEnv (some sampleUser) Products.maizePage
      Store.empty).db.products.rows =
        [Products.maizeFormRow 1700000000000 "5" ++ [("farm_id", .number (.fin 1))]] ∧
    Products.maizePayload.get "quantity" = .number (.fin 5) ∧
    (Products.maizeFormRow 1700000000000 "5").get "quantity" = .string "5" ∧
    Products.maizePayload.get "harvest_date" = .null ∧
    (Products.maizeFormRow 1700000000000 "5").get "harvest_date" = .string "" ∧
    (MarketPrices.handleSubmit MarketPrices.unreachableEnv (some sampleUser)
      MarketPrices.samplePage Store.empty).requests =
        [.post (.string "jwt") MarketPrices.samplePayload] ∧
    (MarketPrices.handleSubmit MarketPrices.unreachableEnv (some sampleUser)
      MarketPrices.samplePage Store.empty).db.prices.rows = [MarketPrices.bufferedRow] ∧
    MarketPrices.samplePayload.get "current_price" = .number (.fin 10) ∧
    MarketPrices.bufferedRow.get "current_price" = .string "10" ∧
    MarketPrices.samplePayload.get "location" = .null ∧
    MarketPrices.bufferedRow.get "location" = .string "" ∧
    (Buyers.handleSubmit Buyers.unreachableEnv (some sampleUser) Buyers.createPage
      Store.empty).requests = [.post (.string "jwt") (Buyers.payloadOfForm
        Buyers.createPage.formData)] ∧
    (Buyers.handleSubmit Buyers.unreachableEnv (some sampleUser) Buyers.createPage
      Store.empty).db = Store.empty ∧
    (Buyers.handleSubmit Buyers.unreachableEnv (some sampleUser) Buyers.createPage
      Store.empty).thrown = some dataError := by
  decide!

/-- C24 (the code at the failing inputs): the contact of the listed buyer 3 is edited and
the update fails with 'Network Error'.  When the local table mirrors buyer 3,
`db.buyers.add` refuses the key that is already there: the handler ends with that error,
the table keeps the old contact and the list is as it was.  When the local table does not
hold buyer 3, the edited row is added and the list gets one more entry, under a temporary
id, next to the old entry of buyer 3. -/
theorem buyer_offline_edit_not_replaced :
    (Buyers.handleSubmit Buyers.unreachableEnv (some sampleUser) Buyers.editPage
      (Buyers.mirroredStore 1)).requests =
        [.put (.number (.fin 3)) (.string "jwt") (Buyers.payloadOfForm Buyers.editedForm)] ∧
    (Buyers.handleSubmit Buyers.unreachableEnv (some sampleUser) Buyers.editPage
      (Buyers.mirroredStore 1)).thrown = some constraintError ∧
    (Buyers.handleSubmit Buyers.unreachableEnv (some sampleUser) Buyers.editPage
      (Buyers.mirroredStore 1)).db.buyers.rows = [Buyers.aminaRow 1] ∧
    (Buyers.handleSubmit Buyers.unreachableEnv (some sampleUser) Buyers.editPage
      (Buyers.mirroredStore 1)).page.buyers = [Buyers.aminaRow 1] ∧
    (Buyers.aminaRow 1).get "contact" = .string "0700" ∧
    (Buyers.handleSubmit Buyers.unreachableEnv (some sampleUser) Buyers.editPage
      Store.empty).thrown = none ∧
    (Buyers.handleSubmit Buyers.unreachableEnv (some sampleUser) Buyers.editPage
      Store.empty).db.buyers.rows = [Buyers.editedForm ++ [("farm_id", .number (.fin 1))]] ∧
    (Buyers.handleSubmit Buyers.unreachableEnv (some sampleUser) Buyers.editPage
      Store.empty).page.buyers =
        [Buyers.aminaRow 1, Buyers.editedForm.set "id" (.number (.fin 1700000000000))] ∧
    (Buyers.handleSubmit Buyers.unreachableEnv (some sampleUser) Buyers.editPage
      Store.empty).page.buyers.length = Buyers.editPage.buyers.length + 1 := by
  decide!

/-- C27 (the code at the failing input): maize is created offline with the quantity 5 typed
into the form, then 'Add Quantity' is used offline on the listed maize with 3 typed into
the form.  The listed quantity becomes the text '53'.  The stored quantity is the text '5'
when the clock advanced between the two readings of the create (the update finds no row
under the listed id), and the text '53' when both readings gave the same millisecond. -/
theorem offline_add_quantity_concatenates :
    (Products.handleSubmit Products.unreachableEnv (some sampleUser) Products.maizePage
      Store.empty).page.products = [Products.maizeFormRow 1700000000001 "5"] ∧
    (Products.handleSubmit Products.unreachableEnv (some sampleUser)
      (Products.handleQuantityChange "3" (Products.handleSelectChange "1700000000001"
        (Products.handleAddQuantity (Products.maizeFormRow 1700000000001 "5")
          (Products.handleSubmit Products.unreachableEnv (some sampleUser) Products.maizePage
            Store.empty).page)))
      (Products.handleSubmit Products.unreachableEnv (some sampleUser) Products.maizePage
        Store.empty).db).page.products = [Products.maizeFormRow 1700000000001 "53"] ∧
    (Products.handleSubmit Products.unreachableEnv (some sampleUser)
      (Products.handleQuantityChange "3" (Products.handleSelectChange "1700000000001"
        (Products.handleAddQuantity (Products.maizeFormRow 1700000000001 "5")
          (Products.handleSubmit Products.unreachableEnv (some sampleUser) Products.maizePage
            Store.empty).page)))
      (Products.handleSubmit Products.unreachableEnv (some sampleUser) Products.maizePage
        Store.empty).db).db.products.rows =
        [Products.maizeFormRow 1700000000000 "5" ++ [("farm_id", .number (.fin 1))]] ∧
    (Products.handleSubmit Products.sameTickEnv (some sampleUser)
      (Products.handleQuantityChange "3" (Products.handleSelectChange "1700000000000"
        (Products.handleAddQuantity (Products.maizeFormRow 1700000000000 "5")
          (Products.handleSubmit Products.sameTickEnv (some sampleUser) Products.maizePage
            Store.empty).page)))
      (Products.handleSubmit Products.sameTickEnv (some sampleUser) Products.maizePage
        Store.empty).db).db.products.rows =
        [Products.maizeFormRow 1700000000000 "53" ++ [("farm_id", .number (.fin 1))]] ∧
    (Products.handleSubmit Products.sameTickEnv (some sampleUser)
      (Products.handleQuantityChange "3" (Products.handleSelectChange "1700000000000"
        (Products.handleAddQuantity (Products.maizeFormRow 1700000000000 "5")
          (Products.handleSubmit Products.sameTickEnv (some sampleUser) Products.maizePage
            Store.empty).page)))
      (Products.handleSubmit Products.sameTickEnv (some sampleUser) Products.maizePage
        Store.empty).db).page.products = [Products.maizeFormRow 1700000000000 "53"] := by
  decide!

/-- C28 (the code at the failing input): the clock advances by one millisecond between two
readings.  The product created offline is stored under the id 1700000000000 and listed
under the id 1700000000001; the same holds for the market price created offline. -/
theorem offline_create_two_clock_readings :
    ((Products.handleSubmit Products.unreachableEnv (some sampleUser) Products.maizePage
      Store.empty).db.products.rows.map (fun row => row.get "id")) =
        [.number (.fin 1700000000000)] ∧
    ((Products.handleSubmit Products.unreachableEnv (some sampleUser) Products.maizePage
      Store.empty).page.products.map (fun row => row.get "id")) =
        [.number (.fin 1700000000001)] ∧
    ((MarketPrices.handleSubmit MarketPrices.unreachableEnv (some sampleUser)
      MarketPrices.samplePage Store.empty).db.prices.rows.map (fun row => row.get "id")) =
        [.number (.fin 1700000000000)] ∧
    ((MarketPrices.handleSubmit MarketPrices.unreachableEnv (some sampleUser)
      MarketPrices.samplePage Store.empty).page.prices.map (fun row => row.get "id")) =
        [.number (.fin 1700000000001)] := by
  decide!

/-! ## The amount of an accepted expense form -/

/-- What `validateForm` has checked of a form it accepts: the description is not empty and
`parseFloat(formData.amount) <= 0` is false. -/
theorem Expenses.validateForm_accepted (formData : Record)
    (haccepted : Expenses.validateForm formData = none) :
    (Expenses.payloadOfForm formData).get "description" = formData.get "description" ∧
    ((Expenses.payloadOfForm formData).get "description").truthy = true ∧
    (Expenses.payloadOfForm formData).get "amount" =
      .number (parseFloatNumber (formData.get "amount")) ∧
    (parseFloatNumber (formData.get "amount")).le (.fin 0) = false ∧
    (∀ q, parseFloatNumber (formData.get "amount") = .fin q → 0 < q) ∧
    parseFloatNumber (formData.get "amount") ≠ .negInf := by
  unfold Expenses.validateForm at haccepted
  by_cases hdesc : (formData.get "description").truthy = true
  · by_cases hamount : (!(formData.get "amount").truthy
        || (parseFloatNumber (formData.get "amount")).le (.fin 0)) = true
    · simp [hdesc, hamount] at haccepted
    · have hle : (parseFloatNumber (formData.get "amount")).le (.fin 0) = false := by
        simp only [Bool.or_eq_true, not_or, Bool.not_eq_true] at hamount
        exact hamount.2
      refine ⟨rfl, hdesc, rfl, hle, ?_, ?_⟩
      · intro q hq
        rw [hq] at hle
        simp [JSNumber.le, JSNumber.lt] at hle
        exact hle
      · intro hneg
        rw [hneg] at hle
        simp [JSNumber.le, JSNumber.lt] at hle
  · simp [hdesc] at haccepted

/-! ## The offline fallback of a list -/

/-- With the list request failing, `fetchBuyers` ends in its `catch` block. -/
theorem Buyers.fetchBuyers_unreachable (env : Buyers.Env) (user : Option User)
    (page : Buyers.Page) (db : Store) (hfail : ∀ request, ∃ e, env.list request = .error e) :
    ∃ requests e, Buyers.fetchBuyers env user page db = Buyers.fetchCatch page db requests e := by
  unfold Buyers.fetchBuyers
  cases user with
  | none => exact ⟨_, _, rfl⟩
  | some u =>
    simp only []
    split
    · exact ⟨_, _, rfl⟩
    · obtain ⟨e, he⟩ := hfail (.get u.token)
      rw [he]
      exact ⟨_, _, rfl⟩

/-- With the list request failing, `fetchExpenses` ends in its `catch` block. -/
theorem Expenses.fetchExpenses_unreachable (env : Expenses.Env) (user : Option User)
    (page : Expenses.Page) (db : Store) (hfail : ∀ request, ∃ e, env.list request = .error e) :
    ∃ requests e,
      Expenses.fetchExpenses env user page db = Expenses.fetchCatch env page db requests e := by
  unfold Expenses.fetchExpenses
  cases user with
  | none => exact ⟨_, _, rfl⟩
  | some u =>
    simp only []
    split
    · exact ⟨_, _, rfl⟩
    · obtain ⟨e, he⟩ := hfail (.get u.token)
      rw [he]
      exact ⟨_, _, rfl⟩

/-! ## The bulk delete of sales without a connection -/

/-- The adds of `handleBulkDelete`: with room in the key generator every tombstone is
stored, the tombstone at position `i` under the key `nextKey + i`. -/
theorem Sales.addAll_tombstones (u : User) (ids : List JSValue) (t : Table)
    (hroom : t.nextKey + ids.length ≤ maxGeneratedKey + 1) :
    (addAll t (ids.map (Sales.tombstone u))).2 = none ∧
    (addAll t (ids.map (Sales.tombstone u))).1.rows.length = t.rows.length + ids.length ∧
    ∀ row, row ∈ (addAll t (ids.map (Sales.tombstone u))).1.rows ↔
      row ∈ t.rows ∨ ∃ i id, ids[i]? = some id ∧
        row = (Sales.tombstone u id).set "id" (.number (.fin ((t.nextKey + i : ℕ) : ℚ))) := by
  induction ids generalizing t with
  | nil =>
    refine ⟨rfl, rfl, ?_⟩
    intro row
    simp [addAll]
  | cons id rest ih =>
    have hgen : t.nextKey ≤ maxGeneratedKey := by
      simp only [List.length_cons] at hroom
      omega
    have hstep : addAll t ((id :: rest).map (Sales.tombstone u)) =
        addAll ⟨insertRow ((Sales.tombstone u id).set "id" (.number (.fin t.nextKey))) t.rows,
          t.nextKey + 1⟩ (rest.map (Sales.tombstone u)) := by
      simp only [List.map_cons, addAll, Sales.add_tombstone u id t hgen]
    rw [hstep]
    obtain ⟨hnone, hlen, hmem⟩ := ih
      ⟨insertRow ((Sales.tombstone u id).set "id" (.number (.fin t.nextKey))) t.rows,
        t.nextKey + 1⟩ (by simp only [List.length_cons] at hroom ⊢; omega)
    refine ⟨hnone, ?_, ?_⟩
    · rw [hlen]
      simp only [length_insertRow, List.length_cons]
      omega
    · intro row
      rw [hmem row]
      simp only [mem_insertRow]
      constructor
      · rintro ((hrow | hrow) | ⟨i, id1, hi, hrow⟩)
        · exact Or.inr ⟨0, id, List.getElem?_cons_zero, by simpa using hrow⟩
        · exact Or.inl hrow
        · refine Or.inr ⟨i + 1, id1, by simpa using hi, ?_⟩
          rw [hrow]
          have : t.nextKey + 1 + i = t.nextKey + (i + 1) := by omega
          rw [this]
      · rintro (hrow | ⟨i, id1, hi, hrow⟩)
        · exact Or.inl (Or.inr hrow)
        · cases i with
          | zero =>
            simp only [List.getElem?_cons_zero, Option.some.injEq] at hi
            subst hi
            exact Or.inl (Or.inl (by simpa using hrow))
          | succ j =>
            refine Or.inr ⟨j, id1, by simpa using hi, ?_⟩
            rw [hrow]
            have : t.nextKey + (j + 1) = t.nextKey + 1 + j := by omega
            rw [this]

/-- Among sales with distinct ids, the ids of the sales in the range are found exactly in
the sales in the range. -/
theorem Sales.any_tempIds (parse : String → JSNumber) (page : Sales.Page)
    (hids : (page.sales.map (fun s => s.get "id")).Nodup) (s : Record) (hs : s ∈ page.sales) :
    (Sales.tempIds parse page).any (fun id => sameValueZero id (s.get "id")) =
      Sales.inBulkRange parse page.bulkDeleteDates s := by
  have hinj := List.inj_on_of_nodup_map hids
  cases hrange : Sales.inBulkRange parse page.bulkDeleteDates s with
  | true =>
    rw [List.any_eq_true]
    refine ⟨s.get "id", ?_, by simp [sameValueZero]⟩
    exact List.mem_map.mpr ⟨s, List.mem_filter.mpr ⟨hs, hrange⟩, rfl⟩
  | false =>
    rw [List.any_eq_false]
    intro id hid hsame
    obtain ⟨s1, hs1, hid1⟩ := List.mem_map.mp hid
    have heq : s1.get "id" = s.get "id" := by
      rw [hid1]
      simpa [sameValueZero] using hsame
    have hmem := List.mem_filter.mp hs1
    have := hinj hmem.1 hs heq
    rw [this, hrange] at hmem
    exact Bool.false_ne_true hmem.2

/-- What `handleBulkDelete` leaves of the list and of `pendingDeletions` when the bulk
DELETE fails with a 'Network Error' and every tombstone could be stored. -/
theorem Sales.handleBulkDelete_unreachable (parse : String → JSNumber) (env : Sales.Env)
    (u : User) (page : Sales.Page) (db : Store) (err : JSError)
    (hstart : (page.bulkDeleteDates.get "start_date").truthy = true)
    (hend : (page.bulkDeleteDates.get "end_date").truthy = true)
    (hconfirm : env.confirm = true) (htoken : u.token.truthy = true)
    (hfail : env.bulkDelete (.bulkDelete u.token page.bulkDeleteDates) = .error err)
    (hnet : includes err.message "Network Error" = true)
    (hadded : (addAll db.pendingDeletions
      ((Sales.tempIds parse page).map (Sales.tombstone u))).2 = none) :
    (Sales.handleBulkDelete parse env (some u) page db).page.sales =
      page.sales.filter (fun s =>
        !((Sales.tempIds parse page).any (fun id => sameValueZero id (s.get "id")))) ∧
    (Sales.handleBulkDelete parse env (some u) page db).db.pendingDeletions =
      (addAll db.pendingDeletions ((Sales.tempIds parse page).map (Sales.tombstone u))).1 := by
  simp only [Sales.handleBulkDelete, hstart, hend, hconfirm, htoken, hfail, Bool.not_true,
    Bool.or_self, Bool.false_eq_true, if_false, Sales.bulkDeleteCatch, hnet, if_true, hadded]
  split <;> exact ⟨rfl, rfl⟩

/-- C29: the bulk delete form holds both dates, the user confirms and is signed in, and the
bulk DELETE fails with a 'Network Error'; the listed sales have distinct ids and the key
generator of `pendingDeletions` has room for the tombstones.  Then the sales that leave the
list are exactly the listed sales whose `sale_date` is in the range from `start_date` to
`end_date`, both ends included, and every other sale stays, in its place; the rows of
`pendingDeletions` are the rows it had and one tombstone for each sale in the range, the
one for the sale at position `i` of these under the key `nextKey + i`. -/
theorem handleBulkDelete_offline_range (parse : String → JSNumber) (env : Sales.Env)
    (u : User) (page : Sales.Page) (db : Store) (err : JSError)
    (hstart : (page.bulkDeleteDates.get "start_date").truthy = true)
    (hend : (page.bulkDeleteDates.get "end_date").truthy = true)
    (hconfirm : env.confirm = true) (htoken : u.token.truthy = true)
    (hfail : env.bulkDelete (.bulkDelete u.token page.bulkDeleteDates) = .error err)
    (hnet : includes err.message "Network Error" = true)
    (hids : (page.sales.map (fun s => s.get "id")).Nodup)
    (hroom : db.pendingDeletions.nextKey +
      (page.sales.filter (Sales.inBulkRange parse page.bulkDeleteDates)).length
        ≤ maxGeneratedKey + 1) :
    (Sales.handleBulkDelete parse env (some u) page db).page.sales =
      page.sales.filter (fun s => !Sales.inBulkRange parse page.bulkDeleteDates s) ∧
    (∀ s ∈ page.sales, s ∈ (Sales.handleBulkDelete parse env (some u) page db).page.sales ↔
      Sales.inBulkRange parse page.bulkDeleteDates s = false) ∧
    (∀ row, row ∈ (Sales.handleBulkDelete parse env (some u) page db).db.pendingDeletions.rows ↔
      row ∈ db.pendingDeletions.rows ∨
      ∃ i s, (page.sales.filter (Sales.inBulkRange parse page.bulkDeleteDates))[i]? = some s ∧
        row = (Sales.tombstone u (s.get "id")).set "id"
          (.number (.fin ((db.pendingDeletions.nextKey + i : ℕ) : ℚ)))) ∧
    (Sales.handleBulkDelete parse env (some u) page db).db.pendingDeletions.rows.length =
      db.pendingDeletions.rows.length +
        (page.sales.filter (Sales.inBulkRange parse page.bulkDeleteDates)).length := by
  have hroom1 : db.pendingDeletions.nextKey + (Sales.tempIds parse page).length
      ≤ maxGeneratedKey + 1 := by
    simpa [Sales.tempIds] using hroom
  obtain ⟨hnone, hlen, hmem⟩ :=
    Sales.addAll_tombstones u (Sales.tempIds parse page) db.pendingDeletions hroom1
  obtain ⟨hlist, hpending⟩ := Sales.handleBulkDelete_unreachable parse env u page db err hstart
    hend hconfirm htoken hfail hnet hnone
  have hshown : (Sales.handleBulkDelete parse env (some u) page db).page.sales =
      page.sales.filter (fun s => !Sales.inBulkRange parse page.bulkDeleteDates s) := by
    rw [hlist]
    apply List.filter_congr
    intro s hs
    rw [Sales.any_tempIds parse page hids s hs]
  refine ⟨hshown, ?_, ?_, ?_⟩
  · intro s hs
    rw [hshown, List.mem_filter]
    simp [hs]
  · intro row
    rw [hpending, hmem row]
    constructor
    · rintro (hrow | ⟨i, id, hi, hrow⟩)
      · exact Or.inl hrow
      · simp only [Sales.tempIds, List.getElem?_map, Option.map_eq_some'] at hi
        obtain ⟨s, hs, hid⟩ := hi
        exact Or.inr ⟨i, s, hs, by rw [hid]; exact hrow⟩
    · rintro (hrow | ⟨i, s, hs, hrow⟩)
      · exact Or.inl hrow
      · refine Or.inr ⟨i, s.get "id", ?_, hrow⟩
        simp only [Sales.tempIds, List.getElem?_map, Option.map_eq_some']
        exact ⟨s, hs, rfl⟩
  · rw [hpending, hlen]
    simp [Sales.tempIds]

/-- C29 for the sales 7, 8 and 9 of 10, 15 and 31 January and the range 12 to 20 January:
sale 8 leaves the list and gets the only tombstone, the sales 7 and 9 stay. -/
theorem handleBulkDelete_offline_range_witness :
    (Sales.handleBulkDelete Sales.sampleDateParse Sales.unreachableEnv (some sampleUser)
      Sales.bulkPage Store.empty).page.sales =
        [Sales.datedSale 7 "2025-01-10", Sales.datedSale 9 "2025-01-31"] ∧
    (Sales.handleBulkDelete Sales.sampleDateParse Sales.unreachableEnv (some sampleUser)
      Sales.bulkPage Store.empty).db.pendingDeletions.rows.length = 1 ∧
    Sales.storedTombstone 8 1 ∈ (Sales.handleBulkDelete Sales.sampleDateParse
      Sales.unreachableEnv (some sampleUser) Sales.bulkPage Store.empty).db.pendingDeletions.rows := by
  have h := handleBulkDelete_offline_range Sales.sampleDateParse Sales.unreachableEnv sampleUser
    Sales.bulkPage Store.empty (JSError.ofMessage "Network Error") (by decide) (by decide) rfl
    (by decide) rfl (by decide!) (by decide!) (by decide!)
  refine ⟨?_, ?_, ?_⟩
  · rw [h.1]
    decide!
  · rw [h.2.2.2]
    decide!
  · exact (h.2.2.1 _).mpr (Or.inr ⟨0, Sales.datedSale 8 "2025-01-15", by decide!, by decide!⟩)

/-! ## The buyer fields of the sale form -/

theorem find_map_set_ne (r : Record) (k k1 : String) (v : JSValue) (h : k1 ≠ k) :
    (r.map (fun kv => if kv.1 == k then (kv.1, v) else kv)).find? (fun kv => kv.1 == k1) =
      r.find? (fun kv => kv.1 == k1) := by
  induction r with
  | nil => rfl
  | cons x xs ih =>
    simp only [List.map_cons, List.find?_cons]
    by_cases hx : x.1 = k
    · have h1 : (x.1 == k) = true := by simp [hx]
      have h2 : (x.1 == k1) = false := by simp [hx, Ne.symm h]
      simp only [h1, if_true, h2, ih]
    · have h1 : (x.1 == k) = false := by simp [hx]
      simp only [h1, Bool.false_eq_true, if_false, ih]

theorem find_map_set_eq (r : Record) (k : String) (v : JSValue)
    (h : r.any (fun kv => kv.1 == k) = true) :
    (r.map (fun kv => if kv.1 == k then (kv.1, v) else kv)).find? (fun kv => kv.1 == k) =
      some (k, v) := by
  induction r with
  | nil => simp at h
  | cons x xs ih =>
    simp only [List.map_cons, List.find?_cons]
    by_cases hx : x.1 = k
    · subst hx
      simp
    · have h1 : (x.1 == k) = false := by simp [hx]
      simp only [h1, Bool.false_eq_true, if_false]
      apply ih
      simpa [List.any_cons, h1] using h

/-- A property written by `{ ...r, k: v }` is read back as `v`. -/
theorem Record.get_set_eq (r : Record) (k : String) (v : JSValue) : (r.set k v).get k = v := by
  unfold Record.set Record.get
  by_cases hany : r.any (fun kv => kv.1 == k) = true
  · rw [if_pos hany, find_map_set_eq r k v hany]
  · have hnone : r.find? (fun kv => kv.1 == k) = none := by
      rw [List.find?_eq_none]
      intro kv hkv hk
      exact hany (List.any_eq_true.mpr ⟨kv, hkv, hk⟩)
    rw [if_neg hany]
    simp [List.find?_append, hnone]

/-- A property other than the one written by `{ ...r, k: v }` is read as from `r`. -/
theorem Record.get_set_ne (r : Record) (k k1 : String) (v : JSValue) (h : k1 ≠ k) :
    (r.set k v).get k1 = r.get k1 := by
  unfold Record.set Record.get
  by_cases hany : r.any (fun kv => kv.1 == k) = true
  · rw [if_pos hany, find_map_set_ne r k k1 v h]
  · have hlast : ([(k, v)] : Record).find? (fun kv => kv.1 == k1) = none := by
      simp [Ne.symm h]
    rw [if_neg hany, List.find?_append, hlast, Option.or_none]

/-- One event of the sale form keeps `create_new_buyer` and `buyer_id` from being set
together. -/
theorem Sales.formStep_exclusive (page : Sales.Page) (event : Sales.FormEvent)
    (h : ¬((page.formData.get "create_new_buyer").truthy = true ∧
      (page.formData.get "buyer_id").truthy = true)) :
    ¬(((Sales.formStep page event).formData.get "create_new_buyer").truthy = true ∧
      ((Sales.formStep page event).formData.get "buyer_id").truthy = true) := by
  cases event with
  | change field value =>
    have hnew : (page.formData.set field.name (.string value)).get "create_new_buyer" =
        page.formData.get "create_new_buyer" :=
      Record.get_set_ne _ _ _ _ (by cases field <;> decide)
    have hid : (page.formData.set field.name (.string value)).get "buyer_id" =
        page.formData.get "buyer_id" :=
      Record.get_set_ne _ _ _ _ (by cases field <;> decide)
    simp only [Sales.formStep, Sales.handleChange, hnew, hid]
    exact h
  | selectBuyer value =>
    simp only [Sales.formStep, Sales.handleBuyerSelect]
    rw [Record.get_set_ne _ _ _ _ (by decide), Record.get_set_ne _ _ _ _ (by decide),
      Record.get_set_eq]
    simp [JSValue.truthy]
  | toggleNewBuyer checked =>
    simp only [Sales.formStep, Sales.handleNewBuyerToggle]
    rw [Record.get_set_eq]
    simp [JSValue.truthy]
  | edit sale =>
    simp [Sales.formStep, Sales.handleEdit, Sales.openModal, Record.get, JSValue.truthy]
  | close =>
    simp [Sales.formStep, Sales.closeModal, Sales.initialForm, Record.get, JSValue.truthy]

/-- The events of the sale form keep `create_new_buyer` and `buyer_id` from being set
together. -/
theorem Sales.foldl_formStep_exclusive (events : List Sales.FormEvent) (page : Sales.Page)
    (h : ¬((page.formData.get "create_new_buyer").truthy = true ∧
      (page.formData.get "buyer_id").truthy = true)) :
    ¬(((events.foldl Sales.formStep page).formData.get "create_new_buyer").truthy = true ∧
      ((events.foldl Sales.formStep page).formData.get "buyer_id").truthy = true) := by
  induction events generalizing page with
  | nil => exact h
  | cons event rest ih => exact ih _ (Sales.formStep_exclusive page event h)

/-- What `validateForm` has checked of the buyer fields of a form it accepts. -/
theorem Sales.validateForm_buyer (formData : Record) (h : Sales.validateForm formData = none) :
    ((formData.get "create_new_buyer").truthy = false → (formData.get "buyer_id").truthy = true) ∧
    ((formData.get "create_new_buyer").truthy = true →
      (formData.get "buyer_name").truthy = true ∧ (formData.get "buyer_contact").truthy = true) := by
  unfold Sales.validateForm at h
  repeat' split at h
  all_goals try exact absurd h (Option.some_ne_none _)
  rename_i h1 h2 h3 h4 h5 h6 h7 h8
  cases hnew : (formData.get "create_new_buyer").truthy <;>
    cases hid : (formData.get "buyer_id").truthy <;>
    cases hname : (formData.get "buyer_name").truthy <;>
    cases hcontact : (formData.get "buyer_contact").truthy <;>
    simp_all

/-- The payloads of the requests of `handleSubmit` are built from a form that
`validateForm` accepts. -/
theorem Sales.handleSubmit_payload (env : Sales.Env) (user : Option User) (page : Sales.Page)
    (db : Store) (payload : Record)
    (h : (∃ token, Sales.Request.post token payload ∈
        (Sales.handleSubmit env user page db).requests) ∨
      (∃ id token, Sales.Request.put id token payload ∈
        (Sales.handleSubmit env user page db).requests)) :
    Sales.validateForm page.formData = none ∧ payload = Sales.payloadOfForm page.formData := by
  unfold Sales.handleSubmit at h
  split at h
  · simp at h
  · rename_i hvalid
    refine ⟨hvalid, ?_⟩
    simp only [Sales.submitCatch, Sales.refresh] at h
    repeat' split at h
    all_goals simp at h
    all_goals exact h

/-- The buyer fields of the payload of lines 212-222. -/
theorem Sales.payloadOfForm_buyer (formData : Record) :
    (Sales.payloadOfForm formData).get "buyer_id" =
      (if (formData.get "buyer_id").truthy then parseInt (formData.get "buyer_id") else .null) ∧
    (Sales.payloadOfForm formData).get "buyer_name" =
      (if (formData.get "create_new_buyer").truthy then formData.get "buyer_name" else .null) ∧
    (Sales.payloadOfForm formData).get "buyer_contact" =
      (if (formData.get "create_new_buyer").truthy then formData.get "buyer_contact"
       else .null) :=
  ⟨rfl, rfl, rfl⟩

/-- C30: after any sequence of events of the sale form (typing into an input, choosing a
buyer, ticking or unticking 'Add New Buyer', `handleEdit`, `closeModal`) from the first
render, `create_new_buyer` is not true while `buyer_id` is non-empty.  Hence the payload of
every request `handleSubmit` makes from such a form carries a `buyer_id` with `null` for
the name and contact of a new buyer, or `null` for `buyer_id` with a non-empty name and
contact of a new buyer. -/
theorem sale_form_buyer_exclusive (events : List Sales.FormEvent) :
    ¬(((Sales.formAfter events).formData.get "create_new_buyer").truthy = true ∧
      ((Sales.formAfter events).formData.get "buyer_id").truthy = true) ∧
    ∀ (env : Sales.Env) (user : Option User) (db : Store) (payload : Record),
      ((∃ token, Sales.Request.post token payload ∈
          (Sales.handleSubmit env user (Sales.formAfter events) db).requests) ∨
       (∃ id token, Sales.Request.put id token payload ∈
          (Sales.handleSubmit env user (Sales.formAfter events) db).requests)) →
      (payload.get "buyer_id" ≠ .null ∧ payload.get "buyer_name" = .null ∧
        payload.get "buyer_contact" = .null) ∨
      (payload.get "buyer_id" = .null ∧ (payload.get "buyer_name").truthy = true ∧
        (payload.get "buyer_contact").truthy = true) := by
  have hexclusive : ¬(((Sales.formAfter events).formData.get "create_new_buyer").truthy = true ∧
      ((Sales.formAfter events).formData.get "buyer_id").truthy = true) :=
    Sales.foldl_formStep_exclusive events Sales.initialPage (by decide)
  refine ⟨hexclusive, ?_⟩
  intro env user db payload hrequest
  obtain ⟨hvalid, hpayload⟩ := Sales.handleSubmit_payload env user _ db payload hrequest
  obtain ⟨hexisting, hnew⟩ := Sales.validateForm_buyer _ hvalid
  subst hpayload
  cases hflag : ((Sales.formAfter events).formData.get "create_new_buyer").truthy with
  | false =>
    left
    have hid := hexisting hflag
    obtain ⟨h1, h2, h3⟩ := Sales.payloadOfForm_buyer (Sales.formAfter events).formData
    rw [h1, h2, h3, hflag, hid]
    simp [parseInt]
  | true =>
    right
    have hid : ((Sales.formAfter events).formData.get "buyer_id").truthy = false := by
      cases hb : ((Sales.formAfter events).formData.get "buyer_id").truthy with
      | false => rfl
      | true => exact absurd ⟨hflag, hb⟩ hexclusive
    obtain ⟨hname, hcontact⟩ := hnew hflag
    obtain ⟨h1, h2, h3⟩ := Sales.payloadOfForm_buyer (Sales.formAfter events).formData
    rw [h1, h2, h3, hflag, hid]
    simp [hname, hcontact]

/-- C30 for the user who chooses buyer 3 and then adds the new buyer Amina: the payload of
the create request has `null` for `buyer_id` and carries the name and the contact. -/
theorem sale_form_buyer_exclusive_witness :
    (Sales.formAfter Sales.newBuyerEvents).formData.get "buyer_id" = .string "" ∧
    (Sales.handleSubmit Sales.rejectingEnv (some sampleUser)
      (Sales.formAfter Sales.newBuyerEvents) Store.empty).requests =
        [.post (.string "jwt") (Sales.payloadOfForm (Sales.formAfter Sales.newBuyerEvents).formData)] ∧
    (((Sales.payloadOfForm (Sales.formAfter Sales.newBuyerEvents).formData).get "buyer_id" ≠ .null ∧
      (Sales.payloadOfForm (Sales.formAfter Sales.newBuyerEvents).formData).get "buyer_name" = .null ∧
      (Sales.payloadOfForm (Sales.formAfter Sales.newBuyerEvents).formData).get "buyer_contact"
        = .null) ∨
     ((Sales.payloadOfForm (Sales.formAfter Sales.newBuyerEvents).formData).get "buyer_id" = .null ∧
      ((Sales.payloadOfForm (Sales.formAfter Sales.newBuyerEvents).formData).get
        "buyer_name").truthy = true ∧
      ((Sales.payloadOfForm (Sales.formAfter Sales.newBuyerEvents).formData).get
        "buyer_contact").truthy = true)) :=
  ⟨by decide!, by decide!,
    (sale_form_buyer_exclusive Sales.newBuyerEvents).2 Sales.rejectingEnv (some sampleUser)
      Store.empty _ (Or.inl ⟨.string "jwt", by decide!⟩)⟩

/-- A form that `validateForm` accepts has a non-empty amount. -/
theorem Expenses.validateForm_amount (formData : Record)
    (haccepted : Expenses.validateForm formData = none) :
    (formData.get "amount").truthy = true := by
  unfold Expenses.validateForm at haccepted
  cases hamount : (formData.get "amount").truthy with
  | true => rfl
  | false =>
    split at haccepted
    · exact absurd haccepted (Option.some_ne_none _)
    · simp [hamount] at haccepted

/-- C26: the amount of the form is the value that the number input reports for a typed
text, or a finite number (the amount of the listed expense that `handleEdit` puts into the
form).  If `validateForm` accepts the form, the payload has the non-empty description of
the form, and its amount `parseFloat(formData.amount)` is a finite number strictly greater
than 0. -/
theorem validateForm_accepted_amount (formData : Record) (typed : String)
    (hinput : formData.get "amount" = .string (sanitizeNumber typed) ∨
      ∃ q, formData.get "amount" = .number (.fin q))
    (haccepted : Expenses.validateForm formData = none) :
    (Expenses.payloadOfForm formData).get "description" = formData.get "description" ∧
    ((Expenses.payloadOfForm formData).get "description").truthy = true ∧
    ∃ q, (Expenses.payloadOfForm formData).get "amount" = .number (.fin q) ∧ 0 < q := by
  obtain ⟨hdesc, htruthy, hamount, _, hpositive, _⟩ :=
    Expenses.validateForm_accepted formData haccepted
  have hnonempty := Expenses.validateForm_amount formData haccepted
  have hfinite : ∃ q, parseFloatNumber (formData.get "amount") = .fin q := by
    rcases hinput with htext | ⟨q, hnumber⟩
    · rw [htext] at hnonempty ⊢
      unfold sanitizeNumber at hnonempty ⊢
      split at hnonempty
      · rename_i hvalid
        rw [if_pos hvalid]
        simp only [Bool.and_eq_true] at hvalid
        cases hparse : parseFloatString typed with
        | fin q => exact ⟨q, hparse⟩
        | nan => rw [hparse] at hvalid; exact absurd hvalid.2 Bool.false_ne_true
        | posInf => rw [hparse] at hvalid; exact absurd hvalid.2 Bool.false_ne_true
        | negInf => rw [hparse] at hvalid; exact absurd hvalid.2 Bool.false_ne_true
      · exact absurd hnonempty (by decide)
    · exact ⟨q, by rw [hnumber]; rfl⟩
  obtain ⟨q, hq⟩ := hfinite
  exact ⟨hdesc, htruthy, q, by rw [hamount, hq], hpositive q hq⟩

/-- C26 for the form 'Feed' after 120.50 has been typed into the amount input: the form is
accepted and the payload amount is 241/2. -/
theorem validateForm_accepted_amount_witness :
    sanitizeNumber "120.50" = "120.50" ∧ sanitizeNumber "abc" = "" ∧
    sanitizeNumber "1e400" = "" ∧
    Expenses.validateForm (Expenses.formWithAmount (sanitizeNumber "120.50")) = none ∧
    (Expenses.payloadOfForm (Expenses.formWithAmount (sanitizeNumber "120.50"))).get "amount" =
      .number (.fin (241 / 2)) ∧
    ∃ q, (Expenses.payloadOfForm (Expenses.formWithAmount (sanitizeNumber "120.50"))).get
      "amount" = .number (.fin q) ∧ 0 < q :=
  ⟨by decide!, by decide!, by decide!, by decide!, by decide!,
    (validateForm_accepted_amount (Expenses.formWithAmount (sanitizeNumber "120.50")) "120.50"
      (Or.inl (by decide!)) (by decide!)).2.2⟩

/-! ## What a page displays after its list request -/

/-- An error text made with a non-empty default is truthy. -/
theorem JSValue.truthy_or_string (a : JSValue) (s : String) (hs : s ≠ "") :
    (a.or (.string s)).truthy = true := by
  cases ha : a.truthy with
  | true => rw [JSValue.or_truthy a _ ha]; exact ha
  | false =>
    rw [JSValue.or_falsy a _ ha]
    simp [JSValue.truthy, hs]

/-- The error text that the `catch` block of `fetchBuyers` sets. -/
theorem Buyers.fetchBuyers_catch_error (page : Buyers.Page) (db : Store)
    (requests : List Buyers.Request) (err : JSError) :
    (Buyers.fetchCatch page db requests err).page.error =
      err.responseMessage.or (.string "Failed to load buyers") := by
  unfold Buyers.fetchCatch
  simp only []
  split <;> rfl

/-- After the `catch` block of `fetchBuyers` the page displays the error text. -/
theorem Buyers.view_fetchBuyers_catch (page : Buyers.Page) (db : Store)
    (requests : List Buyers.Request) (err : JSError) :
    Buyers.view (Buyers.fetchCatch page db requests err).page =
      .errorText (err.responseMessage.or (.string "Failed to load buyers")) := by
  have herror : (err.responseMessage.or (.string "Failed to load buyers")).truthy = true :=
    JSValue.truthy_or_string _ _ (by decide)
  unfold Buyers.view
  rw [Buyers.fetchBuyers_catch_error, if_pos herror]

/-- The error text that the `catch` block of `fetchExpenses` sets. -/
theorem Expenses.fetchExpenses_catch_error (env : Expenses.Env) (page : Expenses.Page) (db : Store)
    (requests : List Expenses.Request) (err : JSError) :
    (Expenses.fetchCatch env page db requests err).page.error =
      (JSValue.string err.message).or (.string "Failed to load expenses") := by
  unfold Expenses.fetchCatch
  simp only []
  split
  · rfl
  · split <;> rfl

/-- After the `catch` block of `fetchExpenses` the page displays the error text. -/
theorem Expenses.view_fetchExpenses_catch (env : Expenses.Env) (page : Expenses.Page) (db : Store)
    (requests : List Expenses.Request) (err : JSError) :
    Expenses.view (Expenses.fetchCatch env page db requests err).page =
      .errorText ((JSValue.string err.message).or (.string "Failed to load expenses")) := by
  have herror :
      ((JSValue.string err.message).or (.string "Failed to load expenses")).truthy = true :=
    JSValue.truthy_or_string _ _ (by decide)
  unfold Expenses.view
  rw [Expenses.fetchExpenses_catch_error, if_pos herror]

/-- The elements of the result of a mapping that returned are results of its calls. -/
theorem mem_of_mapM_ok {α β : Type} (f : α → Except JSError β) (l : List α) (l1 : List β)
    (h : l.mapM f = .ok l1) : ∀ y ∈ l1, ∃ x ∈ l, f x = .ok y := by
  induction l generalizing l1 with
  | nil =>
    simp only [List.mapM_nil] at h
    cases h
    intro y hy
    cases hy
  | cons a rest ih =>
    rw [List.mapM_cons] at h
    cases hfa : f a with
    | error e => rw [hfa] at h; cases h
    | ok b =>
      cases hrest : rest.mapM f with
      | error e => rw [hfa, hrest] at h; cases h
      | ok bs =>
        rw [hfa, hrest] at h
        cases h
        intro y hy
        rcases List.mem_cons.mp hy with rfl | hy
        · exact ⟨a, List.mem_cons_self a rest, hfa⟩
        · obtain ⟨x, hx, hfx⟩ := ih bs hrest y hy
          exact ⟨x, List.mem_cons_of_mem a hx, hfx⟩

/-- The rows of a view are rows of the table it was made from. -/
theorem Buyers.mem_buyers_view (page : Buyers.Page) (row : Record)
    (h : row ∈ (Buyers.view page).rows) : row ∈ page.buyers := by
  unfold Buyers.view at h
  split at h
  · cases h
  · exact h

/-- The rows of a view of the expenses page are rows of its list. -/
theorem Expenses.mem_expenses_view (page : Expenses.Page) (row : Record)
    (h : row ∈ (Expenses.view page).rows) : row ∈ page.expenses := by
  unfold Expenses.view at h
  split at h
  · cases h
  · exact h

/-- C22: whatever the session, the store and the server, every record that the buyers page
or the expenses page displays after its list request is an item of the answer that the
server gave to the token of the session (for expenses, normalized); no record is displayed
from the local store.  When the list request fails, so that the rows of the local table
are loaded into the state, the page displays the error text and no record. -/
theorem offline_fallback_displays_no_local_row (buyersEnv : Buyers.Env)
    (expensesEnv : Expenses.Env) (user : Option User) (buyersPage : Buyers.Page)
    (expensesPage : Expenses.Page) (db : Store) :
    (∀ row ∈ (Buyers.view (Buyers.fetchBuyers buyersEnv user buyersPage db).page).rows,
      ∃ u response, user = some u ∧ buyersEnv.list (.get u.token) = .ok response ∧
        row ∈ response.items.getD []) ∧
    (∀ row ∈ (Expenses.view (Expenses.fetchExpenses expensesEnv user expensesPage db).page).rows,
      ∃ u response item, user = some u ∧ expensesEnv.list (.get u.token) = .ok response ∧
        item ∈ response.items.getD [] ∧
        Expenses.normalizeOrNull expensesEnv item = .ok (some row)) ∧
    ((∀ request, ∃ e, buyersEnv.list request = .error e) →
      (Buyers.view (Buyers.fetchBuyers buyersEnv user buyersPage db).page).rows = [] ∧
      ((Buyers.fetchBuyers buyersEnv user buyersPage db).page.buyers = db.buyers.rows ∨
       (Buyers.fetchBuyers buyersEnv user buyersPage db).page.buyers = buyersPage.buyers)) ∧
    ((∀ request, ∃ e, expensesEnv.list request = .error e) →
      (Expenses.view (Expenses.fetchExpenses expensesEnv user expensesPage db).page).rows
        = []) := by
  refine ⟨?_, ?_, ?_, ?_⟩
  · intro row hrow
    unfold Buyers.fetchBuyers at hrow
    cases user with
    | none => rw [Buyers.view_fetchBuyers_catch] at hrow; cases hrow
    | some u =>
      simp only [] at hrow
      split at hrow
      · rw [Buyers.view_fetchBuyers_catch] at hrow; cases hrow
      · split at hrow
        · rw [Buyers.view_fetchBuyers_catch] at hrow; cases hrow
        · rename_i response hresponse
          exact ⟨u, response, rfl, hresponse, Buyers.mem_buyers_view _ _ hrow⟩
  · intro row hrow
    unfold Expenses.fetchExpenses at hrow
    cases user with
    | none => rw [Expenses.view_fetchExpenses_catch] at hrow; cases hrow
    | some u =>
      simp only [] at hrow
      split at hrow
      · rw [Expenses.view_fetchExpenses_catch] at hrow; cases hrow
      · split at hrow
        · rw [Expenses.view_fetchExpenses_catch] at hrow; cases hrow
        · rename_i response hresponse
          split at hrow
          · rw [Expenses.view_fetchExpenses_catch] at hrow; cases hrow
          · rename_i normalizedExpenses hnormalized
            have hmem := Expenses.mem_expenses_view _ _ hrow
            simp only [] at hmem
            unfold Expenses.normalizeAndFilter at hnormalized
            split at hnormalized
            · cases hnormalized
            · rename_i normalized hmapM
              cases hnormalized
              obtain ⟨result, hresult, hsome⟩ := List.mem_filterMap.mp hmem
              simp only [id] at hsome
              subst hsome
              obtain ⟨item, hitem, hcall⟩ := mem_of_mapM_ok _ _ _ hmapM _ hresult
              exact ⟨u, response, item, rfl, hresponse, hitem, hcall⟩
  · intro hfail
    obtain ⟨requests, e, hcatch⟩ := Buyers.fetchBuyers_unreachable buyersEnv user buyersPage db hfail
    rw [hcatch, Buyers.view_fetchBuyers_catch]
    refine ⟨rfl, ?_⟩
    unfold Buyers.fetchCatch
    simp only []
    split
    · exact Or.inl rfl
    · exact Or.inr rfl
  · intro hfail
    obtain ⟨requests, e, hcatch⟩ :=
      Expenses.fetchExpenses_unreachable expensesEnv user expensesPage db hfail
    rw [hcatch, Expenses.view_fetchExpenses_catch]
    rfl

/-- C22 for the user of farm 1 and a store that holds buyer 3 of farm 2, the server being
out of reach: the row is loaded into the state of the page, and the page displays the
error text and no record. -/
theorem offline_fallback_displays_no_local_row_witness :
    (Buyers.fetchBuyers Buyers.unreachableEnv (some sampleUser) Buyers.emptyPage
      (Buyers.mirroredStore 2)).page.buyers = [Buyers.aminaRow 2] ∧
    Buyers.view (Buyers.fetchBuyers Buyers.unreachableEnv (some sampleUser) Buyers.emptyPage
      (Buyers.mirroredStore 2)).page = .errorText (.string "Failed to load buyers") ∧
    (Buyers.view (Buyers.fetchBuyers Buyers.unreachableEnv (some sampleUser) Buyers.emptyPage
      (Buyers.mirroredStore 2)).page).rows = [] :=
  ⟨by decide!, by decide!,
    ((offline_fallback_displays_no_local_row Buyers.unreachableEnv Expenses.unreachableEnv
      (some sampleUser) Buyers.emptyPage Expenses.emptyPage (Buyers.mirroredStore 2)).2.2.1
      (fun _ => ⟨_, rfl⟩)).1⟩

/-! ## Unauthorized answers -/

/-- C16 (the code at the failing input): the server answers every request with status 401
and the message 'Token has expired'.  `Expenses.handleSubmit` and `Sales.handleDelete` show
the message as an error, set it as the error text of the page and end there: nothing is
thrown, the store and the list are as they were.  The same answer makes `fetchData` of the
dashboard remove the stored token and go to the login route, and makes the effect of
`AuthProvider` log out. -/
theorem unauthorized_mutation_only_shows_message :
    (Expenses.handleSubmit Expenses.unauthorizedEnv (some sampleUser) Expenses.feedPage
      Store.empty).requests = [.post (.string "jwt") Expenses.feedPayload] ∧
    (Expenses.handleSubmit Expenses.unauthorizedEnv (some sampleUser) Expenses.feedPage
      Store.empty).toasts = [⟨.string "Token has expired", "error"⟩] ∧
    (Expenses.handleSubmit Expenses.unauthorizedEnv (some sampleUser) Expenses.feedPage
      Store.empty).page = { Expenses.feedPage with error := .string "Token has expired" } ∧
    (Expenses.handleSubmit Expenses.unauthorizedEnv (some sampleUser) Expenses.feedPage
      Store.empty).thrown = none ∧
    (Expenses.handleSubmit Expenses.unauthorizedEnv (some sampleUser) Expenses.feedPage
      Store.empty).db = Store.empty ∧
    (Sales.handleDelete Sales.unauthorizedEnv (some sampleUser) (.number (.fin 7))
      (Sales.pageListing [Sales.saleRow 7, Sales.saleRow 9]) Sales.syncedStore).requests =
        [.delete (.number (.fin 7)) (.string "jwt")] ∧
    (Sales.handleDelete Sales.unauthorizedEnv (some sampleUser) (.number (.fin 7))
      (Sales.pageListing [Sales.saleRow 7, Sales.saleRow 9]) Sales.syncedStore).toasts =
        [⟨.string "Token has expired", "error"⟩] ∧
    (Sales.handleDelete Sales.unauthorizedEnv (some sampleUser) (.number (.fin 7))
      (Sales.pageListing [Sales.saleRow 7, Sales.saleRow 9]) Sales.syncedStore).page =
        { Sales.pageListing [Sales.saleRow 7, Sales.saleRow 9] with
          error := .string "Token has expired" } ∧
    (Sales.handleDelete Sales.unauthorizedEnv (some sampleUser) (.number (.fin 7))
      (Sales.pageListing [Sales.saleRow 7, Sales.saleRow 9]) Sales.syncedStore).thrown = none ∧
    (Sales.handleDelete Sales.unauthorizedEnv (some sampleUser) (.number (.fin 7))
      (Sales.pageListing [Sales.saleRow 7, Sales.saleRow 9]) Sales.syncedStore).db =
        Sales.syncedStore ∧
    (Dashboard.fetchData Dashboard.unauthorizedEnv sampleUser sampleSession
      Dashboard.emptyPage).session = ⟨none, none, some sampleUser⟩ ∧
    (Dashboard.fetchData Dashboard.unauthorizedEnv sampleUser sampleSession
      Dashboard.emptyPage).navigated = some "/login" ∧
    (restoreSession (fun _ => .rejected (some 401)) reloadedSession).1 = ⟨none, none, none⟩ ∧
    (restoreSession (fun _ => .rejected (some 500)) reloadedSession).1 =
      ⟨some "jwt", some "My Farm", some ⟨.string "jwt", .undefined⟩⟩ := by
  decide!

/-! ## The ids of sales and tombstones -/

/-- The rows of a table after an `add`: the rows it had and the added row, under its own
key or under the generated one. -/
theorem Table.mem_of_add (t t1 : Table) (row r : Record) (h : t.add row = .ok t1)
    (hr : r ∈ t1.rows) :
    r ∈ t.rows ∨ (row.key ≠ .undefined ∧ r = row) ∨
      (row.key = .undefined ∧ r = row.set "id" (.number (.fin t.nextKey))) := by
  unfold Table.add at h
  by_cases hkey : row.key = .undefined
  · rw [if_pos hkey] at h
    split at h
    · cases h
    · cases h
      rcases (mem_insertRow _ _ _).mp hr with hr | hr
      · exact Or.inr (Or.inr ⟨hkey, hr⟩)
      · exact Or.inl hr
  · rw [if_neg hkey] at h
    split at h
    · cases h
    · split at h
      · cases h
      · cases h
        rcases (mem_insertRow _ _ _).mp hr with hr | hr
        · exact Or.inr (Or.inl ⟨hkey, hr⟩)
        · exact Or.inl hr

/-- The rows of a table after a `delete` are rows it had. -/
theorem Table.mem_of_delete (t t1 : Table) (key : JSValue) (r : Record)
    (h : t.delete key = .ok t1) (hr : r ∈ t1.rows) : r ∈ t.rows := by
  unfold Table.delete at h
  split at h
  · cases h
  · cases h
    exact (List.mem_filter.mp hr).1

/-- The rows of a table after the deletes of a `Promise.all` are rows it had. -/
theorem mem_of_deleteAll (keys : List JSValue) (t : Table) (r : Record)
    (hr : r ∈ (deleteAll t keys).1.rows) : r ∈ t.rows := by
  induction keys generalizing t with
  | nil => exact hr
  | cons key rest ih =>
    unfold deleteAll at hr
    cases hdel : t.delete key with
    | error e =>
      rw [hdel] at hr
      exact ih t hr
    | ok t1 =>
      rw [hdel] at hr
      exact Table.mem_of_delete t t1 key r hdel (ih t1 hr)

/-- The rows of `pendingDeletions` after the adds of a `Promise.all` of tombstones: the
rows it had and tombstones for the given ids. -/
theorem Sales.mem_of_addAll (u : User) (ids : List JSValue) (t : Table) (r : Record)
    (hr : r ∈ (addAll t (ids.map (Sales.tombstone u))).1.rows) :
    r ∈ t.rows ∨ ∃ id ∈ ids, r.get "entity_id" = id := by
  induction ids generalizing t with
  | nil => exact Or.inl hr
  | cons id rest ih =>
    simp only [List.map_cons] at hr
    unfold addAll at hr
    cases hadd : t.add (Sales.tombstone u id) with
    | error e =>
      rw [hadd] at hr
      rcases ih t hr with h | ⟨id1, hid1, h⟩
      · exact Or.inl h
      · exact Or.inr ⟨id1, List.mem_cons_of_mem id hid1, h⟩
    | ok t1 =>
      rw [hadd] at hr
      rcases ih t1 hr with h | ⟨id1, hid1, h⟩
      · rcases Table.mem_of_add t t1 _ r hadd h with h | ⟨_, h⟩ | ⟨_, h⟩
        · exact Or.inl h
        · exact Or.inr ⟨id, List.mem_cons_self id rest, by rw [h]; simp [Sales.tombstone, Record.get]⟩
        · exact Or.inr ⟨id, List.mem_cons_self id rest,
            by rw [h]; exact (Sales.stored_tombstone_fields u id _).2.1⟩
      · exact Or.inr ⟨id1, List.mem_cons_of_mem id hid1, h⟩

/-- The id of a normalized sale is the id of the item. -/
theorem Sales.normalize_id (item : JsonItem) (s : Record) (h : Sales.normalize item = .ok s) :
    s.get "id" = item.get "id" := by
  unfold Sales.normalize at h
  split at h
  · cases h
  · cases h
    simp [Record.get]

/-- The ids of the normalized sales are ids of the items. -/
theorem Sales.normalizeAll_confirmed (confirmed : JSValue → Bool) (items : List JsonItem)
    (shown : List Record) (h : Sales.normalizeAll items = .ok shown)
    (hitems : ∀ item ∈ items, confirmed (item.get "id") = true) :
    ∀ s ∈ shown, confirmed (s.get "id") = true := by
  intro s hs
  obtain ⟨item, hitem, hcall⟩ := mem_of_mapM_ok _ _ _ h s hs
  rw [Sales.normalize_id item s hcall]
  exact hitems item hitem

/-- The items of a list answer of a server whose ids `confirmed` knows. -/
theorem Sales.Env.gives_list (confirmed : JSValue → Bool) (env : Sales.Env)
    (hgives : env.gives confirmed) (request : Sales.Request) (response : Sales.Listed)
    (h : env.list request = .ok response) :
    ∀ item ∈ response.items.getD [], confirmed (item.get "id") = true := by
  cases response with
  | mk items =>
    cases items with
    | none => intro item hitem; cases hitem
    | some items => exact hgives.2 request items h

/-- The normalized rows of the local table carry the ids of the rows. -/
theorem Sales.normalizeAll_rows (confirmed : JSValue → Bool) (rows shown : List Record)
    (h : Sales.normalizeAll (rows.map JsonItem.object) = .ok shown)
    (hrows : ∀ row ∈ rows, confirmed (row.get "id") = true) :
    ∀ s ∈ shown, confirmed (s.get "id") = true := by
  apply Sales.normalizeAll_confirmed confirmed _ shown h
  intro item hitem
  obtain ⟨row, hrow, rfl⟩ := List.mem_map.mp hitem
  exact hrows row hrow

/-- `syncPendingDeletions` keeps the ids confirmed. -/
theorem Sales.syncPendingDeletions_confirmed (confirmed : JSValue → Bool) (env : Sales.Env)
    (user : Option User) (page : Sales.Page) (db : Store) (hgives : env.gives confirmed)
    (hinv : Sales.idsConfirmed confirmed (page, db)) :
    Sales.idsConfirmed confirmed ((Sales.syncPendingDeletions env user page db).page,
      (Sales.syncPendingDeletions env user page db).db) := by
  have hcleared : Sales.idsConfirmed confirmed
      (page, { db with pendingDeletions := db.pendingDeletions.clear }) :=
    ⟨hinv.1, hinv.2.1, fun row hrow => by simp [Table.clear] at hrow⟩
  unfold Sales.syncPendingDeletions
  simp only []
  cases user with
  | none => exact hinv
  | some u =>
    simp only []
    split
    · exact hinv
    · split
      · exact hinv
      · split
        · exact hinv
        · split
          · exact hinv
          · split
            · exact hcleared
            · rename_i salesResponse hlist
              split
              · exact hcleared
              · rename_i shown hshown
                exact ⟨Sales.normalizeAll_confirmed confirmed _ shown hshown
                  (Sales.Env.gives_list confirmed env hgives _ _ hlist), hcleared.2.1, hcleared.2.2⟩

/-- The `catch` block of `fetchData` keeps the ids confirmed. -/
theorem Sales.fetchCatch_confirmed (confirmed : JSValue → Bool) (page : Sales.Page)
    (db : Store) (requests : List Sales.Request) (err : JSError)
    (hinv : Sales.idsConfirmed confirmed (page, db)) :
    Sales.idsConfirmed confirmed ((Sales.fetchCatch page db requests err).page,
      (Sales.fetchCatch page db requests err).db) := by
  unfold Sales.fetchCatch
  simp only []
  split
  · split
    · exact hinv
    · rename_i shown hshown
      exact ⟨Sales.normalizeAll_rows confirmed _ shown hshown hinv.2.1, hinv.2.1, hinv.2.2⟩
  · exact hinv

/-- `fetchData` keeps the ids confirmed. -/
theorem Sales.fetchData_confirmed (confirmed : JSValue → Bool) (env : Sales.Env)
    (others reading : Option JSError) (user : Option User) (page : Sales.Page) (db : Store)
    (hgives : env.gives confirmed) (hinv : Sales.idsConfirmed confirmed (page, db)) :
    Sales.idsConfirmed confirmed ((Sales.fetchData env others reading user page db).page,
      (Sales.fetchData env others reading user page db).db) := by
  unfold Sales.fetchData
  cases user with
  | none => exact Sales.fetchCatch_confirmed confirmed _ _ _ _ hinv
  | some u =>
    simp only []
    split
    · exact Sales.fetchCatch_confirmed confirmed _ _ _ _ hinv
    · split
      · exact Sales.fetchCatch_confirmed confirmed _ _ _ _ hinv
      · split
        · exact Sales.fetchCatch_confirmed confirmed _ _ _ _ hinv
        · rename_i salesResponse hlist
          split
          · exact Sales.fetchCatch_confirmed confirmed _ _ _ _ hinv
          · rename_i shown hshown
            have hinv1 : Sales.idsConfirmed confirmed ({ page with sales := shown }, db) :=
              ⟨Sales.normalizeAll_confirmed confirmed _ shown hshown
                (Sales.Env.gives_list confirmed env hgives _ _ hlist), hinv.2.1, hinv.2.2⟩
            split
            · exact Sales.fetchCatch_confirmed confirmed _ _ _ _ hinv1
            · exact Sales.syncPendingDeletions_confirmed confirmed env _ _ _ hgives hinv1

/-- The `catch` block of `handleDelete` keeps the ids confirmed when the id is. -/
theorem Sales.deleteCatch_confirmed (confirmed : JSValue → Bool) (user : Option User)
    (id : JSValue) (page : Sales.Page) (db : Store) (requests : List Sales.Request)
    (err : JSError) (hid : confirmed id = true)
    (hinv : Sales.idsConfirmed confirmed (page, db)) :
    Sales.idsConfirmed confirmed ((Sales.deleteCatch user id page db requests err).page,
      (Sales.deleteCatch user id page db requests err).db) := by
  unfold Sales.deleteCatch
  simp only []
  split
  · cases user with
    | none => exact hinv
    | some u =>
      simp only []
      split
      · exact hinv
      · rename_i pending hadd
        have hpending : ∀ row ∈ pending.rows, confirmed (row.get "entity_id") = true := by
          intro row hrow
          rcases Table.mem_of_add _ _ _ row hadd hrow with h | ⟨_, h⟩ | ⟨_, h⟩
          · exact hinv.2.2 row h
          · rw [h]
            simpa [Sales.tombstone, Record.get] using hid
          · rw [h, (Sales.stored_tombstone_fields u id _).2.1]
            exact hid
        have hlist : ∀ s ∈ page.sales.filter (fun s => !(s.get "id").strictEq id),
            confirmed (s.get "id") = true :=
          fun s hs => hinv.1 s (List.mem_filter.mp hs).1
        split
        · exact ⟨hlist, hinv.2.1, hpending⟩
        · rename_i sales hdelete
          exact ⟨hlist, fun row hrow => hinv.2.1 row (Table.mem_of_delete _ _ _ row hdelete hrow),
            hpending⟩
  · exact hinv

/-- `handleDelete` keeps the ids confirmed when the id is. -/
theorem Sales.handleDelete_confirmed (confirmed : JSValue → Bool) (env : Sales.Env)
    (user : Option User) (id : JSValue) (page : Sales.Page) (db : Store)
    (hid : confirmed id = true) (hinv : Sales.idsConfirmed confirmed (page, db)) :
    Sales.idsConfirmed confirmed ((Sales.handleDelete env user id page db).page,
      (Sales.handleDelete env user id page db).db) := by
  unfold Sales.handleDelete
  split
  · exact hinv
  · cases user with
    | none => exact Sales.deleteCatch_confirmed confirmed _ id _ _ _ _ hid hinv
    | some u =>
      simp only []
      split
      · exact Sales.deleteCatch_confirmed confirmed _ id _ _ _ _ hid hinv
      · have hinv1 : Sales.idsConfirmed confirmed
            ({ page with sales := page.sales.filter (fun s => !(s.get "id").strictEq id) }, db) :=
          ⟨fun s hs => hinv.1 s (List.mem_filter.mp hs).1, hinv.2.1, hinv.2.2⟩
        split
        · exact Sales.deleteCatch_confirmed confirmed _ id _ _ _ _ hid hinv
        · split
          · exact Sales.deleteCatch_confirmed confirmed _ id _ _ _ _ hid hinv1
          · rename_i sales hdelete
            exact ⟨hinv1.1,
              fun row hrow => hinv.2.1 row (Table.mem_of_delete _ _ _ row hdelete hrow), hinv.2.2⟩

/-- The `catch` block of `handleSubmit` keeps the ids confirmed. -/
theorem Sales.submitCatch_confirmed (confirmed : JSValue → Bool) (page : Sales.Page)
    (db : Store) (requests : List Sales.Request) (toasts : List Toast) (err : JSError)
    (hinv : Sales.idsConfirmed confirmed (page, db)) :
    Sales.idsConfirmed confirmed ((Sales.submitCatch page db requests toasts err).page,
      (Sales.submitCatch page db requests toasts err).db) := by
  unfold Sales.submitCatch
  simp only []
  split <;> exact hinv

/-- The refresh of the list after a submit keeps the ids confirmed. -/
theorem Sales.refresh_confirmed (confirmed : JSValue → Bool) (env : Sales.Env) (u : User)
    (page : Sales.Page) (db : Store) (requests : List Sales.Request) (toasts : List Toast)
    (hgives : env.gives confirmed) (hinv : Sales.idsConfirmed confirmed (page, db)) :
    Sales.idsConfirmed confirmed ((Sales.refresh env u page db requests toasts).page,
      (Sales.refresh env u page db requests toasts).db) := by
  unfold Sales.refresh
  simp only []
  split
  · exact Sales.submitCatch_confirmed confirmed _ _ _ _ _ hinv
  · rename_i salesResponse hlist
    split
    · exact Sales.submitCatch_confirmed confirmed _ _ _ _ _ hinv
    · rename_i shown hshown
      exact ⟨Sales.normalizeAll_confirmed confirmed _ shown hshown
        (Sales.Env.gives_list confirmed env hgives _ _ hlist), hinv.2.1, hinv.2.2⟩

/-- `handleSubmit` keeps the ids confirmed. -/
theorem Sales.handleSubmit_confirmed (confirmed : JSValue → Bool) (env : Sales.Env)
    (user : Option User) (page : Sales.Page) (db : Store) (hgives : env.gives confirmed)
    (hinv : Sales.idsConfirmed confirmed (page, db)) :
    Sales.idsConfirmed confirmed ((Sales.handleSubmit env user page db).page,
      (Sales.handleSubmit env user page db).db) := by
  unfold Sales.handleSubmit
  split
  · exact hinv
  · cases user with
    | none => exact Sales.submitCatch_confirmed confirmed _ _ _ _ _ hinv
    | some u =>
      simp only []
      split
      · exact Sales.submitCatch_confirmed confirmed _ _ _ _ _ hinv
      · split
        · split
          · exact Sales.submitCatch_confirmed confirmed _ _ _ _ _ hinv
          · exact Sales.refresh_confirmed confirmed env u _ _ _ _ hgives hinv
        · split
          · exact Sales.submitCatch_confirmed confirmed _ _ _ _ _ hinv
          · rename_i response hsubmit
            split
            · exact Sales.submitCatch_confirmed confirmed _ _ _ _ _ hinv
            · rename_i id hid
              have hresponse : response = ⟨some id⟩ := by
                cases response
                simp only [] at hid
                rw [hid]
              rw [hresponse] at hsubmit
              obtain ⟨hconfirmed, hdefined⟩ := hgives.1 _ id hsubmit
              split
              · exact Sales.submitCatch_confirmed confirmed _ _ _ _ _ hinv
              · rename_i sales hadd
                apply Sales.refresh_confirmed confirmed env u _ _ _ _ hgives
                refine ⟨hinv.1, ?_, hinv.2.2⟩
                intro row hrow
                have hkey : ∀ payload : Record, (((payload.set "id" id).set "buyer_id"
                    (payload.get "buyer_id")).set "farm_id" u.farm_id).get "id" = id := by
                  intro payload
                  rw [Record.get_set_ne _ _ _ _ (by decide),
                    Record.get_set_ne _ _ _ _ (by decide), Record.get_set_eq]
                rcases Table.mem_of_add _ _ _ row hadd hrow with h | ⟨_, h⟩ | ⟨h, _⟩
                · exact hinv.2.1 row h
                · rw [h, hkey]
                  exact hconfirmed
                · exact absurd (by rw [← h, Record.key, hkey]) hdefined

/-- The `catch` block of `handleBulkDelete` keeps the ids confirmed. -/
theorem Sales.bulkDeleteCatch_confirmed (confirmed : JSValue → Bool)
    (parse : String → JSNumber) (user : Option User) (page : Sales.Page) (db : Store)
    (requests : List Sales.Request) (toasts : List Toast) (err : JSError)
    (hinv : Sales.idsConfirmed confirmed (page, db)) :
    Sales.idsConfirmed confirmed
      ((Sales.bulkDeleteCatch parse user page db requests toasts err).page,
        (Sales.bulkDeleteCatch parse user page db requests toasts err).db) := by
  have hids : ∀ id ∈ Sales.tempIds parse page, confirmed id = true := by
    intro id hid
    obtain ⟨s, hs, rfl⟩ := List.mem_map.mp hid
    exact hinv.1 s (List.mem_filter.mp hs).1
  have hlist : ∀ s ∈ page.sales.filter (fun s =>
      !((Sales.tempIds parse page).any (fun id => sameValueZero id (s.get "id")))),
      confirmed (s.get "id") = true :=
    fun s hs => hinv.1 s (List.mem_filter.mp hs).1
  unfold Sales.bulkDeleteCatch
  simp only []
  split
  · split
    · exact hinv
    · rename_i rows hrows
      have hpending : ∀ row ∈ (addAll db.pendingDeletions rows).1.rows,
          confirmed (row.get "entity_id") = true := by
        intro row hrow
        cases user with
        | none =>
          simp only [] at hrows
          split at hrows
          · cases hrows
            exact hinv.2.2 row hrow
          · cases hrows
        | some u =>
          simp only [] at hrows
          cases hrows
          rcases Sales.mem_of_addAll u _ _ row hrow with h | ⟨id, hid, h⟩
          · exact hinv.2.2 row h
          · rw [h]
            exact hids id hid
      split
      · exact ⟨hinv.1, hinv.2.1, hpending⟩
      · split
        · exact ⟨hlist, fun row hrow => hinv.2.1 row (mem_of_deleteAll _ _ row hrow), hpending⟩
        · exact ⟨hlist, fun row hrow => hinv.2.1 row (mem_of_deleteAll _ _ row hrow), hpending⟩
  · exact hinv

/-- `handleBulkDelete` keeps the ids confirmed. -/
theorem Sales.handleBulkDelete_confirmed (confirmed : JSValue → Bool)
    (parse : String → JSNumber) (env : Sales.Env) (user : Option User) (page : Sales.Page)
    (db : Store) (hgives : env.gives confirmed)
    (hinv : Sales.idsConfirmed confirmed (page, db)) :
    Sales.idsConfirmed confirmed ((Sales.handleBulkDelete parse env user page db).page,
      (Sales.handleBulkDelete parse env user page db).db) := by
  unfold Sales.handleBulkDelete
  split
  · exact hinv
  · split
    · exact hinv
    · cases user with
      | none => exact Sales.bulkDeleteCatch_confirmed confirmed parse _ _ _ _ _ _ hinv
      | some u =>
        simp only []
        split
        · exact Sales.bulkDeleteCatch_confirmed confirmed parse _ _ _ _ _ _ hinv
        · split
          · exact Sales.bulkDeleteCatch_confirmed confirmed parse _ _ _ _ _ _ hinv
          · split
            · exact Sales.bulkDeleteCatch_confirmed confirmed parse _ _ _ _ _ _ hinv
            · rename_i salesResponse hlist
              split
              · exact Sales.bulkDeleteCatch_confirmed confirmed parse _ _ _ _ _ _ hinv
              · rename_i shown hshown
                exact ⟨Sales.normalizeAll_confirmed confirmed _ shown hshown
                  (Sales.Env.gives_list confirmed env hgives _ _ hlist), hinv.2.1, hinv.2.2⟩

/-- The store after `syncRecords`: as it was, or with the five tables cleared. -/
theorem syncRecords_store (env : SyncEnv) (token : JSValue) (db : Store) :
    (syncRecords env token db).2.1 = db ∨ (syncRecords env token db).2.1 = clearSynced db := by
  unfold syncRecords
  split
  · exact Or.inl rfl
  · simp only []
    split
    · exact Or.inl rfl
    · split
      · exact Or.inl rfl
      · split
        · exact Or.inr rfl
        · split <;> exact Or.inr rfl

/-- One event of the sales page keeps the ids confirmed. -/
theorem Sales.step_confirmed (confirmed : JSValue → Bool) (state : Sales.Page × Store)
    (event : Sales.Event) (hgives : event.gives confirmed)
    (hinv : Sales.idsConfirmed confirmed state) :
    Sales.idsConfirmed confirmed (Sales.step state event) := by
  cases event with
  | mount => exact ⟨fun s hs => (by cases hs), hinv.2.1, hinv.2.2⟩
  | fetch env others reading user =>
    exact Sales.fetchData_confirmed confirmed env others reading user _ _ hgives hinv
  | form event =>
    refine ⟨?_, hinv.2.1, hinv.2.2⟩
    cases event <;> exact hinv.1
  | dates name value => exact hinv
  | submit env user => exact Sales.handleSubmit_confirmed confirmed env user _ _ hgives hinv
  | delete env user index =>
    simp only [Sales.step]
    split
    · exact hinv
    · rename_i sale hsale
      exact Sales.handleDelete_confirmed confirmed env user _ _ _
        (hinv.1 sale (List.getElem?_mem hsale)) hinv
  | bulkDelete parse env user =>
    exact Sales.handleBulkDelete_confirmed confirmed parse env user _ _ hgives hinv
  | syncRecords env token =>
    simp only [Sales.step]
    rcases syncRecords_store env token state.2 with h | h
    · rw [h]
      exact hinv
    · rw [h]
      refine ⟨hinv.1, ?_, hinv.2.2⟩
      intro row hrow
      simp [clearSynced, clearOfflineRecords, Table.clear] at hrow
  | clear type =>
    simp only [Sales.step]
    cases type <;> refine ⟨hinv.1, ?_, hinv.2.2⟩ <;> intro row hrow <;>
      first
        | exact hinv.2.1 row hrow
        | (simp [clearOfflineRecords, Table.clear] at hrow)

/-- The events of the sales page keep the ids confirmed. -/
theorem Sales.foldl_step_confirmed (confirmed : JSValue → Bool) (events : List Sales.Event)
    (state : Sales.Page × Store) (hgives : ∀ event ∈ events, event.gives confirmed)
    (hinv : Sales.idsConfirmed confirmed state) :
    Sales.idsConfirmed confirmed (events.foldl Sales.step state) := by
  induction events generalizing state with
  | nil => exact hinv
  | cons event rest ih =>
    exact ih _ (fun e he => hgives e (List.mem_cons_of_mem event he))
      (Sales.step_confirmed confirmed state event (hgives event (List.mem_cons_self event rest))
        hinv)

/-- C12: take any sequence of events of the sales page and of the local store, from the
first render and the empty store: the page is opened, its data is fetched, the form and
the dates are edited, a sale is submitted, the 'Delete' button of a listed sale is pressed,
a bulk delete is made, the sync page submits or clears the local tables; the server may be
reached or not at each of them.  If `confirmed` holds of every id that the server gives in
its answers, then every tombstone in `pendingDeletions` is for an id that the server has
given, and so is every row of the local sales table and every listed sale: no sale exists
only locally, and no tombstone is made for one. -/
theorem tombstones_only_for_confirmed_sales (confirmed : JSValue → Bool)
    (events : List Sales.Event) (hgives : ∀ event ∈ events, event.gives confirmed) :
    (∀ row ∈ (Sales.run events).2.pendingDeletions.rows,
      confirmed (row.get "entity_id") = true) ∧
    (∀ row ∈ (Sales.run events).2.sales.rows, confirmed (row.get "id") = true) ∧
    (∀ s ∈ (Sales.run events).1.sales, confirmed (s.get "id") = true) := by
  have h := Sales.foldl_step_confirmed confirmed events (Sales.initialPage, Store.empty) hgives
    ⟨fun s hs => (by cases hs), fun row hrow => (by cases hrow), fun row hrow => (by cases hrow)⟩
  exact ⟨h.2.2, h.2.1, h.1⟩

/-- C12 for a page that lists the sales 7 and 9 of the server and the offline delete of
sale 7: the one tombstone is for the id 7.  A sale submitted while the server cannot be
reached leaves the local sales table and the list empty. -/
theorem tombstones_only_for_confirmed_sales_witness :
    (Sales.run Sales.deleteOfflineEvents).2.pendingDeletions.rows =
      [Sales.storedTombstone 7 1] ∧
    (Sales.run Sales.createOfflineEvents).2.sales.rows = [] ∧
    (Sales.run Sales.createOfflineEvents).1.sales = [] ∧
    ∀ row ∈ (Sales.run Sales.deleteOfflineEvents).2.pendingDeletions.rows,
      Sales.knownIds (row.get "entity_id") = true := by
  have hunreachable : Sales.unreachableEnv.gives Sales.knownIds :=
    ⟨fun request id h => by simp [Sales.unreachableEnv] at h,
      fun request items h => by simp [Sales.unreachableEnv] at h⟩
  have hlisting : Sales.listingEnv.gives Sales.knownIds := by
    refine ⟨fun request id h => by simp [Sales.listingEnv, Sales.unreachableEnv] at h, ?_⟩
    intro request items h item hitem
    simp only [Sales.listingEnv, Except.ok.injEq, Sales.Listed.mk.injEq,
      Option.some.injEq] at h
    subst h
    simp only [List.mem_cons, List.mem_singleton, List.not_mem_nil, or_false] at hitem
    rcases hitem with rfl | rfl <;> decide!
  refine ⟨by decide!, by decide!, by decide!,
    (tombstones_only_for_confirmed_sales Sales.knownIds Sales.deleteOfflineEvents ?_).1⟩
  intro event hevent
  simp only [Sales.deleteOfflineEvents, List.mem_cons, List.mem_singleton,
    List.not_mem_nil, or_false] at hevent
  rcases hevent with rfl | rfl
  · exact hlisting
  · exact hunreachable

end Agriperks
